import Mathlib

/-!
# The logging engine of `src/log.c`: a shallow embedding and its properties

C strings are modelled as the list of their characters before the terminating NUL,
linked lists as Lean lists (head first), `NULL` results as `none`.
-/

set_option autoImplicit false

namespace UnrealLog

/-! ## Data model -/

/-- A C string: the characters before the terminating NUL, a `Char` standing for one C
`char`. -/
abbrev CStr := List Char

/-- Modelled from the spec: the `LogLevel` enum, declared in a header that is not under
`src/`. The spec gives the five levels debug, info, warn, error, fatal; `log.c` names them
`ULOG_DEBUG .. ULOG_FATAL` and uses `ULOG_INVALID` for "no level". -/
inductive LogLevel
  | ULOG_INVALID
  | ULOG_DEBUG
  | ULOG_INFO
  | ULOG_WARNING
  | ULOG_ERROR
  | ULOG_FATAL
  deriving DecidableEq, Repr

open LogLevel

/-- A filter term (`struct LogSource`): an empty `subsystem` or `event_id` array and the
level `ULOG_INVALID` mean that the axis is not constrained. -/
structure LogSource where
  loglevel : LogLevel
  subsystem : CStr
  event_id : CStr
  deriving DecidableEq, Repr

/-- Function `log_sources_match` (log.c 1010-1025): walk the term list, skip a term as soon as one
of its constrained axes differs from the event, return 1 at the first term that is not
skipped and 0 when the list is exhausted. `strcmp(a, b)` is non-zero iff `a ≠ b`. -/
def log_sources_match : List LogSource → LogLevel → CStr → CStr → Nat
  | [], _, _, _ => 0
  | ls :: next, loglevel, subsystem, event_id =>
    if ls.subsystem ≠ [] ∧ ls.subsystem ≠ subsystem then
      log_sources_match next loglevel subsystem event_id
    else if ls.event_id ≠ [] ∧ ls.event_id ≠ event_id then
      log_sources_match next loglevel subsystem event_id
    else if ls.loglevel ≠ ULOG_INVALID ∧ ls.loglevel ≠ loglevel then
      log_sources_match next loglevel subsystem event_id
    else 1

/-- A destination (`struct LogDestination`): the snomask letters or channel name, empty
for all-opers and global, and the filter terms bound to it. -/
structure LogDestination where
  destination : CStr
  sources : List LogSource
  deriving DecidableEq, Repr

/-- The four destination lists of `Configuration` (`iConf` / `tempiConf`) that log.c uses. -/
structure Configuration where
  logging_snomasks : List LogDestination
  logging_channels : List LogDestination
  logging_all_ircops : List LogDestination
  logging_global : List LogDestination
  deriving DecidableEq, Repr

/-- Array sizes of `struct LogSource` and `struct LogDestination`, which are declared in a
header that is not under `src/`: `sizeof(ls->subsystem)`, `sizeof(ls->event_id)` and
`sizeof(d->destination)`. They are taken as parameters. -/
structure Sizes where
  subsystem : Nat
  event_id : Nat
  destination : Nat
  deriving DecidableEq, Repr

/-- What log.c reads of `client->user`. -/
structure User where
  username : CStr
  realhost : CStr
  deriving DecidableEq, Repr

/-- What `json_expand_client` reads of a `Client`. The macros and functions it calls that
are defined outside `src/` are represented by their result on this client:
`get_ip` is `GetIP(client)`, `account` is `client->user->svid` when `IsLoggedIn(client)`
and `none` otherwise, `is_user` is `IsUser(client)`, `reputation` is
`GetReputation(client)`, `known_user` is
`user_allowed_by_security_group_name(client, "known-users")`, and `securitygroups` is the
global list of security groups, each name paired with
`user_allowed_by_security_group(client, s)`. `sockhost` is `client->local->sockhost` when
`client->local` is set, `servername` is `client->srvptr->name` when both are set. -/
structure Client where
  name : CStr
  user : Option User
  sockhost : Option CStr
  get_ip : CStr
  ip : Option CStr
  info : CStr
  servername : Option CStr
  account : Option CStr
  is_user : Bool
  reputation : Int
  known_user : Bool
  securitygroups : List (CStr × Bool)
  deriving DecidableEq, Repr

/-- A configuration entry (`ConfigEntry`): name, optional value, sub-entries. -/
inductive ConfigEntry
  | mk (ce_varname : CStr) (ce_vardata : Option CStr) (ce_entries : List ConfigEntry)

/-- Field `ce_varname`. -/
def ConfigEntry.ce_varname : ConfigEntry → CStr
  | .mk n _ _ => n

/-- Field `ce_vardata` (`none` for NULL). -/
def ConfigEntry.ce_vardata : ConfigEntry → Option CStr
  | .mk _ v _ => v

/-- Field `ce_entries`. -/
def ConfigEntry.ce_entries : ConfigEntry → List ConfigEntry
  | .mk _ _ es => es

/-! ## libc helpers (C locale) -/

/-- The value `*s` for a C string: its first character, NUL when the string is empty. -/
def deref (s : CStr) : Char := s.headD (Char.ofNat 0)

/-- Function `isupper` in the C locale. -/
def isupper (c : Char) : Bool := decide (65 ≤ c.toNat ∧ c.toNat ≤ 90)

/-- Function `islower` in the C locale. -/
def islower (c : Char) : Bool := decide (97 ≤ c.toNat ∧ c.toNat ≤ 122)

/-- Function `isdigit`. -/
def isdigit (c : Char) : Bool := decide (48 ≤ c.toNat ∧ c.toNat ≤ 57)

/-- Function `isalnum` in the C locale. -/
def isalnum (c : Char) : Bool := isupper c || islower c || isdigit c

/-- Function `strlcpy(dst, src, size)` for `size ≥ 1`: the content of `dst` afterwards. -/
def strlcpy (src : CStr) (size : Nat) : CStr := src.take (size - 1)

/-- The conversion of an integer value to `int` (32 bits, two's complement): the value is
reduced modulo `2^32` into the range from `-2^31` to `2^31 - 1`. -/
def to_int (n : Int) : Int := (n + 2 ^ 31) % 2 ^ 32 - 2 ^ 31

/-- The conversion of an `int` to `size_t` (64 bits), as in the comparison
`n < strlen(text_buf)` (log.c 976, 990) and in the size argument of `strlcpy` (log.c 838):
-1 becomes the largest value. -/
def to_size_t (n : Int) : Nat := (n % 2 ^ 64).toNat

/-- Function `strlcat(dst, src, size)`: the content of `dst` afterwards. Nothing is appended when
`dst` already fills the buffer. -/
def strlcat (dst src : CStr) (size : Nat) : CStr :=
  if dst.length < size then (dst ++ src).take (size - 1) else dst

/-- Function `strchr(s, c)` used to cut `s` at the first `c`: the part before it, and the part
after it when `c` occurs (`none` is the NULL result). -/
def splitAtChar (c : Char) : CStr → CStr × Option CStr
  | [] => ([], none)
  | x :: xs =>
    if x = c then ([], some xs)
    else ((x :: (splitAtChar c xs).1), (splitAtChar c xs).2)

/-! ## Levels -/

/-- Function `log_level_valtostring` (log.c 680-697). -/
def log_level_valtostring : LogLevel → Option CStr
  | ULOG_DEBUG => some "debug".toList
  | ULOG_INFO => some "info".toList
  | ULOG_WARNING => some "warn".toList
  | ULOG_ERROR => some "error".toList
  | ULOG_FATAL => some "fatal".toList
  | ULOG_INVALID => none

/-- Function `log_level_stringtoval` (log.c 699-712). -/
def log_level_stringtoval (str : CStr) : LogLevel :=
  if str = "info".toList then ULOG_INFO
  else if str = "warn".toList then ULOG_WARNING
  else if str = "error".toList then ULOG_ERROR
  else if str = "fatal".toList then ULOG_FATAL
  else if str = "debug".toList then ULOG_DEBUG
  else ULOG_INVALID

/-! ## Taxonomy validation -/

/-- Macro `validvarcharacter` (log.c 714). -/
def validvarcharacter (x : Char) : Bool := isalnum x || x == '_'

/-- Macro `valideventidcharacter` (log.c 715). -/
def valideventidcharacter (x : Char) : Bool := isupper x || isdigit x || x == '_'

/-- Macro `validsubsystemcharacter` (log.c 716). -/
def validsubsystemcharacter (x : Char) : Bool := islower x || isdigit x || x == '_'

/-- The `for` loop of `valid_event_id` (log.c 722-725). -/
def valid_event_id_loop : CStr → Nat
  | [] => 1
  | c :: s => if !valideventidcharacter c then 0 else valid_event_id_loop s

/-- Function `valid_event_id` (log.c 718-726). -/
def valid_event_id (s : CStr) : Nat :=
  if s = [] then 0 else valid_event_id_loop s

/-- The `for` loop of `valid_subsystem` (log.c 732-735). -/
def valid_subsystem_loop : CStr → Nat
  | [] => 1
  | c :: s => if !validsubsystemcharacter c then 0 else valid_subsystem_loop s

/-- Function `valid_subsystem` (log.c 728-736). -/
def valid_subsystem (s : CStr) : Nat :=
  if s = [] then 0 else valid_subsystem_loop s

/-- The spec's `^[a-z0-9_]+$`: non-empty, every character a lowercase ASCII letter, a
digit or an underscore. -/
def matches_lower_pattern (s : CStr) : Prop :=
  s ≠ [] ∧ ∀ c ∈ s, ('a' ≤ c ∧ c ≤ 'z') ∨ ('0' ≤ c ∧ c ≤ '9') ∨ c = '_'

/-- The spec's `^[A-Z0-9_]+$`: non-empty, every character an uppercase ASCII letter, a
digit or an underscore. -/
def matches_upper_pattern (s : CStr) : Prop :=
  s ≠ [] ∧ ∀ c ∈ s, ('A' ≤ c ∧ c ≤ 'Z') ∨ ('0' ≤ c ∧ c ≤ '9') ∨ c = '_'

/-! ## JSON values (the jansson library) -/

/-- JSON values as far as log.c builds and inspects them. An object keeps its members in
insertion order. -/
inductive Json
  | null
  | string (s : CStr)
  | integer (n : Int)
  | array (l : List Json)
  | object (members : List (CStr × Json))

/-- Look a key up in a member list. -/
def members_get : List (CStr × Json) → CStr → Option Json
  | [], _ => none
  | (k, v) :: rest, key => if k = key then some v else members_get rest key

/-- Function `json_object_get(t, key)`: the member called `key`, NULL when there is none or when
`t` is not an object. -/
def json_object_get (t : Json) (key : CStr) : Option Json :=
  match t with
  | .object members => members_get members key
  | _ => none

/-- Function `json_is_object(t)`. -/
def json_is_object : Json → Bool
  | .object _ => true
  | _ => false

/-- Set a key in a member list: an existing member keeps its place and gets the new value,
a new member goes to the end. -/
def members_set : List (CStr × Json) → CStr → Json → List (CStr × Json)
  | [], key, value => [(key, value)]
  | (k, v) :: rest, key, value =>
    if k = key then (k, value) :: rest else (k, v) :: members_set rest key value

/-- Function `utf8_check_first` of the jansson library on the byte `u`: the length of the
UTF-8 sequence that `u` starts, 0 when `u` starts none (a continuation byte, `0xC0`,
`0xC1`, or a byte above `0xF4`). -/
def utf8_check_first (u : Nat) : Nat :=
  if u < 0x80 then 1
  else if u ≤ 0xBF then 0
  else if u = 0xC0 ∨ u = 0xC1 then 0
  else if u ≤ 0xDF then 2
  else if u ≤ 0xEF then 3
  else if u ≤ 0xF4 then 4
  else 0

/-- Function `utf8_check_full` of the jansson library on the sequence of `size` bytes at the
start of `buffer`: `size` is 2, 3 or 4, the bytes after the first are continuation bytes,
and the code point is at most `0x10FFFF`, is no surrogate and is not encoded longer than
needed. -/
def utf8_check_full (buffer : CStr) (size : Nat) : Bool :=
  let u := (deref buffer).toNat
  let value0 : Nat := if size = 2 then u % 32 else if size = 3 then u % 16 else u % 8
  let continuation := buffer.tail.take (size - 1)
  if size ≠ 2 ∧ size ≠ 3 ∧ size ≠ 4 then false
  else if continuation.any (fun c => decide (c.toNat < 0x80 ∨ 0xBF < c.toNat)) then false
  else
    let value := continuation.foldl (fun v c => v * 64 + c.toNat % 64) value0
    if 0x10FFFF < value then false
    else if 0xD800 ≤ value ∧ value ≤ 0xDFFF then false
    else if (size = 2 ∧ value < 0x80) ∨ (size = 3 ∧ value < 0x800) ∨
        (size = 4 ∧ value < 0x10000) then false
    else true

/-- The loop of `utf8_check_string` of the jansson library. Every round consumes input, so
`fuel = length of the string` rounds suffice. -/
def utf8_check_string_loop : Nat → CStr → Bool
  | _, [] => true
  | 0, _ :: _ => false
  | fuel + 1, c :: rest =>
    let count := utf8_check_first c.toNat
    if count = 0 then false
    else if 1 < count then
      if rest.length + 1 < count then false
      else if !utf8_check_full (c :: rest) count then false
      else utf8_check_string_loop fuel (rest.drop (count - 1))
    else utf8_check_string_loop fuel rest

/-- Function `utf8_check_string(string, strlen(string))` of the jansson library: whether the
bytes of the string are valid UTF-8. -/
def utf8_check_string (s : CStr) : Bool := utf8_check_string_loop s.length s

/-- Function `json_string(value)` of the jansson library for a string `value`: a new string
value, NULL (`none`) when `value` is not valid UTF-8. -/
def json_string (value : CStr) : Option Json :=
  if utf8_check_string value then some (.string value) else none

/-- Function `json_object_set_new(j, key, value)` of the jansson library on the member list of
the object `j`. The call fails and stores nothing when `value` is NULL (`none`) or when
`key` is not valid UTF-8. -/
def json_object_set_new (j : List (CStr × Json)) (key : CStr) (value : Option Json) :
    List (CStr × Json) :=
  if !utf8_check_string key then j
  else
    match value with
    | some v => members_set j key v
    | none => j

/-- Function `json_array_append_new(array, value)` of the jansson library on the element list:
nothing is appended when `value` is NULL. -/
def json_array_append_new (array : List Json) (value : Option Json) : List Json :=
  match value with
  | some v => array ++ [v]
  | none => array

/-- Function `json_object_update_missing(j, other)`: add the members of `other` whose key `j` does
not have yet. -/
def json_object_update_missing (j : List (CStr × Json)) :
    List (CStr × Json) → List (CStr × Json)
  | [] => j
  | (k, v) :: rest =>
    match members_get j k with
    | some _ => json_object_update_missing j rest
    | none => json_object_update_missing (members_set j k v) rest

/-- What `snprintf(buf, sizeof(buf), "%lld", n)` leaves in `buf`: the signed decimal
rendering (32 bytes hold every `long long`). -/
def snprintf_lld (n : Int) : CStr :=
  match n with
  | Int.ofNat m => Nat.toDigits 10 m
  | Int.negSucc m => '-' :: Nat.toDigits 10 (m + 1)

/-- Function `json_get_value` (log.c 738-752): the text of a string or integer, NULL otherwise. -/
def json_get_value (t : Json) : Option CStr :=
  match t with
  | .string s => some s
  | .integer n => some (snprintf_lld n)
  | _ => none

/-! ## Template expansion -/

/-- The scan of log.c 800: the number of characters from `i` to `p`, where `p` is the
first character that neither is a variable character nor is a dot followed by one. -/
def var_end : CStr → Nat
  | [] => 0
  | c :: cs =>
    if validvarcharacter c || (c == '.' && validvarcharacter (deref cs)) then var_end cs + 1
    else 0

/-- Function `strlncat(dst, src, size, n)` on an empty `dst`: at most `n` characters of `src`, and
at most `size - 1` in all. -/
def strlncat_empty (src : CStr) (size n : Nat) : CStr := (src.take n).take (size - 1)

/-- The value a found variable expands to (log.c 811-835): `t` is the field found for
`varname`, `varp` the part of the token after its first dot. -/
def lookup_output (t : Json) (varname : CStr) (varp : Option CStr) : Option CStr :=
  match varp with
  | some key =>
    match json_object_get t key with
    | some m => json_get_value m
    | none => none
  | none =>
    if varname = "socket_error".toList then
      match json_object_get t "error_string".toList with
      | some m => json_get_value m
      | none => none
    else if json_is_object t then
      match json_object_get t "name".toList with
      | some m => json_get_value m
      | none => none
    else json_get_value t

/-- The code at label `literal` (log.c 855-861) for the character `ch`: stop when no room
is left, else store the character and stop when the room is used up, else go on with `k`.
`o` is the text written so far, `left` the value of `int left`; `left--` is taken modulo
`2^32`. -/
def literal_step (o : CStr) (left : Int) (ch : Char) (k : CStr → Int → Option CStr) :
    Option CStr :=
  if left = 0 then some o
  else if to_int (left - 1) = 0 then some (o ++ [ch])
  else k (o ++ [ch]) (to_int (left - 1))

/-- One round of the `for` loop of `buildlogstring` (log.c 782-862) at the character `c`,
followed by `rest`. `o` is the text written so far, `left` the value of the 32-bit
`int left`, and `k i o left` stands for the rounds that follow from input position `i` on.
At a value `output` the call `strlcpy(o, output, left)` gets the size `(size_t)left` and
stores a terminator unless that size is 0, and `left -= strlen(output)` is taken modulo
`2^32`. The result is the C string in `outbuf` at return; it is `none` when the function
returns after an `strlcpy` of size 0, which has stored no terminator. When the value did
not fit and the reduced `left` is positive all the same, `o` moves past the terminator
that `strlcpy` stored, so what the later rounds write is not part of the string in
`outbuf`. -/
def buildlogstring_round (details : Json) (k : CStr → CStr → Int → Option CStr)
    (c : Char) (rest o : CStr) (left : Int) : Option CStr :=
  if c = '$' then
    if deref rest = '$' then
      literal_step o left '$' (k rest.tail)
    else if !validvarcharacter (deref rest) then
      literal_step o left '$' (k rest)
    else
      let n := var_end rest
      let name := strlncat_empty rest 256 n
      let varname := (splitAtChar '.' name).1
      let varp := (splitAtChar '.' name).2
      match json_object_get details varname with
      | some t =>
        match lookup_output t varname varp with
        | some output =>
          if to_int (left - output.length) ≤ 0 then
            (if to_size_t left = 0 then none else some (o ++ strlcpy output (to_size_t left)))
          else if output.length < to_size_t left then
            k (rest.drop n) (o ++ output) (to_int (left - output.length))
          else if to_size_t left = 0 then none
          else some (o ++ strlcpy output (to_size_t left))
        | none => k (rest.drop n) o left
      | none => literal_step o left '$' (k rest)
  else
    literal_step o left c (k rest)

/-- The `for` loop of `buildlogstring` (log.c 782-863): it ends at the end of the input,
where the terminator is stored. Every round consumes input, so `fuel = length of i` rounds
suffice; running out of fuel gives `none` and is not reached from `buildlogstring`
(`buildlogstring_loop_fuel`). -/
def buildlogstring_loop (details : Json) : Nat → CStr → CStr → Int → Option CStr
  | _, [], o, _ => some o
  | 0, _ :: _, _, _ => none
  | fuel + 1, c :: rest, o, left =>
    buildlogstring_round details (buildlogstring_loop details fuel) c rest o left

/-- Function `buildlogstring(inbuf, outbuf, len, details)` (log.c 768-864): the content of `outbuf`
at return. The room starts as `int left = len - 1` (log.c 772), the conversion of
`len - 1` to `int`. -/
def buildlogstring (inbuf : CStr) (len : Nat) (details : Json) : Option CStr :=
  buildlogstring_loop details inbuf.length inbuf [] (to_int ((len : Int) - 1))

/-- The `for` loop of `buildlogstring` run from input position `i` with just the fuel
that `buildlogstring` gives it. -/
def expand (details : Json) (i o : CStr) (left : Int) : Option CStr :=
  buildlogstring_loop details i.length i o left

/-- One round of the scan of `buildlogstring` without the tests of the room: the text that
the character `c`, followed by `rest`, contributes, in front of what `k` gives for the
input that follows. -/
def expansion_round (details : Json) (k : CStr → CStr) (c : Char) (rest : CStr) : CStr :=
  if c = '$' then
    if deref rest = '$' then '$' :: k rest.tail
    else if !validvarcharacter (deref rest) then '$' :: k rest
    else
      let n := var_end rest
      let name := strlncat_empty rest 256 n
      let varname := (splitAtChar '.' name).1
      let varp := (splitAtChar '.' name).2
      match json_object_get details varname with
      | some t =>
        match lookup_output t varname varp with
        | some output => output ++ k (rest.drop n)
        | none => k (rest.drop n)
      | none => '$' :: k rest
  else c :: k rest

/-- The scan of `buildlogstring` without the tests of the room, with fuel as in
`buildlogstring_loop`. -/
def expansion_loop (details : Json) : Nat → CStr → CStr
  | _, [] => []
  | 0, _ :: _ => []
  | fuel + 1, c :: rest => expansion_round details (expansion_loop details fuel) c rest

/-- The spec's output "with unbounded capacity" of a template: the text that the scan of
`buildlogstring` (log.c 782-862) produces when no test of the room ever stops it. -/
def expansion (details : Json) (inbuf : CStr) : CStr :=
  expansion_loop details inbuf.length inbuf

/-- Whether a text ends in an odd number of `$`. When it does not, every `$` at the end of
the text is part of a pair `$$`, and a `$` that follows the text starts a token of its
own. -/
def open_dollar (s : CStr) : Bool :=
  s.foldl (fun odd c => if c = '$' then !odd else false) false

/-! ## Fields and event construction -/

/-- The value of a field (`LogData`): the union `value` together with the tag `type`. A
string field holds NULL when it was built from a NULL string. -/
inductive LogDataValue
  | integer (n : Int)
  | string (s : Option CStr)
  | client (c : Client)
  | object (j : Json)

/-- A field (`LogData`): key and typed value. -/
structure LogData where
  key : CStr
  value : LogDataValue

/-- Function `json_string_possibly_null` (log.c 37-42). -/
def json_string_possibly_null (s : Option CStr) : Option Json :=
  match s with
  | some str => json_string str
  | none => some .null

/-- The loop of `json_expand_client_security_groups` (log.c 384-386) on the element list
`child`. -/
def security_groups_loop : List (CStr × Bool) → List Json → List Json
  | [], child => child
  | (name, allowed) :: next, child =>
    if name ≠ "known-users".toList ∧ allowed = true then
      security_groups_loop next (json_array_append_new child (json_string name))
    else security_groups_loop next child

/-- Function `json_expand_client_security_groups` (log.c 368-387): the array stored under
`security-groups`. -/
def json_expand_client_security_groups (client : Client) : Json :=
  .array (security_groups_loop client.securitygroups
    (if client.known_user then json_array_append_new [] (json_string "known-users".toList)
     else json_array_append_new [] (json_string "unknown-users".toList)))

/-- The object that `json_expand_client` (log.c 389-434) builds for a client. `bufsize` is
`BUFSIZE`, a constant of a header that is not under `src/`; `snprintf` into
`buf[BUFSIZE+1]` keeps the first `BUFSIZE` characters. A member whose text is not valid
UTF-8 is not stored, as `json_string` returns NULL for it. -/
def client_object (bufsize : Nat) (client : Client) : List (CStr × Json) :=
  let child0 : List (CStr × Json) := []
  let child1 := json_object_set_new child0 "name".toList (json_string client.name)
  let child2 :=
    match client.user with
    | some u => json_object_set_new child1 "username".toList (json_string u.username)
    | none => child1
  let hostname : CStr :=
    match client.user, client.sockhost with
    | some u, some h =>
      if u.realhost ≠ [] then u.realhost else if h ≠ [] then h else client.get_ip
    | some u, none => if u.realhost ≠ [] then u.realhost else client.get_ip
    | none, some h => if h ≠ [] then h else client.get_ip
    | none, none => client.get_ip
  let child3 := json_object_set_new child2 "hostname".toList (json_string hostname)
  let child4 := json_object_set_new child3 "ip".toList (json_string_possibly_null client.ip)
  let nuh : CStr :=
    match client.user, client.ip with
    | some u, _ => (client.name ++ ['!'] ++ u.username ++ ['@'] ++ u.realhost).take bufsize
    | none, some ip => (client.name ++ ['@'] ++ ip).take bufsize
    | none, none => client.name
  let child5 := json_object_set_new child4 "nuh".toList (json_string nuh)
  let child6 :=
    if client.info ≠ [] then json_object_set_new child5 "info".toList (json_string client.info)
    else child5
  let child7 :=
    match client.servername with
    | some n => json_object_set_new child6 "servername".toList (json_string n)
    | none => child6
  let child8 :=
    match client.account with
    | some a => json_object_set_new child7 "account".toList (json_string a)
    | none => child7
  if client.is_user then
    json_object_set_new
      (json_object_set_new child8 "reputation".toList
        (some (.integer client.reputation)))
      "security-groups".toList (some (json_expand_client_security_groups client))
  else child8

/-- Function `json_expand_client(j, key, client, detail)` (log.c 389-434) on the member list of
`j`. The new object is stored under `key` first (log.c 392) and filled afterwards; when
`key` is not valid UTF-8 the call of log.c 392 fails, releases the new object, and `j` stays
as it is. -/
def json_expand_client (bufsize : Nat) (j : List (CStr × Json)) (key : CStr)
    (client : Client) : List (CStr × Json) :=
  json_object_set_new j key (some (.object (client_object bufsize client)))

/-- The `while` loop over the variadic fields in `do_unreal_log_internal`
(log.c 1170-1196), on the member list of `j_details`. -/
def add_fields (bufsize : Nat) : List LogData → List (CStr × Json) → List (CStr × Json)
  | [], j_details => j_details
  | d :: next, j_details =>
    match d.value with
    | .integer n =>
      add_fields bufsize next (json_object_set_new j_details d.key (some (.integer n)))
    | .string (some str) =>
      add_fields bufsize next (json_object_set_new j_details d.key (json_string str))
    | .string none => add_fields bufsize next (json_object_set_new j_details d.key (some .null))
    | .client c => add_fields bufsize next (json_expand_client bufsize j_details d.key c)
    | .object obj => add_fields bufsize next (json_object_set_new j_details d.key (some obj))

/-- What `do_unreal_log_internal` has built when it calls the sinks: the rendered message
`msgbuf` and the members of the record `j`. -/
structure BuiltEvent where
  msgbuf : CStr
  j : List (CStr × Json)

/-- Function `do_unreal_log_internal` (log.c 1129-1208) up to the calls of the two sinks. The result
is `none` when the function calls `abort()`. `timestamp` is the result of
`timestamp_iso8601_now()`, `vl` the fields before the NULL sentinel. With the capacity
1024 `buildlogstring` always leaves a terminated string (`buildlogstring_terminated`).
A member of the record whose text is not valid UTF-8 is not stored, as `json_string`
returns NULL for it. -/
def do_unreal_log_internal (bufsize : Nat) (timestamp : CStr) (loglevel : LogLevel)
    (subsystem event_id : CStr) (client : Option Client) (expand_msg : Bool) (msg : CStr)
    (vl : List LogData) : Option BuiltEvent :=
  match log_level_valtostring loglevel with
  | none => none
  | some loglevel_string =>
    if valid_subsystem subsystem = 0 then none
    else if valid_event_id event_id = 0 then none
    else if expand_msg = true ∧ '%' ∈ msg then none
    else
      let j0 : List (CStr × Json) := []
      let j1 := json_object_set_new j0 "timestamp".toList (json_string timestamp)
      let j2 := json_object_set_new j1 "level".toList (json_string loglevel_string)
      let j3 := json_object_set_new j2 "subsystem".toList (json_string subsystem)
      let j4 := json_object_set_new j3 "event_id".toList (json_string event_id)
      let d0 : List (CStr × Json) :=
        match client with
        | some c => json_expand_client bufsize [] "client".toList c
        | none => []
      let j_details := add_fields bufsize vl d0
      let msgbuf : CStr :=
        if expand_msg then (buildlogstring msg 1024 (.object j_details)).getD []
        else strlcpy msg 1024
      let j5 := json_object_set_new j4 "msg".toList (json_string msgbuf)
      some { msgbuf := msgbuf, j := json_object_update_missing j5 j_details }

/-- The text of a variable token after its `$`: `key`, or `key.member`. -/
def variable_token (key : CStr) (member : Option CStr) : CStr :=
  match member with
  | none => key
  | some m => key ++ '.' :: m

/-! ## Configuration of destinations -/

/-- Function `add_log_source` (log.c 268-312). `buf` holds the first 255 characters, is cut at the
first dot, and the two pieces are classified. `subsystem` and `event_id` are `none` while
the C pointers are NULL; `BadPtr` is true for NULL and for the empty string, and the
allocated `LogSource` starts zeroed. -/
def add_log_source (sz : Sizes) (str : CStr) : LogSource :=
  let buf := strlcpy str 256
  let first := (splitAtChar '.' buf).1
  let p := (splitAtChar '.' buf).2
  let loglevel0 := log_level_stringtoval first
  let event_id0 : Option CStr :=
    if loglevel0 = ULOG_INVALID then (if isupper (deref first) then some first else none)
    else none
  let subsystem0 : Option CStr :=
    if loglevel0 = ULOG_INVALID then (if isupper (deref first) then none else some first)
    else none
  let r : LogLevel × Option CStr × Option CStr :=
    match p with
    | none => (loglevel0, subsystem0, event_id0)
    | some q =>
      if isupper (deref q) then (loglevel0, subsystem0, some q)
      else if loglevel0 = ULOG_INVALID then
        let loglevel1 := log_level_stringtoval q
        if loglevel1 = ULOG_INVALID ∧ subsystem0 = none then (loglevel1, some q, event_id0)
        else (loglevel1, subsystem0, event_id0)
      else if subsystem0 = none then (loglevel0, some q, event_id0)
      else (loglevel0, subsystem0, event_id0)
  { loglevel := r.1
    subsystem :=
      match r.2.1 with
      | some s => if s ≠ [] then strlcpy s sz.subsystem else []
      | none => []
    event_id :=
      match r.2.2 with
      | some s => if s ≠ [] then strlcpy s sz.event_id else []
      | none => [] }

/-- Macro `AddListItem(item, list)`: a list primitive of the project whose definition is not
under `src/` and which the spec does not describe. It is modelled as insertion at the head
(log.c 1258 uses the separate `AppendListItem` where it wants insertion at the tail). -/
def AddListItem {α : Type} (item : α) (list : List α) : List α := item :: list

/-- The inner loop of `config_run_set_logging` (log.c 323-327): one term per sub-entry. -/
def build_sources (sz : Sizes) : List ConfigEntry → List LogSource → List LogSource
  | [], sources => sources
  | cep :: next, sources =>
    build_sources sz next (AddListItem (add_log_source sz cep.ce_varname) sources)

/-- Function `config_run_set_logging` (log.c 314-359) on `tempiConf`. The result is `none` when the
code passes a NULL `ce_vardata` to `strlcpy` (a snomask or channel entry without
parameter, which `config_test_set_logging` rejects beforehand). -/
def config_run_set_logging (sz : Sizes) :
    List ConfigEntry → Configuration → Option Configuration
  | [], tempiConf => some tempiConf
  | ce :: next, tempiConf =>
    let sources := build_sources sz ce.ce_entries []
    if ce.ce_varname = "snomask".toList then
      match ce.ce_vardata with
      | none => none
      | some v =>
        let d : LogDestination := ⟨strlcpy v sz.destination, sources⟩
        config_run_set_logging sz next
          { tempiConf with logging_snomasks := AddListItem d tempiConf.logging_snomasks }
    else if ce.ce_varname = "channel".toList then
      match ce.ce_vardata with
      | none => none
      | some v =>
        let d : LogDestination := ⟨strlcpy v sz.destination, sources⟩
        config_run_set_logging sz next
          { tempiConf with logging_channels := AddListItem d tempiConf.logging_channels }
    else if ce.ce_varname = "all-opers".toList then
      let d : LogDestination := ⟨[], sources⟩
      config_run_set_logging sz next
        { tempiConf with logging_all_ircops := AddListItem d tempiConf.logging_all_ircops }
    else if ce.ce_varname = "global".toList then
      let d : LogDestination := ⟨[], sources⟩
      config_run_set_logging sz next
        { tempiConf with logging_global := AddListItem d tempiConf.logging_global }
    else config_run_set_logging sz next tempiConf

/-! ## Routing -/

/-- The loop of `log_to_snomask` (log.c 1041-1045): append the destination of every
snomask destination whose filter matches to the 64-byte buffer `snomasks`. -/
def log_to_snomask_loop (loglevel : LogLevel) (subsystem event_id : CStr) :
    List LogDestination → CStr → CStr
  | [], snomasks => snomasks
  | ld :: next, snomasks =>
    if log_sources_match ld.sources loglevel subsystem event_id ≠ 0 then
      log_to_snomask_loop loglevel subsystem event_id next (strlcat snomasks ld.destination 64)
    else log_to_snomask_loop loglevel subsystem event_id next snomasks

/-- The test of log.c 1037: the all-opers list is not empty and the filter of its first
element matches. -/
def all_ircops_match (iConf : Configuration) (loglevel : LogLevel)
    (subsystem event_id : CStr) : Bool :=
  match iConf.logging_all_ircops with
  | [] => false
  | d :: _ => decide (log_sources_match d.sources loglevel subsystem event_id ≠ 0)

/-- Function `log_to_snomask` (log.c 1031-1048): `some "*"` for all ircops,
`some letters`, or `none` for NULL. -/
def log_to_snomask (iConf : Configuration) (loglevel : LogLevel)
    (subsystem event_id : CStr) : Option CStr :=
  if all_ircops_match iConf loglevel subsystem event_id then some "*".toList
  else
    let snomasks := log_to_snomask_loop loglevel subsystem event_id iConf.logging_snomasks []
    if snomasks ≠ [] then some snomasks else none

/-- The snomask destinations whose filter matches the event, in list order. -/
def matching_snomasks (iConf : Configuration) (loglevel : LogLevel)
    (subsystem event_id : CStr) : List LogDestination :=
  iConf.logging_snomasks.filter
    (fun ld => decide (log_sources_match ld.sources loglevel subsystem event_id ≠ 0))

/-- The destination strings of a list of destinations, one after the other. -/
def concat_destinations : List LogDestination → CStr
  | [] => []
  | ld :: next => ld.destination ++ concat_destinations next

/-! ## Example configurations -/

/-- A `set::logging` block with three all-opers entries, the middle one bound to
`linking`, the outer ones to `nick`. -/
def three_all_opers_entries : List ConfigEntry :=
  [ .mk "all-opers".toList none [.mk "nick".toList none []],
    .mk "all-opers".toList none [.mk "linking".toList none []],
    .mk "all-opers".toList none [.mk "nick".toList none []] ]

/-- The destinations that `three_all_opers_entries` configures. -/
def three_all_opers_conf : Configuration :=
  { logging_snomasks := []
    logging_channels := []
    logging_all_ircops :=
      [ ⟨[], [⟨ULOG_INVALID, "nick".toList, []⟩]⟩,
        ⟨[], [⟨ULOG_INVALID, "linking".toList, []⟩]⟩,
        ⟨[], [⟨ULOG_INVALID, "nick".toList, []⟩]⟩ ]
    logging_global := [] }

/-- Sixty-three snomask destinations `a` followed by one snomask destination `b`, each
bound to a filter term without constraint; no all-opers destination. -/
def sixty_four_snomasks_conf : Configuration :=
  { logging_snomasks :=
      List.replicate 63 ⟨['a'], [⟨ULOG_INVALID, [], []⟩]⟩ ++ [⟨['b'], [⟨ULOG_INVALID, [], []⟩]⟩]
    logging_channels := []
    logging_all_ircops := []
    logging_global := [] }

/-- A default JSON value. -/
instance : Inhabited Json := ⟨Json.null⟩

/-- The JSON value that the loop of log.c 1170-1196 hands to `json_object_set_new` for a
field: NULL (`none`) for a string that is not valid UTF-8. -/
def field_value (bufsize : Nat) (d : LogData) : Option Json :=
  match d.value with
  | .integer n => some (.integer n)
  | .string (some str) => json_string str
  | .string none => some .null
  | .client c => some (.object (client_object bufsize c))
  | .object obj => some obj

/-- The server `me` of `logtest`, named `irc.test.net`: no user, no local part, no
address. -/
def logtest_me : Client :=
  { name := "irc.test.net".toList, user := none, sockhost := none,
    get_ip := "255.255.255.255".toList, ip := none, info := [], servername := none,
    account := none, is_user := false, reputation := 0, known_user := false,
    securitygroups := [] }

/-- The member list of `j_details` when `do_unreal_log_internal` has read all fields
(log.c 1167-1196). -/
def j_details_of (bufsize : Nat) (client : Option Client) (vl : List LogData) :
    List (CStr × Json) :=
  add_fields bufsize vl
    (match client with
     | some c => json_expand_client bufsize [] "client".toList c
     | none => [])

/-- One piece of a source expression, as the spec describes it: a level, a subsystem or an
event id. -/
inductive Piece
  | level (l : LogLevel)
  | subsystem (s : CStr)
  | event_id (e : CStr)

/-- The text of a piece in a source expression. -/
def Piece.text : Piece → CStr
  | .level l => (log_level_valtostring l).getD []
  | .subsystem s => s
  | .event_id e => e

/-- The axis of a piece: 0 for the level, 1 for the subsystem, 2 for the event id. -/
def Piece.axis : Piece → Nat
  | .level _ => 0
  | .subsystem _ => 1
  | .event_id _ => 2

/-- An event agrees with a piece. -/
def Piece.agrees : Piece → LogLevel → CStr → CStr → Prop
  | .level l, lv, _, _ => l = lv
  | .subsystem s, _, sub, _ => s = sub
  | .event_id e, _, _, ev => e = ev

/-- The pieces that `add_log_source` tells apart: one of the five levels; a valid subsystem
that is not a level name and fits the array of the term; a valid event id that starts with
an uppercase letter and fits the array of the term. -/
def Piece.usable (sz : Sizes) : Piece → Prop
  | .level l => l ≠ ULOG_INVALID
  | .subsystem s =>
    valid_subsystem s = 1 ∧ log_level_stringtoval s = ULOG_INVALID ∧ s.length < sz.subsystem
  | .event_id e => valid_event_id e = 1 ∧ isupper (deref e) = true ∧ e.length < sz.event_id

/-- A source expression: the texts of the pieces joined with dots. -/
def join_pieces : List Piece → CStr
  | [] => []
  | [p] => p.text
  | p :: q :: rest => p.text ++ '.' :: join_pieces (q :: rest)

/-! ## The operator notification sink -/

/-- What `do_unreal_log_ircops` hands to the network layer: a `sendto_realops` call, which
broadcasts to all privileged sessions, or a `sendnotice` call to one client. Both carry the
text formatted from `"[%s] %s.%s %s"`. -/
inductive Notice
  | sendto_realops (text : CStr)
  | sendnotice (client : Client) (text : CStr)
  deriving DecidableEq, Repr

/-- The text that the format `"[%s] %s.%s %s"` gives for the level name, the subsystem, the
event id and the message. The sink is only called with one of the five levels, for which
`log_level_valtostring` is not NULL. -/
def ircops_text (loglevel : LogLevel) (subsystem event_id msg : CStr) : CStr :=
  '[' :: ((log_level_valtostring loglevel).getD []) ++ "] ".toList ++ subsystem ++ ['.'] ++
    event_id ++ [' '] ++ msg

/-- The inner loop of log.c 1088-1095 over the letters `p` of `snomask_destinations`: true
when a letter is found in `client_snomasks` (`strchr`), at which point the notice is sent
and the loop is left. -/
def snomask_letter_found (client_snomasks : CStr) : CStr → Bool
  | [] => false
  | p :: rest =>
    if p ∈ client_snomasks then true else snomask_letter_found client_snomasks rest

/-- The loop of log.c 1085-1096 over `oper_list`. `get_snomask_string` is a function of the
server that is not under `src/`. -/
def notify_opers (get_snomask_string : Client → CStr) (snomask_destinations text : CStr) :
    List Client → List Notice
  | [] => []
  | client :: next =>
    if snomask_letter_found (get_snomask_string client) snomask_destinations then
      .sendnotice client text ::
        notify_opers get_snomask_string snomask_destinations text next
    else notify_opers get_snomask_string snomask_destinations text next

/-- Function `do_unreal_log_ircops` (log.c 1051-1097): the calls it makes, in order.
`ircd_booted` is `loop.ircd_booted`; the parameter `json_serialized` is not used by the C
function and is left out. -/
def do_unreal_log_ircops (ircd_booted : Bool) (iConf : Configuration)
    (oper_list : List Client) (get_snomask_string : Client → CStr) (loglevel : LogLevel)
    (subsystem event_id msg : CStr) : List Notice :=
  if !ircd_booted then []
  else if subsystem = "traffic".toList then []
  else
    match log_to_snomask iConf loglevel subsystem event_id with
    | none => [.sendto_realops (ircops_text loglevel subsystem event_id msg)]
    | some snomask_destinations =>
      if snomask_destinations = "*".toList then
        [.sendto_realops (ircops_text loglevel subsystem event_id msg)]
      else
        notify_opers get_snomask_string snomask_destinations
          (ircops_text loglevel subsystem event_id msg) oper_list

/-- An operator session of the examples, told apart by its name; its snomask string is
kept in `info`. -/
def example_oper (name snomasks : CStr) : Client :=
  { logtest_me with name := name, info := snomasks }

/-! ## The disk sink -/

/-- Modelled from the spec: the `LogType` enum, declared in a header that is not under
`src/`. The spec gives the serialization kinds text and structured (json); log.c names
them `LOG_TYPE_TEXT` and `LOG_TYPE_JSON` and uses `LOG_TYPE_INVALID` for an unknown name. -/
inductive LogType
  | LOG_TYPE_INVALID
  | LOG_TYPE_TEXT
  | LOG_TYPE_JSON
  deriving DecidableEq, Repr

open LogType

/-- Function `log_type_stringtoval` (log.c 44-51). -/
def log_type_stringtoval (str : CStr) : LogType :=
  if str = "json".toList then LOG_TYPE_JSON
  else if str = "text".toList then LOG_TYPE_TEXT
  else LOG_TYPE_INVALID

/-- Function `log_type_valtostring` (log.c 53-64). -/
def log_type_valtostring : LogType → Option CStr
  | LOG_TYPE_TEXT => some "text".toList
  | LOG_TYPE_JSON => some "json".toList
  | LOG_TYPE_INVALID => none

/-- Modelled from the spec: the numeric order of the `LogLevel` values, which are declared
in a header that is not under `src/`. The spec lists the levels as debug, info, warn,
error, fatal and speaks of "error-and-above"; `ULOG_INVALID` is put below them. -/
def LogLevel.rank : LogLevel → Nat
  | ULOG_INVALID => 0
  | ULOG_DEBUG => 1
  | ULOG_INFO => 2
  | ULOG_WARNING => 3
  | ULOG_ERROR => 4
  | ULOG_FATAL => 5

/-- A file record (`ConfigItem_log`): `file` and `filefmt` are NULL (`none`) or a string,
`maxsize` is 0 when not configured, `logfd` is `none` for -1. An open descriptor is
represented by the file (inode number) it refers to. -/
structure ConfigItem_log where
  file : Option CStr
  filefmt : Option CStr
  maxsize : Nat
  type : LogType
  logfd : Option Nat
  deriving DecidableEq, Repr

/-- The file system as far as the disk sink uses it: the directory maps a path to the
number of a file, and `data` holds the content of file number `i` at position `i`. A file
lives on when its name is removed or changed, as descriptors refer to the file itself. -/
structure FileSystem where
  names : List (CStr × Nat)
  data : List CStr
  deriving DecidableEq, Repr

/-- What the disk sink emits besides file writes: a line on standard error, a line to the
system logger, or a `config_status` warning about `file`, in its plain form or in the
form that announces the five minutes of silence. -/
inductive DiskOutput
  | stderr (text : CStr)
  | syslog (text : CStr)
  | config_status (file : CStr) (five_minutes_note : Bool)
  deriving DecidableEq, Repr

/-- The state that `do_unreal_log_disk` changes, besides the file records: the static
`last_log_file_warning`, the file system, the outcomes of the coming `fd_fileopen` calls
(`false` for a failure; success when the list is used up), the results of the coming
`write` calls (a negative value for an error, else the number of bytes the system takes
at most; all bytes when the list is used up), and what has been emitted so far. -/
structure DiskEnv where
  last_log_file_warning : Int
  fs : FileSystem
  opens : List Bool
  writes : List Int
  out : List DiskOutput
  deriving DecidableEq, Repr

/-- What `do_unreal_log_disk` reads from its surroundings: the flags of `loop`, whether the
build has `HAVE_SYSLOG`, the value of `TStime()`, the text of `myctime(TStime())` and the
function `unreal_strftime`. -/
structure DiskParams where
  ircd_forked : Bool
  ircd_booted : Bool
  config_test : Bool
  have_syslog : Bool
  now : Int
  myctime : CStr
  unreal_strftime : CStr → CStr

/-- The file number that a path names. -/
def fs_lookup : List (CStr × Nat) → CStr → Option Nat
  | [], _ => none
  | (name, i) :: rest, path => if name = path then some i else fs_lookup rest path

/-- The content of file number `i`. -/
def inode_content (fs : FileSystem) (i : Nat) : CStr := fs.data.getD i []

/-- The content found under a path, `none` when the path does not exist. -/
def file_content (fs : FileSystem) (path : CStr) : Option CStr :=
  (fs_lookup fs.names path).map (inode_content fs)

/-- Append bytes to the content at position `i`. -/
def append_at : List CStr → Nat → CStr → List CStr
  | [], _, _ => []
  | x :: xs, 0, bytes => (x ++ bytes) :: xs
  | x :: xs, i + 1, bytes => x :: append_at xs i bytes

/-- System call `stat(path)`: the size, `none` for -1. -/
def fs_stat (fs : FileSystem) (path : CStr) : Option Nat :=
  (file_content fs path).map List.length

/-- System call `unlink(path)`. -/
def fs_unlink (fs : FileSystem) (path : CStr) : FileSystem :=
  { fs with names := fs.names.filter (fun entry => decide (entry.1 ≠ path)) }

/-- System call `rename(src, dst)`: nothing happens when `src` does not exist. -/
def fs_rename (fs : FileSystem) (src dst : CStr) : FileSystem :=
  match fs_lookup fs.names src with
  | none => fs
  | some i =>
    let others := fs.names.filter (fun entry => decide (entry.1 ≠ src ∧ entry.1 ≠ dst))
    { fs with names := others ++ [(dst, i)] }

/-- Function `fd_fileopen(path, O_CREAT|O_APPEND|O_WRONLY)`: the descriptor (`none` for
-1) and the new state. An existing file is opened, a missing one is created empty. -/
def fd_fileopen (e : DiskEnv) (path : CStr) : Option Nat × DiskEnv :=
  match e.opens with
  | false :: rest => (none, { e with opens := rest })
  | _ =>
    match fs_lookup e.fs.names path with
    | some i => (some i, { e with opens := e.opens.tail })
    | none =>
      let created : FileSystem := ⟨e.fs.names ++ [(path, e.fs.data.length)], e.fs.data ++ [[]]⟩
      (some e.fs.data.length, { e with opens := e.opens.tail, fs := created })

/-- The state with the file contents replaced by `data`. -/
def DiskEnv.with_data (e : DiskEnv) (data : List CStr) : DiskEnv :=
  { e with fs := { e.fs with data := data } }

/-- System call `write(fd, buf, strlen(buf))` on a descriptor opened with `O_APPEND`: the
return value and the new state. -/
def sys_write (e : DiskEnv) (fd : Nat) (buf : CStr) : Int × DiskEnv :=
  match e.writes with
  | [] => ((buf.length : Int), e.with_data (append_at e.fs.data fd buf))
  | w :: rest =>
    if w < 0 then (-1, { e with writes := rest })
    else
      let taken := buf.take w.toNat
      ((taken.length : Int),
        { e with writes := rest }.with_data (append_at e.fs.data fd taken))

/-- Function `tolower` in the C locale. -/
def tolower (c : Char) : Char := if isupper c then Char.ofNat (c.toNat + 32) else c

/-- Whether `strcasecmp(a, b)` is 0. -/
def strcasecmp_eq (a b : CStr) : Bool := decide (a.map tolower = b.map tolower)

/-- The text that `snprintf` leaves in `timebuf[128]` (log.c 877). -/
def disk_timebuf (P : DiskParams) : CStr := (('[' :: P.myctime) ++ "] ".toList).take 127

/-- The text that `snprintf` leaves in `text_buf[2048]` (log.c 878-879): the line
`level subsystem event_id: msg` with its newline, cut to 2047 characters. The sink is only
called with one of the five levels, for which `log_level_valtostring` is not NULL. -/
def disk_text_buf (loglevel : LogLevel) (subsystem event_id msg : CStr) : CStr :=
  (((log_level_valtostring loglevel).getD []) ++ [' '] ++ subsystem ++ [' '] ++ event_id ++
    ": ".toList ++ msg ++ ['\n']).take 2047

/-- The warning code of log.c 957-966 and 996-1005: before boot every failure is reported;
after boot a failure is reported when the last report is more than 300 seconds old, and
the time of the report is stored. `last_log_file_warning` is a `static int` (log.c 869):
the sum `last_log_file_warning + 300` is an `int`, taken modulo `2^32`, and the
assignment of `TStime()` converts the time to `int`. -/
def log_file_warning (P : DiskParams) (file : CStr) (e : DiskEnv) : DiskEnv :=
  if !P.ircd_booted then { e with out := e.out ++ [.config_status file false] }
  else if to_int (e.last_log_file_warning + 300) < P.now then
    { e with out := e.out ++ [.config_status file true],
             last_log_file_warning := to_int P.now }
  else e

/-- The writing code of log.c 971-1006 for the record type `type` on the open descriptor
`fd`. -/
def disk_write (P : DiskParams) (file : CStr) (type : LogType)
    (subsystem text_buf json_serialized : CStr) (fd : Nat) (e : DiskEnv) : DiskEnv :=
  if type = LOG_TYPE_JSON ∧ subsystem ≠ "traffic".toList then
    let r := sys_write e fd json_serialized
    if to_size_t r.1 < text_buf.length then log_file_warning P file r.2
    else (sys_write r.2 fd ['\n']).2
  else if type = LOG_TYPE_TEXT then
    let r1 := sys_write e fd (disk_timebuf P)
    let r := sys_write r1.2 fd text_buf
    if to_size_t r.1 < text_buf.length then log_file_warning P file r.2 else r.2
  else e

/-- The size code of log.c 923-949 for a record whose file is called `file`: when a size
limit is set and the file has reached it, write the closing line, close, remove the old
backup and rename the file to `file.old` (`oldlog[512]`). -/
def disk_maxsize (file : CStr) (l : ConfigItem_log) (e : DiskEnv) : ConfigItem_log × DiskEnv :=
  let reached : Bool :=
    match fs_stat e.fs file with
    | some size => decide (l.maxsize ≤ size)
    | none => false
  if l.maxsize ≠ 0 ∧ reached = true then
    let opened : Option Nat × DiskEnv :=
      match l.logfd with
      | none => fd_fileopen e file
      | some fd => (some fd, e)
    let e1 : DiskEnv :=
      match opened.1 with
      | some fd =>
        (sys_write opened.2 fd "Max file size reached, starting new log file\n".toList).2
      | none => opened.2
    let oldlog : CStr := (file ++ ".old".toList).take 511
    ({ l with logfd := none }, { e1 with fs := fs_rename (fs_unlink e1.fs oldlog) file oldlog })
  else (l, e)

/-- The body of the loop over `conf_log` (log.c 896-1007) for the record `l`: the record
and the state afterwards. A record with neither `file` nor `filefmt`, which
`config_run_log` never builds, is left alone. -/
def disk_record (P : DiskParams) (subsystem text_buf json_serialized : CStr)
    (l : ConfigItem_log) (e : DiskEnv) : ConfigItem_log × DiskEnv :=
  let is_syslog : Bool :=
    match l.file with
    | some f => P.have_syslog && strcasecmp_eq f "syslog".toList
    | none => false
  if is_syslog then (l, { e with out := e.out ++ [.syslog text_buf] })
  else
    let l1 : ConfigItem_log :=
      match l.filefmt with
      | some fmt =>
        let fname := P.unreal_strftime fmt
        let switch : Bool := l.file.isSome && l.logfd.isSome && decide (l.file ≠ some fname)
        { l with logfd := if switch then none else l.logfd, file := some fname }
      | none => l
    match l1.file with
    | none => (l1, e)
    | some file =>
      let r2 := disk_maxsize file l1 e
      match r2.1.logfd with
      | some fd => (r2.1, disk_write P file r2.1.type subsystem text_buf json_serialized fd r2.2)
      | none =>
        let opened := fd_fileopen r2.2 file
        match opened.1 with
        | none => (r2.1, log_file_warning P file opened.2)
        | some fd =>
          ({ r2.1 with logfd := some fd },
            disk_write P file r2.1.type subsystem text_buf json_serialized fd opened.2)

/-- The loop over `conf_log` (log.c 896-1007). -/
def disk_loop (P : DiskParams) (subsystem text_buf json_serialized : CStr) :
    List ConfigItem_log → DiskEnv → List ConfigItem_log × DiskEnv
  | [], e => ([], e)
  | l :: next, e =>
    let r := disk_record P subsystem text_buf json_serialized l e
    let rest := disk_loop P subsystem text_buf json_serialized next r.2
    (r.1 :: rest.1, rest.2)

/-- Function `do_unreal_log_disk` (log.c 867-1008), the variant that is not for Windows:
the file records and the state afterwards. -/
def do_unreal_log_disk (P : DiskParams) (loglevel : LogLevel)
    (subsystem event_id msg json_serialized : CStr) (conf_log : List ConfigItem_log)
    (e : DiskEnv) : List ConfigItem_log × DiskEnv :=
  let text_buf := disk_text_buf loglevel subsystem event_id msg
  let e1 : DiskEnv :=
    if !P.ircd_forked ∧ ULOG_ERROR.rank ≤ loglevel.rank then
      { e with out := e.out ++ [.stderr text_buf] }
    else e
  if P.config_test then (conf_log, e1)
  else disk_loop P subsystem text_buf json_serialized conf_log e1

/-- Example surroundings: a booted, forked server without syslog support at time 1000. -/
def example_params : DiskParams :=
  { ircd_forked := true, ircd_booted := true, config_test := false, have_syslog := false,
    now := 1000, myctime := "Thu Jan  1 00:16:40 1970".toList,
    unreal_strftime := fun fmt => fmt }

/-- Example state: an empty file system, no failures pending, nothing emitted. -/
def example_env : DiskEnv :=
  { last_log_file_warning := 0, fs := ⟨[], []⟩, opens := [], writes := [], out := [] }

/-! ## Configuration tests -/

/-- The loop of `config_test_set_logging` (log.c 218-263) with the counter `errors`.
`valid_channelname` is a function of the server that is not under `src/`. In
`ce->ce_vardata[0]` the string has length 1 (the test before it short-circuits otherwise),
so the character is the first one. -/
def config_test_set_logging_loop (valid_channelname : CStr → Bool) :
    List ConfigEntry → Nat → Nat
  | [], errors => errors
  | ce :: next, errors =>
    if ce.ce_varname = "snomask".toList ∨ ce.ce_varname = "all-opers".toList ∨
        ce.ce_varname = "global".toList ∨ ce.ce_varname = "channel".toList then
      let errors1 : Nat :=
        if ce.ce_varname = "snomask".toList then
          match ce.ce_vardata with
          | none => errors + 1
          | some v =>
            if v.length ≠ 1 ∨ (islower (deref v) || isupper (deref v)) = false then errors + 1
            else errors
        else errors
      let errors2 : Nat :=
        if ce.ce_varname = "channel".toList then
          match ce.ce_vardata with
          | none => errors1 + 1
          | some v => if valid_channelname v = false then errors1 + 1 else errors1
        else errors1
      config_test_set_logging_loop valid_channelname next errors2
    else config_test_set_logging_loop valid_channelname next (errors + 1)

/-- Function `config_test_set_logging` (log.c 214-266): the returned error count. The calls
of `config_error` and its relatives, which only print, are left out. -/
def config_test_set_logging (valid_channelname : CStr → Bool) (ce : ConfigEntry) : Nat :=
  config_test_set_logging_loop valid_channelname ce.ce_entries 0

/-- An ASCII letter, `a`-`z` or `A`-`Z`. -/
def is_ascii_letter (c : Char) : Bool := decide (('a' ≤ c ∧ c ≤ 'z') ∨ ('A' ≤ c ∧ c ≤ 'Z'))

/-- An offending entry of a `set::logging` block, as the spec describes it: one whose
name is not one of snomask, all-opers, global, channel; or a snomask entry whose
parameter is missing or is not exactly one ASCII letter; or a channel entry whose
parameter is missing or not a valid channel name. -/
def entry_offends (valid_channelname : CStr → Bool) (ce : ConfigEntry) : Bool :=
  if ce.ce_varname ∉ ["snomask".toList, "all-opers".toList, "global".toList,
      "channel".toList] then true
  else if ce.ce_varname = "snomask".toList then
    match ce.ce_vardata with
    | some [c] => !is_ascii_letter c
    | _ => true
  else if ce.ce_varname = "channel".toList then
    match ce.ce_vardata with
    | some v => !valid_channelname v
    | none => true
  else false

/-- A `set::logging` block whose only destination lists the source expression `Mixed`. -/
def mixed_case_block : ConfigEntry :=
  .mk "logging".toList none
    [.mk "all-opers".toList none [.mk "Mixed".toList none []]]

/-- The loop of `config_test_log` over the entries of a log block (log.c 92-155): the flags
`has_flags` and `has_maxsize` and the counter `errors` afterwards. The test
`!log_type_stringtoval(..)` holds for `LOG_TYPE_INVALID`, the value 0 of the enum. -/
def config_test_log_loop : List ConfigEntry → Bool → Bool → Nat → Bool × Bool × Nat
  | [], has_flags, has_maxsize, errors => (has_flags, has_maxsize, errors)
  | cep :: next, has_flags, has_maxsize, errors =>
    if cep.ce_varname = "flags".toList then
      if has_flags then config_test_log_loop next has_flags has_maxsize errors
      else if cep.ce_entries.isEmpty then
        config_test_log_loop next true has_maxsize (errors + 1)
      else config_test_log_loop next true has_maxsize errors
    else if cep.ce_varname = "maxsize".toList then
      if has_maxsize then config_test_log_loop next has_flags has_maxsize errors
      else if cep.ce_vardata.isNone then
        config_test_log_loop next has_flags true (errors + 1)
      else config_test_log_loop next has_flags true errors
    else if cep.ce_varname = "type".toList then
      match cep.ce_vardata with
      | none => config_test_log_loop next has_flags has_maxsize (errors + 1)
      | some v =>
        if log_type_stringtoval v = LOG_TYPE_INVALID then
          config_test_log_loop next has_flags has_maxsize (errors + 1)
        else config_test_log_loop next has_flags has_maxsize errors
    else config_test_log_loop next has_flags has_maxsize (errors + 1)

/-- Function `config_test_log` (log.c 68-177): the returned error count. The calls of
`config_error` and its relatives, which only print, are left out.
`convert_to_absolute_path` (with `LOGDIR`) and `unreal_strftime` are functions of the
server that are not under `src/`; `fileopen_ok` tells whether
`fd_fileopen(fname, O_WRONLY|O_CREAT)` succeeds. -/
def config_test_log (convert_to_absolute_path unreal_strftime : CStr → CStr)
    (fileopen_ok : CStr → Bool) (ce : ConfigEntry) : Nat :=
  match ce.ce_vardata with
  | none => 1
  | some vardata =>
    if ce.ce_entries.isEmpty then 1
    else
      let vardata1 : CStr :=
        if vardata ≠ "syslog".toList then convert_to_absolute_path vardata else vardata
      let r := config_test_log_loop ce.ce_entries false false 0
      let errors1 : Nat := if r.1 = false then r.2.2 + 1 else r.2.2
      let fname := unreal_strftime vardata1
      if fileopen_ok fname = false then errors1 + 1 else errors1

/-- Whether an entry is called `name`. -/
def entry_named (name : String) (cep : ConfigEntry) : Bool :=
  decide (cep.ce_varname = name.toList)

/-- Whether a `type` entry has no value or a value that is neither `json` nor `text`. -/
def bad_type_entry (cep : ConfigEntry) : Bool :=
  entry_named "type" cep &&
    (match cep.ce_vardata with
     | none => true
     | some v => decide (v ≠ "json".toList ∧ v ≠ "text".toList))

/-- Whether an entry is none of `flags`, `maxsize`, `type`. -/
def unknown_log_entry (cep : ConfigEntry) : Bool :=
  !(entry_named "flags" cep || entry_named "maxsize" cep || entry_named "type" cep)

/-- Whether the first `flags` entry of the list has no sub-entries. -/
def first_flags_empty (es : List ConfigEntry) : Bool :=
  match es.find? (entry_named "flags") with
  | some f => f.ce_entries.isEmpty
  | none => false

/-- Whether the first `maxsize` entry of the list has no value. -/
def first_maxsize_blank (es : List ConfigEntry) : Bool :=
  match es.find? (entry_named "maxsize") with
  | some m => m.ce_vardata.isNone
  | none => false

/-- A log block with two `flags` entries, two `maxsize` entries and two `type` entries. -/
def duplicate_keys_block : ConfigEntry :=
  .mk "log".toList (some "ircd.log".toList)
    [.mk "flags".toList none [.mk "all".toList none []],
     .mk "flags".toList none [.mk "errors".toList none []],
     .mk "maxsize".toList (some "100M".toList) [],
     .mk "maxsize".toList (some "1M".toList) [],
     .mk "type".toList (some "text".toList) [],
     .mk "type".toList (some "json".toList) []]

/-- Example surroundings before boot: not forked, not booted, no configuration test. -/
def preboot_params : DiskParams :=
  { example_params with ircd_forked := false, ircd_booted := false }

/-! ## Sequences of calls of the disk sink -/

/-- Whether an emitted item is a `config_status` call. -/
def DiskOutput.is_config_status : DiskOutput → Bool
  | .config_status _ _ => true
  | _ => false

/-- The number of `config_status` calls among the emitted items. -/
def warnings (out : List DiskOutput) : Nat := out.countP DiskOutput.is_config_status

/-- One call of `do_unreal_log_disk`: its surroundings at the time of the call and its
arguments. -/
structure DiskCall where
  P : DiskParams
  loglevel : LogLevel
  subsystem : CStr
  event_id : CStr
  msg : CStr
  json_serialized : CStr

/-- The call `c` made with the file records and the state `s`. -/
def DiskCall.run (c : DiskCall) (s : List ConfigItem_log × DiskEnv) :
    List ConfigItem_log × DiskEnv :=
  do_unreal_log_disk c.P c.loglevel c.subsystem c.event_id c.msg c.json_serialized s.1 s.2

/-- A sequence of calls of `do_unreal_log_disk`, one after the other. -/
def disk_calls : List DiskCall → List ConfigItem_log × DiskEnv → List ConfigItem_log × DiskEnv
  | [], s => s
  | c :: rest, s => disk_calls rest (c.run s)

/-- What one stretch of `do_unreal_log_disk` may do to the emitted items and to the warning
time: emit no warning and leave the time alone; or, after boot, emit one warning, which
needs the time to be more than 300 seconds old, and set the time to now; or, before boot,
emit whatever and leave the time alone. -/
def disk_step (P : DiskParams) (e e2 : DiskEnv) : Prop :=
  ∃ o, e2.out = e.out ++ o ∧
    ((warnings o = 0 ∧ e2.last_log_file_warning = e.last_log_file_warning) ∨
     (P.ircd_booted = true ∧ warnings o = 1 ∧ to_int (e.last_log_file_warning + 300) < P.now ∧
        e2.last_log_file_warning = to_int P.now) ∨
     (P.ircd_booted = false ∧ e2.last_log_file_warning = e.last_log_file_warning))

/-- An event of the examples at time `now`, after boot. -/
def example_call (now : Int) : DiskCall :=
  { P := { example_params with now := now }, loglevel := ULOG_INFO,
    subsystem := "main".toList, event_id := "TEST".toList, msg := "hello".toList,
    json_serialized := "JSON".toList }

/-- The error codes that `rpc_spamfilter_add` passes to `rpc_error`; they are constants of
a header that is not under `src/`. -/
inductive JsonRpcError
  | JSON_RPC_ERROR_INVALID_PARAMS
  | JSON_RPC_ERROR_ALREADY_EXISTS
  | JSON_RPC_ERROR_INTERNAL_ERROR
  deriving DecidableEq, Repr

open JsonRpcError

/-- The arguments of the call of `tkl_add_spamfilter` (spamfilter.c 205-206), in the order
of the call: `type`, `targets`, `action`, `m`, `client->name`, the constant 0, `TStime()`,
`ban_duration`, `reason` and the constant 0. `Match` is the type that `unreal_create_match`
returns a pointer to. -/
structure SpamfilterArgs (Match : Type) where
  type : Int
  targets : Int
  action : Int
  m : Match
  client_name : CStr
  sixth : Int
  tstime : Int
  ban_duration : Int
  reason : CStr
  tenth : Int

/-- The calls with an effect outside the function that `rpc_spamfilter_add` makes: a reply
to the request (`rpc_error` or `rpc_response`, both for `client` and `request`), the call
that adds the spamfilter, and the call that announces it. -/
inductive RpcEffect (Match TKL : Type)
  | rpc_error (code : JsonRpcError) (message : CStr)
  | rpc_response (result : Json)
  | tkl_add_spamfilter (args : SpamfilterArgs Match)
  | tkl_added (tkl : TKL)

/-- Whether a call is a reply to the request. -/
def RpcEffect.is_reply {Match TKL : Type} : RpcEffect Match TKL → Bool
  | .rpc_error _ _ => true
  | .rpc_response _ => true
  | _ => false

/-- Whether a call adds or announces a spamfilter. -/
def RpcEffect.is_mutation {Match TKL : Type} : RpcEffect Match TKL → Bool
  | .tkl_add_spamfilter _ => true
  | .tkl_added _ => true
  | _ => false

/-- The functions and constants of the server that `rpc_spamfilter_add` uses and that are
not under `src/`, with the types `Match` and `TKL` they work on: the constant
`TKL_SPAMF|TKL_GLOBAL`; `json_object_get_string` (`none` for NULL);
`unreal_match_method_strtoval`, `spamfilter_gettargets(str, NULL)` and `banact_stringtoval`
(0 for an invalid value); `config_checkval(str, CFG_TIME)`; `find_tkl_spamfilter`,
`unreal_create_match` and `tkl_add_spamfilter` (`none` for NULL); the object that
`json_expand_tkl(result, "tkl", tkl, 1)` leaves in the fresh `result`; and `TStime()`. -/
structure RpcEnv (Match TKL : Type) where
  tkl_spamf_global : Int
  json_object_get_string : Json → CStr → Option CStr
  unreal_match_method_strtoval : CStr → Int
  spamfilter_gettargets : CStr → Int
  banact_stringtoval : CStr → Int
  config_checkval_time : CStr → Int
  find_tkl_spamfilter : Int → CStr → Int → Int → Option TKL
  unreal_create_match : Int → CStr → Option Match
  tkl_add_spamfilter : SpamfilterArgs Match → Option TKL
  json_expand_tkl : TKL → Json
  tstime : Int

/-- The last part of `rpc_spamfilter_add` (spamfilter.c 180-219), from the ban duration on,
with the values read so far. -/
def rpc_spamfilter_add_tail {Match TKL : Type} (E : RpcEnv Match TKL) (client : Client)
    (params : Json) (name : CStr) (match_type targets action : Int) (reason : CStr) :
    List (RpcEffect Match TKL) :=
  let ban_duration : Int :=
    match E.json_object_get_string params "ban_duration".toList with
    | some str => E.config_checkval_time str
    | none => 0
  if ban_duration < 0 then
    [.rpc_error JSON_RPC_ERROR_INVALID_PARAMS
      "Invalid value for parameter 'ban_duration'".toList]
  else if (E.find_tkl_spamfilter E.tkl_spamf_global name action targets).isSome then
    [.rpc_error JSON_RPC_ERROR_ALREADY_EXISTS
      "A spamfilter with that regex+action+target already exists".toList]
  else
    match E.unreal_create_match match_type name with
    | none =>
      [.rpc_error JSON_RPC_ERROR_INVALID_PARAMS
        "Invalid regex or match string specified".toList]
    | some m =>
      let args : SpamfilterArgs Match :=
        ⟨E.tkl_spamf_global, targets, action, m, client.name, 0, E.tstime, ban_duration,
          reason, 0⟩
      match E.tkl_add_spamfilter args with
      | none =>
        [.tkl_add_spamfilter args,
         .rpc_error JSON_RPC_ERROR_INTERNAL_ERROR "Unable to add item".toList]
      | some tkl =>
        [.tkl_add_spamfilter args, .tkl_added tkl, .rpc_response (E.json_expand_tkl tkl)]

/-- Function `rpc_spamfilter_add` (spamfilter.c 107-220): the calls with an outside effect
that it makes, in order. The local buffers `targetbuf` and `actionbuf` are filled and never
read; they are left out. -/
def rpc_spamfilter_add {Match TKL : Type} (E : RpcEnv Match TKL) (client : Client)
    (params : Json) : List (RpcEffect Match TKL) :=
  match E.json_object_get_string params "name".toList with
  | none => [.rpc_error JSON_RPC_ERROR_INVALID_PARAMS "Missing parameter: 'name'".toList]
  | some name =>
    match E.json_object_get_string params "match_type".toList with
    | none =>
      [.rpc_error JSON_RPC_ERROR_INVALID_PARAMS "Missing parameter: 'match_type'".toList]
    | some str1 =>
      let match_type := E.unreal_match_method_strtoval str1
      if match_type = 0 then
        [.rpc_error JSON_RPC_ERROR_INVALID_PARAMS
          "Invalid value for parameter 'match_type'".toList]
      else
        match E.json_object_get_string params "spamfilter_targets".toList with
        | none =>
          [.rpc_error JSON_RPC_ERROR_INVALID_PARAMS
            "Missing parameter: 'spamfilter_targets'".toList]
        | some str2 =>
          let targets := E.spamfilter_gettargets str2
          if targets = 0 then
            [.rpc_error JSON_RPC_ERROR_INVALID_PARAMS
              "Invalid value(s) for parameter 'spamfilter_targets'".toList]
          else
            match E.json_object_get_string params "ban_action".toList with
            | none =>
              [.rpc_error JSON_RPC_ERROR_INVALID_PARAMS
                "Missing parameter: 'ban_action'".toList]
            | some str3 =>
              let action := E.banact_stringtoval str3
              if action = 0 then
                [.rpc_error JSON_RPC_ERROR_INVALID_PARAMS
                  "Invalid value for parameter 'ban_action'".toList]
              else
                match E.json_object_get_string params "reason".toList with
                | none =>
                  [.rpc_error JSON_RPC_ERROR_INVALID_PARAMS
                    "Missing parameter: 'reason'".toList]
                | some reason =>
                  rpc_spamfilter_add_tail E client params name match_type targets action
                    reason

/-- The requests that the description lists: one of the parameters name, match_type,
spamfilter_targets, ban_action, reason is absent; or match_type, spamfilter_targets,
ban_action or ban_duration has an invalid value; or an identical spamfilter exists; or the
match string does not compile. -/
def request_rejected {Match TKL : Type} (E : RpcEnv Match TKL) (params : Json) : Prop :=
  E.json_object_get_string params "name".toList = none ∨
  E.json_object_get_string params "match_type".toList = none ∨
  E.json_object_get_string params "spamfilter_targets".toList = none ∨
  E.json_object_get_string params "ban_action".toList = none ∨
  E.json_object_get_string params "reason".toList = none ∨
  (∃ s, E.json_object_get_string params "match_type".toList = some s ∧
    E.unreal_match_method_strtoval s = 0) ∨
  (∃ s, E.json_object_get_string params "spamfilter_targets".toList = some s ∧
    E.spamfilter_gettargets s = 0) ∨
  (∃ s, E.json_object_get_string params "ban_action".toList = some s ∧
    E.banact_stringtoval s = 0) ∨
  (∃ s, E.json_object_get_string params "ban_duration".toList = some s ∧
    E.config_checkval_time s < 0) ∨
  (∃ name t a, E.json_object_get_string params "name".toList = some name ∧
    E.json_object_get_string params "spamfilter_targets".toList = some t ∧
    E.json_object_get_string params "ban_action".toList = some a ∧
    (E.find_tkl_spamfilter E.tkl_spamf_global name (E.banact_stringtoval a)
      (E.spamfilter_gettargets t)).isSome = true) ∨
  (∃ name mt, E.json_object_get_string params "name".toList = some name ∧
    E.json_object_get_string params "match_type".toList = some mt ∧
    E.unreal_create_match (E.unreal_match_method_strtoval mt) name = none)

/-- Example surroundings for `rpc_spamfilter_add`, with strings for `Match` and numbers for
`TKL`: the match types `regex` and `simple`, the targets `cp`, the action `block`, a
negative duration for `-1`, one existing spamfilter called `dup`, and a match string `(`
that does not compile. -/
def example_rpc_env : RpcEnv CStr Nat :=
  { tkl_spamf_global := 1,
    json_object_get_string := fun j key =>
      match json_object_get j key with
      | some (.string s) => some s
      | _ => none,
    unreal_match_method_strtoval := fun s =>
      if s = "regex".toList then 1 else if s = "simple".toList then 2 else 0,
    spamfilter_gettargets := fun s => if s = "cp".toList then 3 else 0,
    banact_stringtoval := fun s => if s = "block".toList then 1 else 0,
    config_checkval_time := fun s =>
      if s = "1h".toList then 3600 else if s = "-1".toList then -1 else 0,
    find_tkl_spamfilter := fun _ name _ _ => if name = "dup".toList then some 7 else none,
    unreal_create_match := fun _ name => if name = "(".toList then none else some name,
    tkl_add_spamfilter := fun _ => some 8,
    json_expand_tkl := fun tkl => .object [("tkl".toList, .integer tkl)],
    tstime := 1000 }

/-- An example request with the given name and ban duration. -/
def example_request (name ban_duration : String) : Json :=
  .object [("name".toList, .string name.toList), ("match_type".toList, .string "regex".toList),
    ("spamfilter_targets".toList, .string "cp".toList),
    ("ban_action".toList, .string "block".toList), ("reason".toList, .string "spam".toList),
    ("ban_duration".toList, .string ban_duration.toList)]

/-! ## Theorems -/

/-- Function `log_sources_match` only returns 0 or 1. -/
theorem log_sources_match_zero_or_one (ts : List LogSource) (level : LogLevel)
    (subsystem event_id : CStr) :
    log_sources_match ts level subsystem event_id = 0 ∨
      log_sources_match ts level subsystem event_id = 1 := by
  induction ts with
  | nil => exact Or.inl rfl
  | cons t rest ih =>
    unfold log_sources_match
    split_ifs
    · exact ih
    · exact ih
    · exact ih
    · exact Or.inr rfl

/-- C1: `log_sources_match` returns 1 exactly when some term of the list leaves each axis
unconstrained or equal to the event on that axis, and returns 0 otherwise. -/
theorem log_sources_match_iff (ts : List LogSource) (level : LogLevel)
    (subsystem event_id : CStr) :
    (log_sources_match ts level subsystem event_id = 1 ↔
      ∃ t ∈ ts, (t.subsystem = [] ∨ t.subsystem = subsystem) ∧
        (t.event_id = [] ∨ t.event_id = event_id) ∧
        (t.loglevel = ULOG_INVALID ∨ t.loglevel = level)) ∧
    (log_sources_match ts level subsystem event_id = 0 ∨
      log_sources_match ts level subsystem event_id = 1) := by
  induction ts with
  | nil => simp [log_sources_match]
  | cons t rest ih =>
    obtain ⟨ih1, ih2⟩ := ih
    unfold log_sources_match
    by_cases h1 : t.subsystem ≠ [] ∧ t.subsystem ≠ subsystem
    · rw [if_pos h1]
      refine ⟨?_, ih2⟩
      rw [ih1]
      constructor
      · rintro ⟨u, hu, h⟩
        exact ⟨u, List.mem_cons_of_mem _ hu, h⟩
      · rintro ⟨u, hu, h⟩
        rcases List.mem_cons.mp hu with rfl | hu
        · rcases h.1 with h | h
          · exact absurd h h1.1
          · exact absurd h h1.2
        · exact ⟨u, hu, h⟩
    · rw [if_neg h1]
      by_cases h2 : t.event_id ≠ [] ∧ t.event_id ≠ event_id
      · rw [if_pos h2]
        refine ⟨?_, ih2⟩
        rw [ih1]
        constructor
        · rintro ⟨u, hu, h⟩
          exact ⟨u, List.mem_cons_of_mem _ hu, h⟩
        · rintro ⟨u, hu, h⟩
          rcases List.mem_cons.mp hu with rfl | hu
          · rcases h.2.1 with h | h
            · exact absurd h h2.1
            · exact absurd h h2.2
          · exact ⟨u, hu, h⟩
      · rw [if_neg h2]
        by_cases h3 : t.loglevel ≠ ULOG_INVALID ∧ t.loglevel ≠ level
        · rw [if_pos h3]
          refine ⟨?_, ih2⟩
          rw [ih1]
          constructor
          · rintro ⟨u, hu, h⟩
            exact ⟨u, List.mem_cons_of_mem _ hu, h⟩
          · rintro ⟨u, hu, h⟩
            rcases List.mem_cons.mp hu with rfl | hu
            · rcases h.2.2 with h | h
              · exact absurd h h3.1
              · exact absurd h h3.2
            · exact ⟨u, hu, h⟩
        · rw [if_neg h3]
          refine ⟨?_, Or.inr rfl⟩
          simp only [true_iff]
          refine ⟨t, List.mem_cons_self _ _, ?_, ?_, ?_⟩
          · by_contra h
            exact h1 ⟨fun e => h (Or.inl e), fun e => h (Or.inr e)⟩
          · by_contra h
            exact h2 ⟨fun e => h (Or.inl e), fun e => h (Or.inr e)⟩
          · by_contra h
            exact h3 ⟨fun e => h (Or.inl e), fun e => h (Or.inr e)⟩

/-- C2: the empty term list matches no event, and a list made of one term without any
constraint matches every event. -/
theorem log_sources_match_empty_and_wildcard (level : LogLevel) (subsystem event_id : CStr) :
    log_sources_match [] level subsystem event_id = 0 ∧
    log_sources_match [⟨ULOG_INVALID, [], []⟩] level subsystem event_id = 1 := by
  simp [log_sources_match]

/-! ### Routing -/

/-- When the first element of the all-opers list has a matching filter, the router
answers `"*"`. -/
theorem log_to_snomask_all_ircops_head (d : LogDestination) (rest : List LogDestination)
    (sn ch gl : List LogDestination) (loglevel : LogLevel) (subsystem event_id : CStr)
    (h : log_sources_match d.sources loglevel subsystem event_id = 1) :
    log_to_snomask ⟨sn, ch, d :: rest, gl⟩ loglevel subsystem event_id = some "*".toList := by
  simp [log_to_snomask, all_ircops_match, h]

/-- C3 (evaluation at the failing input): a `set::logging` block with three all-opers
entries, the middle one bound to `linking`, configures three all-opers destinations, one of
which has the filter `linking`; yet an event of subsystem `linking` is routed to NULL
instead of `"*"`, because only the first element of the list is consulted. -/
theorem log_to_snomask_ignores_later_all_opers :
    config_run_set_logging ⟨64, 64, 64⟩ three_all_opers_entries ⟨[], [], [], []⟩
      = some three_all_opers_conf ∧
    (⟨[], [⟨ULOG_INVALID, "linking".toList, []⟩]⟩ : LogDestination)
      ∈ three_all_opers_conf.logging_all_ircops ∧
    log_sources_match [⟨ULOG_INVALID, "linking".toList, []⟩] ULOG_ERROR "linking".toList
      "LINK_DISCONNECTED".toList = 1 ∧
    log_to_snomask three_all_opers_conf ULOG_ERROR "linking".toList
      "LINK_DISCONNECTED".toList = none := by
  refine ⟨by decide, by decide, by decide, by decide⟩

theorem take_take_append {α : Type} (n : Nat) (xs ys : List α) :
    (xs.take n ++ ys).take n = (xs ++ ys).take n := by
  by_cases h : xs.length ≤ n
  · rw [List.take_of_length_le h]
  · have h1 : n ≤ xs.length := by omega
    have h2 : n ≤ (xs.take n).length := by simp [List.length_take]; omega
    rw [List.take_append_of_le_length h2, List.take_append_of_le_length h1, List.take_take]
    simp

theorem log_to_snomask_loop_eq (loglevel : LogLevel) (subsystem event_id : CStr)
    (l : List LogDestination) (acc : CStr) (hacc : acc.length ≤ 63) :
    log_to_snomask_loop loglevel subsystem event_id l acc =
      (acc ++ concat_destinations (l.filter (fun ld =>
        decide (log_sources_match ld.sources loglevel subsystem event_id ≠ 0)))).take 63 := by
  induction l generalizing acc with
  | nil => simp [log_to_snomask_loop, concat_destinations, List.take_of_length_le hacc]
  | cons ld next ih =>
    unfold log_to_snomask_loop
    by_cases hm : log_sources_match ld.sources loglevel subsystem event_id ≠ 0
    · rw [if_pos hm]
      have hs : strlcat acc ld.destination 64 = (acc ++ ld.destination).take 63 := by
        unfold strlcat
        rw [if_pos (by omega)]
      rw [hs, ih _ (by simp [List.length_take]), List.filter_cons_of_pos (by simpa using hm)]
      simp only [concat_destinations]
      rw [take_take_append, List.append_assoc]
    · rw [if_neg hm, ih _ hacc, List.filter_cons_of_neg (by simpa using hm)]

/-- In general the router answers, when the all-opers test does not fire, with the first
63 characters of the concatenated destinations of the matching snomask destinations, and
with NULL when that string is empty. -/
theorem log_to_snomask_eq (iConf : Configuration) (loglevel : LogLevel)
    (subsystem event_id : CStr)
    (h : all_ircops_match iConf loglevel subsystem event_id = false) :
    log_to_snomask iConf loglevel subsystem event_id =
      if (concat_destinations (matching_snomasks iConf loglevel subsystem event_id)).take 63
          ≠ [] then
        some ((concat_destinations
          (matching_snomasks iConf loglevel subsystem event_id)).take 63)
      else none := by
  unfold log_to_snomask matching_snomasks
  rw [h]
  simp only [Bool.false_eq_true, if_false]
  rw [log_to_snomask_loop_eq _ _ _ _ _ (by simp)]
  simp

theorem concat_destinations_letters (l : List LogDestination)
    (h1 : ∀ ld ∈ l, ld.destination.length = 1) :
    (concat_destinations l).length = l.length ∧
    ∀ c, c ∈ concat_destinations l ↔ ∃ ld ∈ l, ld.destination = [c] := by
  induction l with
  | nil => simp [concat_destinations]
  | cons ld next ih =>
    have hd := h1 ld (List.mem_cons_self _ _)
    obtain ⟨ih1, ih2⟩ := ih (fun x hx => h1 x (List.mem_cons_of_mem _ hx))
    obtain ⟨x, hx⟩ := List.length_eq_one.mp hd
    refine ⟨by simp [concat_destinations, hd, ih1]; omega, fun c => ?_⟩
    simp only [concat_destinations, List.mem_append, ih2, List.mem_cons, exists_eq_or_imp, hx,
      List.mem_singleton, List.cons.injEq, and_true, List.not_mem_nil, or_false]
    constructor
    · rintro (h | h)
      · exact Or.inl h.symm
      · exact Or.inr h
    · rintro (h | h)
      · exact Or.inl h.symm
      · exact Or.inr h

set_option maxRecDepth 100000 in
/-- C4 (counterexample): with 63 matching snomask destinations `a` followed by a matching
snomask destination `b` and no all-opers destination, the result is 63 times `a`: the
letter `b` of a matching destination does not occur in it. -/
theorem log_to_snomask_drops_letter :
    all_ircops_match sixty_four_snomasks_conf ULOG_INFO "nick".toList "NICK_CHANGE".toList
      = false ∧
    (∃ ld ∈ sixty_four_snomasks_conf.logging_snomasks,
      log_sources_match ld.sources ULOG_INFO "nick".toList "NICK_CHANGE".toList = 1 ∧
      ld.destination = ['b']) ∧
    log_to_snomask sixty_four_snomasks_conf ULOG_INFO "nick".toList "NICK_CHANGE".toList
      = some (List.replicate 63 'a') ∧
    'b' ∉ List.replicate 63 'a' := by
  refine ⟨by decide, ⟨⟨['b'], [⟨ULOG_INVALID, [], []⟩]⟩, by decide, by decide, rfl⟩, ?_,
    by decide⟩
  decide

/-- C4 (amended): when the all-opers test does not fire, every snomask destination is a
single letter and at most 63 snomask destinations match the event, a letter occurs in the
result iff it is the letter of a matching snomask destination, and the result is NULL iff
no snomask destination matches. -/
theorem log_to_snomask_union (iConf : Configuration) (loglevel : LogLevel)
    (subsystem event_id : CStr)
    (h : all_ircops_match iConf loglevel subsystem event_id = false)
    (hletter : ∀ ld ∈ iConf.logging_snomasks, ld.destination.length = 1)
    (hcount : (matching_snomasks iConf loglevel subsystem event_id).length ≤ 63) :
    (∀ c, (∃ r, log_to_snomask iConf loglevel subsystem event_id = some r ∧ c ∈ r) ↔
      ∃ ld ∈ iConf.logging_snomasks,
        log_sources_match ld.sources loglevel subsystem event_id = 1 ∧
        ld.destination = [c]) ∧
    (log_to_snomask iConf loglevel subsystem event_id = none ↔
      ∀ ld ∈ iConf.logging_snomasks,
        log_sources_match ld.sources loglevel subsystem event_id = 0) := by
  have hone : ∀ ld : LogDestination,
      log_sources_match ld.sources loglevel subsystem event_id ≠ 0 ↔
      log_sources_match ld.sources loglevel subsystem event_id = 1 := by
    intro ld
    rcases log_sources_match_zero_or_one ld.sources loglevel subsystem event_id with h0 | h1
    · simp [h0]
    · simp [h1]
  have hm : ∀ ld ∈ matching_snomasks iConf loglevel subsystem event_id,
      ld.destination.length = 1 := by
    intro ld hld
    exact hletter ld (List.mem_filter.mp hld).1
  obtain ⟨hlen, hmem⟩ := concat_destinations_letters _ hm
  have htake : (concat_destinations
      (matching_snomasks iConf loglevel subsystem event_id)).take 63 =
      concat_destinations (matching_snomasks iConf loglevel subsystem event_id) :=
    List.take_of_length_le (by omega)
  rw [log_to_snomask_eq iConf loglevel subsystem event_id h, htake]
  constructor
  · intro c
    constructor
    · rintro ⟨r, hr, hc⟩
      split_ifs at hr with hne
      · cases hr
        obtain ⟨ld, hld, hd⟩ := (hmem c).mp hc
        have := List.mem_filter.mp hld
        exact ⟨ld, this.1, (hone ld).mp (by simpa using this.2), hd⟩
    · rintro ⟨ld, hld, hmatch, hd⟩
      have hin : ld ∈ matching_snomasks iConf loglevel subsystem event_id :=
        List.mem_filter.mpr ⟨hld, by simp [hmatch]⟩
      have hc : c ∈ concat_destinations
          (matching_snomasks iConf loglevel subsystem event_id) := (hmem c).mpr ⟨ld, hin, hd⟩
      refine ⟨_, ?_, hc⟩
      rw [if_pos (List.ne_nil_of_mem hc)]
  · constructor
    · intro hnone ld hld
      by_contra hne
      have hin : ld ∈ matching_snomasks iConf loglevel subsystem event_id :=
        List.mem_filter.mpr ⟨hld, by simpa using hne⟩
      obtain ⟨x, hx⟩ := List.length_eq_one.mp (hm ld hin)
      have hc : x ∈ concat_destinations
          (matching_snomasks iConf loglevel subsystem event_id) := (hmem x).mpr ⟨ld, hin, hx⟩
      rw [if_pos (List.ne_nil_of_mem hc)] at hnone
      cases hnone
    · intro hall
      have hnil : matching_snomasks iConf loglevel subsystem event_id = [] := by
        unfold matching_snomasks
        rw [List.filter_eq_nil_iff]
        intro ld hld
        simp [hall ld hld]
      rw [hnil]
      simp [concat_destinations]

/-- C4 (witness): one snomask destination `e` bound to the level error, no all-opers
destination, an event at level error. -/
theorem log_to_snomask_union_witness :
    (∀ c, (∃ r, log_to_snomask ⟨[⟨['e'], [⟨ULOG_ERROR, [], []⟩]⟩], [], [], []⟩ ULOG_ERROR
        "nick".toList "NICK_CHANGE".toList = some r ∧ c ∈ r) ↔
      ∃ ld ∈ [(⟨['e'], [⟨ULOG_ERROR, [], []⟩]⟩ : LogDestination)],
        log_sources_match ld.sources ULOG_ERROR "nick".toList "NICK_CHANGE".toList = 1 ∧
        ld.destination = [c]) ∧
    (log_to_snomask ⟨[⟨['e'], [⟨ULOG_ERROR, [], []⟩]⟩], [], [], []⟩ ULOG_ERROR
        "nick".toList "NICK_CHANGE".toList = none ↔
      ∀ ld ∈ [(⟨['e'], [⟨ULOG_ERROR, [], []⟩]⟩ : LogDestination)],
        log_sources_match ld.sources ULOG_ERROR "nick".toList "NICK_CHANGE".toList = 0) :=
  log_to_snomask_union ⟨[⟨['e'], [⟨ULOG_ERROR, [], []⟩]⟩], [], [], []⟩ ULOG_ERROR
    "nick".toList "NICK_CHANGE".toList (by decide) (by decide) (by decide)

/-! ### Taxonomy validation -/

theorem islower_iff (c : Char) : islower c = true ↔ ('a' ≤ c ∧ c ≤ 'z') := by
  simp only [islower, decide_eq_true_eq, Char.le_def, Char.toNat]
  exact ⟨fun h => ⟨h.1, h.2⟩, fun h => ⟨h.1, h.2⟩⟩

theorem isupper_iff (c : Char) : isupper c = true ↔ ('A' ≤ c ∧ c ≤ 'Z') := by
  simp only [isupper, decide_eq_true_eq, Char.le_def, Char.toNat]
  exact ⟨fun h => ⟨h.1, h.2⟩, fun h => ⟨h.1, h.2⟩⟩

theorem isdigit_iff (c : Char) : isdigit c = true ↔ ('0' ≤ c ∧ c ≤ '9') := by
  simp only [isdigit, decide_eq_true_eq, Char.le_def, Char.toNat]
  exact ⟨fun h => ⟨h.1, h.2⟩, fun h => ⟨h.1, h.2⟩⟩

theorem valid_subsystem_loop_iff (s : CStr) :
    (valid_subsystem_loop s = 1 ↔
      ∀ c ∈ s, ('a' ≤ c ∧ c ≤ 'z') ∨ ('0' ≤ c ∧ c ≤ '9') ∨ c = '_') ∧
    (valid_subsystem_loop s = 0 ∨ valid_subsystem_loop s = 1) := by
  induction s with
  | nil => simp [valid_subsystem_loop]
  | cons c s ih =>
    have hc : validsubsystemcharacter c = true ↔
        (('a' ≤ c ∧ c ≤ 'z') ∨ ('0' ≤ c ∧ c ≤ '9') ∨ c = '_') := by
      simp [validsubsystemcharacter, islower_iff, isdigit_iff, or_assoc]
    unfold valid_subsystem_loop
    by_cases h : validsubsystemcharacter c = true
    · simp only [h, Bool.not_true, Bool.false_eq_true, if_false, List.mem_cons, forall_eq_or_imp,
        hc.mp h, true_and]
      exact ih
    · have h2 := fun x => h (hc.mpr x)
      simp only [h, Bool.not_false, if_true, zero_ne_one, false_iff, true_or, and_true]
      intro hall
      exact h2 (hall c (List.mem_cons_self _ _))

theorem valid_event_id_loop_iff (s : CStr) :
    (valid_event_id_loop s = 1 ↔
      ∀ c ∈ s, ('A' ≤ c ∧ c ≤ 'Z') ∨ ('0' ≤ c ∧ c ≤ '9') ∨ c = '_') ∧
    (valid_event_id_loop s = 0 ∨ valid_event_id_loop s = 1) := by
  induction s with
  | nil => simp [valid_event_id_loop]
  | cons c s ih =>
    have hc : valideventidcharacter c = true ↔
        (('A' ≤ c ∧ c ≤ 'Z') ∨ ('0' ≤ c ∧ c ≤ '9') ∨ c = '_') := by
      simp [valideventidcharacter, isupper_iff, isdigit_iff, or_assoc]
    unfold valid_event_id_loop
    by_cases h : valideventidcharacter c = true
    · simp only [h, Bool.not_true, Bool.false_eq_true, if_false, List.mem_cons, forall_eq_or_imp,
        hc.mp h, true_and]
      exact ih
    · have h2 := fun x => h (hc.mpr x)
      simp only [h, Bool.not_false, if_true, zero_ne_one, false_iff, true_or, and_true]
      intro hall
      exact h2 (hall c (List.mem_cons_self _ _))

/-- Function `valid_subsystem` only returns 0 or 1. -/
theorem valid_subsystem_zero_or_one (s : CStr) :
    valid_subsystem s = 0 ∨ valid_subsystem s = 1 := by
  unfold valid_subsystem
  split_ifs
  · exact Or.inl rfl
  · exact (valid_subsystem_loop_iff s).2

/-- Function `valid_event_id` only returns 0 or 1. -/
theorem valid_event_id_zero_or_one (s : CStr) :
    valid_event_id s = 0 ∨ valid_event_id s = 1 := by
  unfold valid_event_id
  split_ifs
  · exact Or.inl rfl
  · exact (valid_event_id_loop_iff s).2

/-- C5: `valid_subsystem` returns 1 exactly for the strings matching `^[a-z0-9_]+$` and
`valid_event_id` returns 1 exactly for the strings matching `^[A-Z0-9_]+$`; both return 0
for every other string. -/
theorem valid_subsystem_event_id_iff (s : CStr) :
    (valid_subsystem s = 1 ↔ matches_lower_pattern s) ∧
    (valid_event_id s = 1 ↔ matches_upper_pattern s) ∧
    (valid_subsystem s = 0 ∨ valid_subsystem s = 1) ∧
    (valid_event_id s = 0 ∨ valid_event_id s = 1) := by
  unfold valid_subsystem valid_event_id matches_lower_pattern matches_upper_pattern
  by_cases h : s = []
  · simp [h]
  · simp only [h, if_false, ne_eq, not_false_eq_true, true_and]
    exact ⟨(valid_subsystem_loop_iff s).1, (valid_event_id_loop_iff s).1,
      (valid_subsystem_loop_iff s).2, (valid_event_id_loop_iff s).2⟩


/-! ### Template expansion -/

theorem buildlogstring_round_congr (details : Json) (k1 k2 : CStr → CStr → Int → Option CStr)
    (c : Char) (rest o : CStr) (left : Int)
    (h : ∀ i o1 left1, i.length ≤ rest.length → k1 i o1 left1 = k2 i o1 left1) :
    buildlogstring_round details k1 c rest o left =
      buildlogstring_round details k2 c rest o left := by
  have h1 : k1 rest = k2 rest := by
    funext o1 left1
    exact h _ _ _ (le_refl _)
  have h2 : k1 rest.tail = k2 rest.tail := by
    funext o1 left1
    exact h _ _ _ (by simp)
  have h3 : ∀ n, k1 (rest.drop n) = k2 (rest.drop n) := by
    intro n
    funext o1 left1
    exact h _ _ _ (by simp)
  unfold buildlogstring_round
  simp only [h1, h2, h3]

theorem buildlogstring_loop_succ (details : Json) (fuel : Nat) :
    ∀ (i o : CStr) (left : Int), i.length ≤ fuel →
      buildlogstring_loop details (fuel + 1) i o left =
        buildlogstring_loop details fuel i o left := by
  induction fuel with
  | zero =>
    intro i o left h
    have : i = [] := List.length_eq_zero.mp (Nat.le_zero.mp h)
    subst this
    simp [buildlogstring_loop]
  | succ f ih =>
    intro i o left h
    cases i with
    | nil => simp [buildlogstring_loop]
    | cons c rest =>
      simp only [buildlogstring_loop]
      apply buildlogstring_round_congr
      intro j o1 left1 hj
      have hr : rest.length ≤ f := by simpa using h
      exact ih j o1 left1 (le_trans hj hr)

/-- Fuel beyond the length of the input does not change the result: the out-of-fuel case
of `buildlogstring_loop` is not reached from `buildlogstring`. -/
theorem buildlogstring_loop_fuel (details : Json) (fuel : Nat) (i o : CStr) (left : Int)
    (h : i.length ≤ fuel) :
    buildlogstring_loop details fuel i o left = expand details i o left := by
  obtain ⟨k, rfl⟩ := Nat.exists_eq_add_of_le h
  unfold expand
  induction k with
  | zero => rfl
  | succ k ih =>
    rw [← Nat.add_assoc, buildlogstring_loop_succ details (i.length + k) i o left (by omega)]
    exact ih (by omega)

theorem expand_nil (details : Json) (o : CStr) (left : Int) :
    expand details [] o left = some o := by
  simp [expand, buildlogstring_loop]

theorem expand_cons (details : Json) (c : Char) (rest o : CStr) (left : Int) :
    expand details (c :: rest) o left =
      buildlogstring_round details (expand details) c rest o left := by
  show buildlogstring_loop details (rest.length + 1) (c :: rest) o left = _
  simp only [buildlogstring_loop]
  apply buildlogstring_round_congr
  intro j o1 left1 hj
  exact buildlogstring_loop_fuel details _ j o1 left1 hj

theorem to_int_of_range (n : Int) (h1 : -2147483648 ≤ n) (h2 : n < 2147483648) :
    to_int n = n := by
  unfold to_int
  omega

theorem to_size_t_of_range (n : Int) (h1 : 0 ≤ n) (h2 : n < 2147483648) :
    to_size_t n = n.toNat := by
  unfold to_size_t
  omega

theorem buildlogstring_eq_expand (inbuf : CStr) (len : Nat) (details : Json) :
    buildlogstring inbuf len details = expand details inbuf [] (to_int ((len : Int) - 1)) :=
  rfl

/-- For a capacity of at least 1 and at most `2^31` the room starts as `len - 1`. -/
theorem buildlogstring_eq_expand_of_le (inbuf : CStr) (len : Nat) (details : Json)
    (h1 : 1 ≤ len) (h2 : len ≤ 2147483648) :
    buildlogstring inbuf len details = expand details inbuf [] ((len : Int) - 1) := by
  rw [buildlogstring_eq_expand, to_int_of_range _ (by omega) (by omega)]

theorem expansion_round_congr (details : Json) (k1 k2 : CStr → CStr) (c : Char) (rest : CStr)
    (h : ∀ i, i.length ≤ rest.length → k1 i = k2 i) :
    expansion_round details k1 c rest = expansion_round details k2 c rest := by
  have h1 : k1 rest = k2 rest := h _ (le_refl _)
  have h2 : k1 rest.tail = k2 rest.tail := h _ (by simp)
  have h3 : ∀ n, k1 (rest.drop n) = k2 (rest.drop n) := fun n => h _ (by simp)
  unfold expansion_round
  simp only [h1, h2, h3]

theorem expansion_loop_succ (details : Json) (fuel : Nat) :
    ∀ i : CStr, i.length ≤ fuel →
      expansion_loop details (fuel + 1) i = expansion_loop details fuel i := by
  induction fuel with
  | zero =>
    intro i h
    have : i = [] := List.length_eq_zero.mp (Nat.le_zero.mp h)
    subst this
    simp [expansion_loop]
  | succ f ih =>
    intro i h
    cases i with
    | nil => simp [expansion_loop]
    | cons c rest =>
      simp only [expansion_loop]
      apply expansion_round_congr
      intro j hj
      have hr : rest.length ≤ f := by simpa using h
      exact ih j (le_trans hj hr)

/-- Fuel beyond the length of the input does not change the expansion. -/
theorem expansion_loop_fuel (details : Json) (fuel : Nat) (i : CStr) (h : i.length ≤ fuel) :
    expansion_loop details fuel i = expansion details i := by
  obtain ⟨k, rfl⟩ := Nat.exists_eq_add_of_le h
  unfold expansion
  induction k with
  | zero => rfl
  | succ k ih =>
    rw [← Nat.add_assoc, expansion_loop_succ details (i.length + k) i (by omega)]
    exact ih (by omega)

theorem expansion_nil (details : Json) : expansion details [] = [] := by
  simp [expansion, expansion_loop]

theorem expansion_cons (details : Json) (c : Char) (rest : CStr) :
    expansion details (c :: rest) = expansion_round details (expansion details) c rest := by
  show expansion_loop details (rest.length + 1) (c :: rest) = _
  simp only [expansion_loop]
  apply expansion_round_congr
  intro j hj
  exact expansion_loop_fuel details _ j hj

/-- Every round of the loop has one of three shapes, whatever the state: it copies one
character and goes on at `next`, or it copies a value and goes on at `next`, or it only
moves on to `next`; and the round of `expansion` has the same shape. -/
theorem buildlogstring_round_cases (details : Json) (c : Char) (rest : CStr) :
    (∃ (ch : Char) (next : CStr), next.length ≤ rest.length ∧
      (∀ (k : CStr → CStr → Int → Option CStr) (o : CStr) (left : Int),
        buildlogstring_round details k c rest o left = literal_step o left ch (k next)) ∧
      (∀ k : CStr → CStr, expansion_round details k c rest = ch :: k next)) ∨
    (∃ (output next : CStr), next.length ≤ rest.length ∧
      (∀ (k : CStr → CStr → Int → Option CStr) (o : CStr) (left : Int),
        buildlogstring_round details k c rest o left =
          if to_int (left - output.length) ≤ 0 then
            (if to_size_t left = 0 then none
              else some (o ++ strlcpy output (to_size_t left)))
          else if output.length < to_size_t left then
            k next (o ++ output) (to_int (left - output.length))
          else if to_size_t left = 0 then none
          else some (o ++ strlcpy output (to_size_t left))) ∧
      (∀ k : CStr → CStr, expansion_round details k c rest = output ++ k next)) ∨
    (∃ next : CStr, next.length ≤ rest.length ∧
      (∀ (k : CStr → CStr → Int → Option CStr) (o : CStr) (left : Int),
        buildlogstring_round details k c rest o left = k next o left) ∧
      (∀ k : CStr → CStr, expansion_round details k c rest = k next)) := by
  by_cases h1 : c = '$'
  · by_cases h2 : deref rest = '$'
    · refine Or.inl ⟨'$', rest.tail, by simp, fun k o left => ?_, fun k => ?_⟩
      · unfold buildlogstring_round
        rw [if_pos h1, if_pos h2]
      · unfold expansion_round
        rw [if_pos h1, if_pos h2]
    · by_cases h3 : (!validvarcharacter (deref rest)) = true
      · refine Or.inl ⟨'$', rest, le_refl _, fun k o left => ?_, fun k => ?_⟩
        · unfold buildlogstring_round
          rw [if_pos h1, if_neg h2, if_pos h3]
        · unfold expansion_round
          rw [if_pos h1, if_neg h2, if_pos h3]
      · cases hget : json_object_get details
            (splitAtChar '.' (strlncat_empty rest 256 (var_end rest))).1 with
        | none =>
          refine Or.inl ⟨'$', rest, le_refl _, fun k o left => ?_, fun k => ?_⟩
          · unfold buildlogstring_round
            rw [if_pos h1, if_neg h2, if_neg h3]
            simp only [hget]
          · unfold expansion_round
            rw [if_pos h1, if_neg h2, if_neg h3]
            simp only [hget]
        | some t =>
          cases hout : lookup_output t
              (splitAtChar '.' (strlncat_empty rest 256 (var_end rest))).1
              (splitAtChar '.' (strlncat_empty rest 256 (var_end rest))).2 with
          | none =>
            refine Or.inr (Or.inr ⟨rest.drop (var_end rest), by simp, fun k o left => ?_,
              fun k => ?_⟩)
            · unfold buildlogstring_round
              rw [if_pos h1, if_neg h2, if_neg h3]
              simp only [hget, hout]
            · unfold expansion_round
              rw [if_pos h1, if_neg h2, if_neg h3]
              simp only [hget, hout]
          | some output =>
            refine Or.inr (Or.inl ⟨output, rest.drop (var_end rest), by simp,
              fun k o left => ?_, fun k => ?_⟩)
            · unfold buildlogstring_round
              rw [if_pos h1, if_neg h2, if_neg h3]
              simp only [hget, hout]
            · unfold expansion_round
              rw [if_pos h1, if_neg h2, if_neg h3]
              simp only [hget, hout]
  · refine Or.inl ⟨c, rest, le_refl _, fun k o left => ?_, fun k => ?_⟩
    · unfold buildlogstring_round
      rw [if_neg h1]
    · unfold expansion_round
      rw [if_neg h1]

/-- The relation between the function and the expansion: with room `left` between 1 and
`2^31 - 1`, what the loop adds to the text written so far is an initial segment of the
expansion of the input that is left, it is at most `left` characters long, and it is the
whole expansion when that is shorter than `left`. -/
theorem expand_spec (details : Json) (n : Nat) :
    ∀ (i o : CStr) (left : Int), i.length ≤ n → 1 ≤ left → left < 2147483648 →
      ∃ w, expand details i o left = some (o ++ w) ∧ w <+: expansion details i ∧
        (w.length : Int) ≤ left ∧
        (((expansion details i).length : Int) < left → w = expansion details i) := by
  induction n with
  | zero =>
    intro i o left h h1 _
    have : i = [] := List.length_eq_zero.mp (Nat.le_zero.mp h)
    subst this
    exact ⟨[], by rw [expand_nil, List.append_nil], List.nil_prefix, by simp; omega,
      fun _ => (expansion_nil details).symm⟩
  | succ n ih =>
    intro i o left h h1 h2
    cases i with
    | nil =>
      exact ⟨[], by rw [expand_nil, List.append_nil], List.nil_prefix, by simp; omega,
        fun _ => (expansion_nil details).symm⟩
    | cons c rest =>
      have hr : rest.length ≤ n := by simpa using h
      rw [expand_cons, expansion_cons]
      rcases buildlogstring_round_cases details c rest with
        ⟨ch, next, hn, hs, he⟩ | ⟨output, next, hn, hs, he⟩ | ⟨next, hn, hs, he⟩
      · rw [hs, he]
        unfold literal_step
        rw [if_neg (show ¬ left = 0 by omega), to_int_of_range _ (by omega) (by omega)]
        by_cases hl : left - 1 = 0
        · rw [if_pos hl]
          refine ⟨[ch], rfl, ⟨expansion details next, rfl⟩, by simp; omega, fun hh => ?_⟩
          simp only [List.length_cons, Nat.cast_add, Nat.cast_one] at hh
          omega
        · rw [if_neg hl]
          obtain ⟨w, e1, e2, e3, e4⟩ := ih next (o ++ [ch]) (left - 1) (le_trans hn hr)
            (by omega) (by omega)
          refine ⟨ch :: w, by rw [e1]; simp, ?_, by simp; omega, fun hh => ?_⟩
          · obtain ⟨t, ht⟩ := e2
            exact ⟨t, by rw [← ht]; rfl⟩
          · simp only [List.length_cons, Nat.cast_add, Nat.cast_one] at hh
            rw [e4 (by omega)]
      · rw [hs, he]
        have hsz : to_size_t left = left.toNat := to_size_t_of_range _ (by omega) h2
        by_cases hfit : (output.length : Int) < left
        · rw [to_int_of_range _ (by omega) (by omega), if_neg (by omega), hsz,
            if_pos (by omega)]
          obtain ⟨w, e1, e2, e3, e4⟩ := ih next (o ++ output) (left - output.length)
            (le_trans hn hr) (by omega) (by omega)
          refine ⟨output ++ w, by rw [e1]; simp, ?_, by simp; omega, fun hh => ?_⟩
          · obtain ⟨t, ht⟩ := e2
            exact ⟨t, by rw [← ht]; simp⟩
          · simp only [List.length_append, Nat.cast_add] at hh
            rw [e4 (by omega)]
        · have hres : (if to_int (left - output.length) ≤ 0 then
                (if to_size_t left = 0 then none
                  else some (o ++ strlcpy output (to_size_t left)))
              else if output.length < to_size_t left then
                expand details next (o ++ output) (to_int (left - output.length))
              else if to_size_t left = 0 then none
              else some (o ++ strlcpy output (to_size_t left))) =
              some (o ++ strlcpy output left.toNat) := by
            rw [hsz]
            by_cases h0 : to_int (left - output.length) ≤ 0
            · rw [if_pos h0, if_neg (by omega)]
            · rw [if_neg h0, if_neg (by omega), if_neg (by omega)]
          rw [hres]
          refine ⟨strlcpy output left.toNat, rfl, ?_, ?_, fun hh => ?_⟩
          · unfold strlcpy
            exact (List.take_prefix _ _).trans (List.prefix_append _ _)
          · simp only [strlcpy, List.length_take]
            omega
          · simp only [List.length_append, Nat.cast_add] at hh
            omega
      · rw [hs, he]
        exact ih next o left (le_trans hn hr) h1 h2

/-- With room beyond its length the whole expansion of the rest of the template is
written. -/
theorem expand_of_room (details : Json) (i o : CStr) (left : Int) (h2 : left < 2147483648)
    (h : ((expansion details i).length : Int) < left) :
    expand details i o left = some (o ++ expansion details i) := by
  obtain ⟨w, e1, _, _, e4⟩ := expand_spec details i.length i o left (le_refl _) (by omega) h2
  rw [e1, e4 h]

/-- With a capacity of at least two more than the length of the expansion, and of at most
`2^31`, the output is the expansion. -/
theorem buildlogstring_of_room (inbuf : CStr) (len : Nat) (details : Json)
    (hroom : (expansion details inbuf).length + 2 ≤ len) (hmax : len ≤ 2147483648) :
    buildlogstring inbuf len details = some (expansion details inbuf) := by
  rw [buildlogstring_eq_expand_of_le inbuf len details (by omega) hmax,
    expand_of_room details inbuf [] _ (by omega) (by omega), List.nil_append]

/-- With a capacity of at least 2 and at most `2^31` the function `buildlogstring` returns
with a terminated string. -/
theorem buildlogstring_terminated (inbuf : CStr) (len : Nat) (details : Json)
    (hlen : 2 ≤ len) (hmax : len ≤ 2147483648) :
    ∃ out, buildlogstring inbuf len details = some out := by
  rw [buildlogstring_eq_expand_of_le inbuf len details (by omega) hmax]
  obtain ⟨w, e1, _⟩ := expand_spec details inbuf.length inbuf [] ((len : Int) - 1) (le_refl _)
    (by omega) (by omega)
  exact ⟨_, e1⟩
theorem validvarcharacter_ne_dot (key : CStr) (hkey : ∀ c ∈ key, validvarcharacter c = true) :
    '.' ∉ key := by
  intro h
  have := hkey _ h
  revert this
  decide

theorem var_end_append (key post : CStr) (hkey : ∀ c ∈ key, validvarcharacter c = true) :
    var_end (key ++ post) = key.length + var_end post := by
  induction key with
  | nil => simp
  | cons c cs ih =>
    have hc := hkey c (List.mem_cons_self _ _)
    rw [List.cons_append, var_end, hc, Bool.true_or, if_pos rfl,
      ih (fun x hx => hkey x (List.mem_cons_of_mem _ hx))]
    simp only [List.length_cons]
    omega

theorem splitAtChar_not_mem (c : Char) (a : CStr) (h : c ∉ a) :
    splitAtChar c a = (a, none) := by
  induction a with
  | nil => rfl
  | cons x xs ih =>
    have hx : x ≠ c := fun e => h (e ▸ List.mem_cons_self _ _)
    have hxs : c ∉ xs := fun e => h (List.mem_cons_of_mem _ e)
    rw [splitAtChar, if_neg hx, ih hxs]

theorem splitAtChar_append (c : Char) (a b : CStr) (h : c ∉ a) :
    splitAtChar c (a ++ c :: b) = (a, some b) := by
  induction a with
  | nil => simp [splitAtChar]
  | cons x xs ih =>
    have hx : x ≠ c := fun e => h (e ▸ List.mem_cons_self _ _)
    have hxs : c ∉ xs := fun e => h (List.mem_cons_of_mem _ e)
    rw [List.cons_append, splitAtChar, if_neg hx, ih hxs]

theorem var_end_token (key : CStr) (member : Option CStr) (post : CStr)
    (hkey : ∀ c ∈ key, validvarcharacter c = true)
    (hmem : ∀ m, member = some m → m ≠ [] ∧ ∀ c ∈ m, validvarcharacter c = true)
    (hstop : var_end post = 0) :
    var_end (variable_token key member ++ post) = (variable_token key member).length := by
  cases member with
  | none =>
    simp only [variable_token]
    rw [var_end_append key post hkey, hstop, Nat.add_zero]
  | some m =>
    obtain ⟨hm0, hm⟩ := hmem m rfl
    obtain ⟨x, xs, rfl⟩ := List.exists_cons_of_ne_nil hm0
    have hx := hm x (List.mem_cons_self _ _)
    simp only [variable_token, List.append_assoc, List.cons_append]
    rw [var_end_append key _ hkey, var_end]
    have hd : deref (x :: (xs ++ post)) = x := rfl
    rw [hd, hx]
    simp only [beq_self_eq_true, Bool.and_self, Bool.or_true, if_true]
    rw [← List.cons_append, var_end_append (x :: xs) post hm, hstop]
    simp only [List.length_append, List.length_cons]

theorem split_token (key : CStr) (member : Option CStr)
    (hkey : ∀ c ∈ key, validvarcharacter c = true) :
    splitAtChar '.' (variable_token key member) = (key, member) := by
  have hdot := validvarcharacter_ne_dot key hkey
  cases member with
  | none => exact splitAtChar_not_mem _ _ hdot
  | some m => exact splitAtChar_append _ _ _ hdot


theorem validvarcharacter_ne_dollar (x : Char) (hx : validvarcharacter x = true) :
    x ≠ '$' := by
  intro e
  rw [e] at hx
  revert hx
  decide

/-- A run of characters without `$` is copied as far as the room goes. -/
theorem expand_literal_run (details : Json) (p : CStr) (hp : '$' ∉ p) :
    ∀ (rest o : CStr) (left : Int), 0 ≤ left → left < 2147483648 →
      expand details (p ++ rest) o left =
        if left ≤ p.length ∧ p ≠ [] then some (o ++ p.take left.toNat)
        else expand details rest (o ++ p) (left - p.length) := by
  induction p with
  | nil => intro rest o left _ _; simp
  | cons c q ih =>
    intro rest o left hl0 hl1
    have hc : c ≠ '$' := fun e => hp (e ▸ List.mem_cons_self _ _)
    have hq : '$' ∉ q := fun e => hp (List.mem_cons_of_mem _ e)
    rw [List.cons_append, expand_cons]
    unfold buildlogstring_round
    rw [if_neg hc]
    unfold literal_step
    by_cases h0 : left = 0
    · subst h0
      rw [if_pos rfl, if_pos ⟨by simp; omega, by simp⟩]
      simp
    · rw [if_neg h0, to_int_of_range _ (by omega) (by omega)]
      by_cases h1 : left - 1 = 0
      · have : left = 1 := by omega
        subst this
        rw [if_pos h1, if_pos ⟨by simp, by simp⟩]
        simp
      · rw [if_neg h1, ih hq _ _ _ (by omega) (by omega)]
        obtain ⟨m, rfl⟩ : ∃ m : Nat, left = ((m + 2 : Nat) : Int) :=
          ⟨(left - 2).toNat, by omega⟩
        by_cases hle : m + 2 ≤ (c :: q).length
        · have hq0 : q ≠ [] := by
            intro e
            subst e
            simp at hle
          rw [if_pos ⟨by simp at hle ⊢; omega, hq0⟩,
            if_pos ⟨by simp at hle ⊢; omega, by simp⟩]
          have e1 : (((m + 2 : Nat) : Int) - 1).toNat = m + 1 := by omega
          have e2 : ((m + 2 : Nat) : Int).toNat = m + 2 := by omega
          rw [e1, e2]
          simp
        · rw [if_neg (fun h => hle (by simp at h ⊢; omega)),
            if_neg (fun h => hle (by simp at h ⊢; omega))]
          simp only [List.length_cons, Nat.cast_add, Nat.cast_one, List.append_assoc,
            List.singleton_append]
          congr 1
          omega

/-- A template without `$` is copied as far as the room goes. -/
theorem expand_literal_end (details : Json) (t : CStr) (ht : '$' ∉ t) (o : CStr)
    (left : Int) (hleft : 0 ≤ left) (hmax : left < 2147483648) :
    expand details t o left = some (o ++ t.take left.toNat) := by
  have h := expand_literal_run details t ht [] o left hleft hmax
  rw [List.append_nil] at h
  rw [h, expand_nil]
  by_cases hc : left ≤ t.length ∧ t ≠ []
  · rw [if_pos hc]
  · rw [if_neg hc]
    by_cases ht0 : t = []
    · subst ht0
      simp
    · have : t.length ≤ left.toNat := by
        by_contra hlt
        exact hc ⟨by omega, ht0⟩
      rw [List.take_of_length_le this]

/-- In front of two inputs that the loop treats alike, a run of characters without `$`
makes no difference, whatever the room is. -/
theorem expand_literal_congr (details : Json) (p : CStr) (hp : '$' ∉ p) (x y : CStr)
    (h : ∀ (o : CStr) (left : Int), expand details x o left = expand details y o left) :
    ∀ (o : CStr) (left : Int),
      expand details (p ++ x) o left = expand details (p ++ y) o left := by
  induction p with
  | nil => exact h
  | cons c q ih =>
    intro o left
    have hc : c ≠ '$' := fun e => hp (e ▸ List.mem_cons_self _ _)
    have hq : '$' ∉ q := fun e => hp (List.mem_cons_of_mem _ e)
    have hk : expand details (q ++ x) = expand details (q ++ y) := by
      funext o1 left1
      exact ih hq o1 left1
    rw [List.cons_append, List.cons_append, expand_cons, expand_cons]
    unfold buildlogstring_round
    rw [if_neg hc, if_neg hc, hk]

/-- The round at a variable token `$key` or `$key.member` whose `key` is a field. -/
theorem buildlogstring_round_token (details : Json) (key : CStr) (member : Option CStr)
    (post : CStr) (t : Json) (hkey0 : key ≠ [])
    (hkey : ∀ c ∈ key, validvarcharacter c = true)
    (hmem : ∀ m, member = some m → m ≠ [] ∧ ∀ c ∈ m, validvarcharacter c = true)
    (hstop : var_end post = 0) (hlen : (variable_token key member).length ≤ 255)
    (hget : json_object_get details key = some t) :
    deref (variable_token key member ++ post) ≠ '$' ∧
    validvarcharacter (deref (variable_token key member ++ post)) = true ∧
    var_end (variable_token key member ++ post) = (variable_token key member).length ∧
    (splitAtChar '.' (strlncat_empty (variable_token key member ++ post) 256
      (variable_token key member).length)) = (key, member) ∧
    List.drop (variable_token key member).length (variable_token key member ++ post) = post := by
  obtain ⟨x, xs, rfl⟩ := List.exists_cons_of_ne_nil hkey0
  have hx := hkey x (List.mem_cons_self _ _)
  have hd : deref (variable_token (x :: xs) member ++ post) = x := by
    cases member <;> rfl
  have hname : strlncat_empty (variable_token (x :: xs) member ++ post) 256
      (variable_token (x :: xs) member).length = variable_token (x :: xs) member := by
    unfold strlncat_empty
    rw [List.take_left, List.take_of_length_le hlen]
  refine ⟨?_, ?_, var_end_token _ _ _ hkey hmem hstop, ?_, List.drop_left _ _⟩
  · rw [hd]
    exact validvarcharacter_ne_dollar x hx
  · rw [hd]
    exact hx
  · rw [hname, split_token _ _ hkey]

/-- One round at a variable token `$key` or `$key.member` whose `key` is a field. -/
theorem expand_token (details : Json) (key : CStr) (member : Option CStr) (post o : CStr)
    (left : Int) (t : Json) (hkey0 : key ≠ [])
    (hkey : ∀ c ∈ key, validvarcharacter c = true)
    (hmem : ∀ m, member = some m → m ≠ [] ∧ ∀ c ∈ m, validvarcharacter c = true)
    (hstop : var_end post = 0) (hlen : (variable_token key member).length ≤ 255)
    (hget : json_object_get details key = some t) :
    expand details ('$' :: (variable_token key member ++ post)) o left =
      match lookup_output t key member with
      | some output =>
        if to_int (left - output.length) ≤ 0 then
          (if to_size_t left = 0 then none else some (o ++ strlcpy output (to_size_t left)))
        else if output.length < to_size_t left then
          expand details post (o ++ output) (to_int (left - output.length))
        else if to_size_t left = 0 then none
        else some (o ++ strlcpy output (to_size_t left))
      | none => expand details post o left := by
  obtain ⟨h1, h2, h3, h4, h5⟩ := buildlogstring_round_token details key member post t hkey0
    hkey hmem hstop hlen hget
  rw [expand_cons]
  unfold buildlogstring_round
  rw [if_pos rfl, if_neg h1, h2]
  simp only [Bool.not_true, Bool.false_eq_true, if_false]
  rw [h3, h4, h5]
  simp only [hget]

/-- The expansion of a variable token `$key` or `$key.member` whose `key` is a field: the
value, or nothing when there is none. -/
theorem expansion_token (details : Json) (key : CStr) (member : Option CStr) (post : CStr)
    (t : Json) (hkey0 : key ≠ [])
    (hkey : ∀ c ∈ key, validvarcharacter c = true)
    (hmem : ∀ m, member = some m → m ≠ [] ∧ ∀ c ∈ m, validvarcharacter c = true)
    (hstop : var_end post = 0) (hlen : (variable_token key member).length ≤ 255)
    (hget : json_object_get details key = some t) :
    expansion details ('$' :: (variable_token key member ++ post)) =
      match lookup_output t key member with
      | some output => output ++ expansion details post
      | none => expansion details post := by
  obtain ⟨h1, h2, h3, h4, h5⟩ := buildlogstring_round_token details key member post t hkey0
    hkey hmem hstop hlen hget
  rw [expansion_cons]
  unfold expansion_round
  rw [if_pos rfl, if_neg h1, h2]
  simp only [Bool.not_true, Bool.false_eq_true, if_false]
  rw [h3, h4, h5]
  simp only [hget]

/-- The expansion copies a run of characters without `$`. -/
theorem expansion_literal_run (details : Json) (p : CStr) (hp : '$' ∉ p) (rest : CStr) :
    expansion details (p ++ rest) = p ++ expansion details rest := by
  induction p with
  | nil => rfl
  | cons c q ih =>
    have hc : c ≠ '$' := fun e => hp (e ▸ List.mem_cons_self _ _)
    have hq : '$' ∉ q := fun e => hp (List.mem_cons_of_mem _ e)
    rw [List.cons_append, expansion_cons]
    unfold expansion_round
    rw [if_neg hc, ih hq]
    rfl

/-- The expansion of a template without `$` is the template. -/
theorem expansion_no_dollar (details : Json) (t : CStr) (ht : '$' ∉ t) :
    expansion details t = t := by
  have h := expansion_literal_run details t ht []
  rw [List.append_nil, expansion_nil, List.append_nil] at h
  exact h

/-- The expansion of `$$` is one `$`. -/
theorem expansion_dollar_dollar (details : Json) (s : CStr) :
    expansion details ('$' :: '$' :: s) = '$' :: expansion details s := by
  rw [expansion_cons]
  unfold expansion_round
  rw [if_pos rfl, if_pos (show deref ('$' :: s) = '$' from rfl)]
  rfl

/-- The expansion of a `$` that no variable character and no `$` follows is the `$`. -/
theorem expansion_dollar_other (details : Json) (post : CStr)
    (hv : validvarcharacter (deref post) = false) (hd : deref post ≠ '$') :
    expansion details ('$' :: post) = '$' :: expansion details post := by
  rw [expansion_cons]
  unfold expansion_round
  rw [if_pos rfl, if_neg hd, hv]
  rfl
theorem var_end_le (a : CStr) : var_end a ≤ a.length := by
  induction a with
  | nil => simp [var_end]
  | cons c cs ih =>
    unfold var_end
    split_ifs
    · simp only [List.length_cons]
      omega
    · omega

theorem var_end_pos (x : Char) (xs : CStr) (hx : validvarcharacter x = true) :
    1 ≤ var_end (x :: xs) := by
  unfold var_end
  rw [hx, Bool.true_or, if_pos rfl]
  omega

/-- The characters of a variable token are no `$`. -/
theorem var_end_no_dollar (a : CStr) : '$' ∉ a.take (var_end a) := by
  induction a with
  | nil => simp [var_end]
  | cons c cs ih =>
    unfold var_end
    split_ifs with h
    · rw [List.take_succ_cons]
      intro hm
      rcases List.mem_cons.mp hm with e | hm
      · rw [← e, show validvarcharacter '$' = false by decide,
          show ('$' == '.') = false by decide] at h
        simp at h
      · exact ih hm
    · simp

/-- A `$` ends the scan of a variable token: what follows it plays no part. -/
theorem var_end_append_dollar (a r : CStr) : var_end (a ++ '$' :: r) = var_end a := by
  induction a with
  | nil =>
    show var_end ('$' :: r) = 0
    unfold var_end
    rw [show validvarcharacter '$' = false by decide, show ('$' == '.') = false by decide]
    simp
  | cons c cs ih =>
    have hd : validvarcharacter (deref (cs ++ '$' :: r)) = validvarcharacter (deref cs) := by
      cases cs with
      | nil => rfl
      | cons y ys => rfl
    rw [List.cons_append, var_end, var_end, hd, ih]

theorem open_dollar_fold (l : CStr) (hl : '$' ∉ l) (h0 : l ≠ []) (b : Bool) :
    l.foldl (fun odd c => if c = '$' then !odd else false) b = false := by
  induction l generalizing b with
  | nil => exact absurd rfl h0
  | cons c q ih =>
    have hc : c ≠ '$' := fun e => hl (e ▸ List.mem_cons_self _ _)
    have hq : '$' ∉ q := fun e => hl (List.mem_cons_of_mem _ e)
    rw [List.foldl_cons, if_neg hc]
    cases q with
    | nil => rfl
    | cons y ys => exact ih hq (by simp) false

theorem open_dollar_cons_other (c : Char) (rest : CStr) (hc : c ≠ '$') :
    open_dollar (c :: rest) = open_dollar rest := by
  unfold open_dollar
  rw [List.foldl_cons, if_neg hc]

theorem open_dollar_pair (rest : CStr) :
    open_dollar ('$' :: '$' :: rest) = open_dollar rest := by
  unfold open_dollar
  rfl

theorem open_dollar_dollar_other (x : Char) (rest : CStr) (hx : x ≠ '$') :
    open_dollar ('$' :: x :: rest) = open_dollar (x :: rest) := by
  unfold open_dollar
  rw [List.foldl_cons, List.foldl_cons, List.foldl_cons, if_neg hx, if_neg hx]

theorem open_dollar_token (x : Char) (xs : CStr) (hx : validvarcharacter x = true) :
    open_dollar ('$' :: x :: xs) = open_dollar ((x :: xs).drop (var_end (x :: xs))) := by
  have hn := var_end_pos x xs hx
  have hne : (x :: xs).take (var_end (x :: xs)) ≠ [] := by
    intro e
    have := congrArg List.length e
    simp only [List.length_take, List.length_cons, List.length_nil] at this
    omega
  have hsplit : '$' :: x :: xs =
      '$' :: ((x :: xs).take (var_end (x :: xs)) ++ (x :: xs).drop (var_end (x :: xs))) := by
    rw [List.take_append_drop]
  rw [hsplit]
  unfold open_dollar
  rw [List.foldl_cons, List.foldl_append,
    open_dollar_fold _ (var_end_no_dollar (x :: xs)) hne]

theorem open_dollar_no_dollar (p : CStr) (hp : '$' ∉ p) : open_dollar p = false := by
  cases p with
  | nil => rfl
  | cons c q => exact open_dollar_fold _ hp (by simp) false

/-- The expansion of a template is put together from the expansions of its parts: when the
text `pre` does not end in an odd number of `$`, a `$` after it is read as it is read at
the start of a template. -/
theorem expansion_append (details : Json) (r : CStr) (n : Nat) :
    ∀ pre : CStr, pre.length ≤ n → open_dollar pre = false →
      expansion details (pre ++ '$' :: r) =
        expansion details pre ++ expansion details ('$' :: r) := by
  induction n with
  | zero =>
    intro pre h _
    have : pre = [] := List.length_eq_zero.mp (Nat.le_zero.mp h)
    subst this
    rw [expansion_nil]
    rfl
  | succ n ih =>
    intro pre h hop
    cases pre with
    | nil =>
      rw [expansion_nil]
      rfl
    | cons c rest =>
      have hr : rest.length ≤ n := by simpa using h
      rw [List.cons_append, expansion_cons, expansion_cons]
      by_cases h1 : c = '$'
      · subst h1
        cases rest with
        | nil => exact absurd hop (by decide)
        | cons x rest2 =>
          by_cases h2 : x = '$'
          · subst h2
            rw [open_dollar_pair] at hop
            unfold expansion_round
            rw [if_pos rfl, if_pos (show deref ('$' :: rest2 ++ '$' :: r) = '$' from rfl),
              if_pos rfl, if_pos (show deref ('$' :: rest2) = '$' from rfl)]
            show '$' :: expansion details (rest2 ++ '$' :: r) = _
            rw [ih rest2 (by simp at hr; omega) hop]
            rfl
          · rw [open_dollar_dollar_other x rest2 h2] at hop
            have hd1 : deref (x :: rest2 ++ '$' :: r) = x := rfl
            have hd2 : deref (x :: rest2) = x := rfl
            by_cases h3 : validvarcharacter x = true
            · have hop2 := hop
              rw [← open_dollar_dollar_other x rest2 h2, open_dollar_token x rest2 h3] at hop2
              have hve : var_end (x :: rest2 ++ '$' :: r) = var_end (x :: rest2) :=
                var_end_append_dollar (x :: rest2) r
              have hle := var_end_le (x :: rest2)
              have hname : strlncat_empty (x :: rest2 ++ '$' :: r) 256 (var_end (x :: rest2)) =
                  strlncat_empty (x :: rest2) 256 (var_end (x :: rest2)) := by
                unfold strlncat_empty
                rw [List.take_append_of_le_length hle]
              have hdrop : List.drop (var_end (x :: rest2)) (x :: rest2 ++ '$' :: r) =
                  List.drop (var_end (x :: rest2)) (x :: rest2) ++ '$' :: r :=
                List.drop_append_of_le_length hle
              unfold expansion_round
              rw [if_pos rfl, if_pos rfl, hd1, hd2, if_neg h2, if_neg h2, h3]
              simp only [Bool.not_true, Bool.false_eq_true, if_false]
              rw [hve, hname, hdrop]
              have ihd := ih (List.drop (var_end (x :: rest2)) (x :: rest2))
                (le_trans (by simp) hr) hop2
              have ihr := ih (x :: rest2) hr hop
              split
              · split
                · rw [ihd, List.append_assoc]
                · rw [ihd]
              · rw [ihr]
                rfl
            · have h3f : validvarcharacter x = false := by
                cases hv : validvarcharacter x
                · rfl
                · exact absurd hv h3
              have ihr := ih (x :: rest2) hr hop
              unfold expansion_round
              rw [if_pos rfl, if_pos rfl, hd1, hd2, if_neg h2, if_neg h2, h3f]
              simp only [Bool.not_false, if_true]
              rw [ihr]
              rfl
      · rw [open_dollar_cons_other c rest h1] at hop
        unfold expansion_round
        rw [if_neg h1, if_neg h1, ih rest hr hop]
        rfl
/-- C7 (counterexample): with the capacity `2^32 + 1` the room `len - 1`, converted to
`int` (log.c 772), is 0: nothing of the template `ab` is copied, although
`min(strlen(t), len-1)` is 2. -/
theorem no_dollar_capacity_beyond_int :
    buildlogstring "ab".toList 4294967297 (.object []) = some [] ∧
    ("ab".toList).take (min ("ab".toList).length (4294967297 - 1)) = "ab".toList := by
  refine ⟨by decide, by decide⟩

/-- C7 (amended): for a capacity from 1 to `2^31`, for which `len - 1` is a value of
`int`, a template without `$` is copied unchanged up to the capacity: the output is the
first `min(strlen(t), len-1)` characters of `t`; and for a template without `$` and
without `%` the build with expansion and the raw build (`strlcpy` into the same 1024-byte
buffer) give the same message and record. -/
theorem buildlogstring_no_dollar (t : CStr) (ht : '$' ∉ t) (details : Json) (len : Nat)
    (hlen : 1 ≤ len) (hmax : len ≤ 2147483648) :
    buildlogstring t len details = some (t.take (min t.length (len - 1))) ∧
    ('%' ∉ t → ∀ (bufsize : Nat) (timestamp : CStr) (loglevel : LogLevel)
        (subsystem event_id : CStr) (client : Option Client) (vl : List LogData),
      do_unreal_log_internal bufsize timestamp loglevel subsystem event_id client true t vl =
      do_unreal_log_internal bufsize timestamp loglevel subsystem event_id client false t vl) := by
  have hgen : ∀ (d : Json) (l : Nat), 1 ≤ l → l ≤ 2147483648 →
      buildlogstring t l d = some (t.take (l - 1)) := by
    intro d l hl hm
    rw [buildlogstring_eq_expand_of_le t l d hl hm,
      expand_literal_end d t ht [] _ (by omega) (by omega)]
    have : ((l : Int) - 1).toNat = l - 1 := by omega
    rw [this, List.nil_append]
  refine ⟨?_, ?_⟩
  · rw [hgen details len hlen hmax]
    congr 1
    by_cases h : t.length ≤ len - 1
    · rw [Nat.min_eq_left h, List.take_of_length_le h, List.take_of_length_le (le_refl _)]
    · rw [Nat.min_eq_right (by omega)]
  · intro hpct bufsize timestamp loglevel subsystem event_id client vl
    unfold do_unreal_log_internal
    cases log_level_valtostring loglevel with
    | none => rfl
    | some lv =>
      simp only [hpct, and_false, if_false, Bool.false_eq_true, false_and, if_true]
      rw [hgen _ 1024 (by omega) (by omega)]
      simp [strlcpy]

/-- C7 (witness): the template `Hello there!` of `logtest` with capacity 8. -/
theorem buildlogstring_no_dollar_witness :
    buildlogstring "Hello there!".toList 8 (.object []) = some "Hello t".toList ∧
    do_unreal_log_internal 512 "1970-01-01T00:00:00.000Z".toList ULOG_INFO "test".toList
        "TEST".toList none true "Hello there!".toList [] =
      do_unreal_log_internal 512 "1970-01-01T00:00:00.000Z".toList ULOG_INFO "test".toList
        "TEST".toList none false "Hello there!".toList [] :=
  ⟨(buildlogstring_no_dollar "Hello there!".toList (by decide) (.object []) 8 (by decide)
      (by decide)).1,
   (buildlogstring_no_dollar "Hello there!".toList (by decide) (.object []) 8 (by decide)
      (by decide)).2
      (by decide) 512 "1970-01-01T00:00:00.000Z".toList ULOG_INFO "test".toList
      "TEST".toList none []⟩

/-- C8 (counterexample): with the capacity `2^32 + 1`, which is enough for every message,
the room `len - 1`, converted to `int` (log.c 772), is 0, and the template `a$$b` is
rendered as the empty string, not as `a$b`. -/
theorem dollar_dollar_capacity_beyond_int :
    '$' ∉ "a".toList ∧ '$' ∉ "b".toList ∧
    buildlogstring ("a".toList ++ ['$', '$'] ++ "b".toList) 4294967297 (.object []) =
      some [] := by
  refine ⟨by decide, by decide, by decide⟩

/-- C8 (amended): with `p` and `s` free of `$` and a capacity that is enough and at most
`2^31`, the template `p$$s` is rendered as `p$s`: the pair `$$` gives exactly one `$`. -/
theorem buildlogstring_dollar_dollar (details : Json) (p s : CStr) (hp : '$' ∉ p)
    (hs : '$' ∉ s) (len : Nat) (hlen : p.length + s.length + 2 ≤ len)
    (hmax : len ≤ 2147483648) :
    buildlogstring (p ++ ['$', '$'] ++ s) len details = some (p ++ ['$'] ++ s) := by
  rw [buildlogstring_eq_expand_of_le _ len details (by omega) hmax, List.append_assoc,
    expand_literal_run details p hp _ _ _ (by omega) (by omega), if_neg (by omega)]
  simp only [List.cons_append, List.nil_append]
  rw [expand_cons]
  unfold buildlogstring_round
  rw [if_pos rfl, if_pos (by simp [deref])]
  unfold literal_step
  rw [if_neg (by omega), to_int_of_range _ (by omega) (by omega)]
  by_cases h1 : (len : Int) - 1 - p.length - 1 = 0
  · rw [if_pos h1]
    have : s = [] := List.length_eq_zero.mp (by omega)
    subst this
    simp
  · rw [if_neg h1]
    simp only [List.tail_cons]
    rw [expand_literal_end details s hs _ _ (by omega) (by omega)]
    have : s.length ≤ ((len : Int) - 1 - p.length - 1).toNat := by omega
    rw [List.take_of_length_le this]

/-- C8 (witness): `cost: 5$$ now` is rendered as `cost: 5$ now`. -/
theorem buildlogstring_dollar_dollar_witness :
    buildlogstring ("cost: 5".toList ++ ['$', '$'] ++ " now".toList) 1024 (.object []) =
      some ("cost: 5".toList ++ ['$'] ++ " now".toList) :=
  buildlogstring_dollar_dollar (.object []) "cost: 5".toList " now".toList (by decide)
    (by decide) 1024 (by decide) (by decide)

/-- C6 (counterexample): in raw mode a message with a `%` does not abort: a record is
built although the message contains `%`. -/
theorem raw_percent_does_not_abort :
    '%' ∈ "load 100%".toList ∧
    ∃ ev, do_unreal_log_internal 512 "1970-01-01T00:00:00.000Z".toList ULOG_INFO
      "test".toList "TEST".toList none false "load 100%".toList [] = some ev ∧
      ev.msgbuf = "load 100%".toList :=
  ⟨by decide, _, rfl, by decide⟩

/-- C6 (amended): event construction aborts iff the level is not one of the five levels,
or the subsystem fails `valid_subsystem`, or the event id fails `valid_event_id`, or
expansion is requested and the message contains a `%`; in every other case it completes
and produces a record. -/
theorem do_unreal_log_internal_abort_iff (bufsize : Nat) (timestamp : CStr)
    (loglevel : LogLevel) (subsystem event_id : CStr) (client : Option Client)
    (expand_msg : Bool) (msg : CStr) (vl : List LogData) :
    (do_unreal_log_internal bufsize timestamp loglevel subsystem event_id client expand_msg
        msg vl = none ↔
      (loglevel ∉ [ULOG_DEBUG, ULOG_INFO, ULOG_WARNING, ULOG_ERROR, ULOG_FATAL] ∨
        valid_subsystem subsystem ≠ 1 ∨ valid_event_id event_id ≠ 1 ∨
        (expand_msg = true ∧ '%' ∈ msg))) ∧
    (¬ (loglevel ∉ [ULOG_DEBUG, ULOG_INFO, ULOG_WARNING, ULOG_ERROR, ULOG_FATAL] ∨
        valid_subsystem subsystem ≠ 1 ∨ valid_event_id event_id ≠ 1 ∨
        (expand_msg = true ∧ '%' ∈ msg)) →
      ∃ ev, do_unreal_log_internal bufsize timestamp loglevel subsystem event_id client
        expand_msg msg vl = some ev) := by
  have hs : valid_subsystem subsystem = 0 ↔ valid_subsystem subsystem ≠ 1 := by
    rcases valid_subsystem_zero_or_one subsystem with h | h <;> simp [h]
  have he : valid_event_id event_id = 0 ↔ valid_event_id event_id ≠ 1 := by
    rcases valid_event_id_zero_or_one event_id with h | h <;> simp [h]
  have key : do_unreal_log_internal bufsize timestamp loglevel subsystem event_id client
      expand_msg msg vl = none ↔
      (loglevel ∉ [ULOG_DEBUG, ULOG_INFO, ULOG_WARNING, ULOG_ERROR, ULOG_FATAL] ∨
        valid_subsystem subsystem ≠ 1 ∨ valid_event_id event_id ≠ 1 ∨
        (expand_msg = true ∧ '%' ∈ msg)) := by
    unfold do_unreal_log_internal
    rw [← hs, ← he]
    cases loglevel <;> simp only [log_level_valtostring] <;> (try split_ifs) <;> simp_all
  refine ⟨key, fun hn => ?_⟩
  rw [← key] at hn
  exact Option.ne_none_iff_exists'.mp hn

/-- C6 (witness): the first call of `logtest` builds a record. -/
theorem do_unreal_log_internal_abort_iff_witness :
    ∃ ev, do_unreal_log_internal 512 "1970-01-01T00:00:00.000Z".toList ULOG_INFO
      "test".toList "TEST".toList none true "Hello there!".toList [] = some ev :=
  (do_unreal_log_internal_abort_iff 512 "1970-01-01T00:00:00.000Z".toList ULOG_INFO
    "test".toList "TEST".toList none true "Hello there!".toList []).2 (by decide)

set_option maxRecDepth 100000 in
/-- C9 (counterexample): a string field called `socket_error` is not expanded by
`$socket_error`; a string field whose key has 256 letters is not expanded by `$key` (the
token is copied instead); with the capacity 8 the value `yes lots of fun` is cut; and
with the capacity `2^32 + 1` the room `len - 1`, converted to `int`, is 0 and nothing is
stored in the output buffer, not even a terminator. -/
theorem scalar_variable_not_its_value :
    buildlogstring "$socket_error".toList 1024
      (.object [("socket_error".toList, .string "refused".toList)]) = some [] ∧
    buildlogstring ('$' :: List.replicate 256 'k') 1024
      (.object [(List.replicate 256 'k', .string "v".toList)])
      = some ('$' :: List.replicate 256 'k') ∧
    buildlogstring "$fun".toList 8 (.object [("fun".toList, .string "yes lots of fun".toList)])
      = some "yes lo".toList ∧
    buildlogstring "$fun".toList 4294967297
      (.object [("fun".toList, .string "yes lots of fun".toList)]) = none := by
  refine ⟨by decide, ?_, by decide, by decide⟩
  rfl

/-- C9 (amended): when the field `key` holds a string or an integer, `key` is made of
variable characters, has at most 255 of them and is not `socket_error`, then the token
`$key` expands to the string itself or to the signed decimal rendering of the integer,
wherever it stands in a template: after any text `pre` that does not end in an odd number
of `$` and before any text `post` that does not continue the name. The expansion of the
template is the expansion of `pre`, the value, and the expansion of `post`; and it is the
output for every capacity that exceeds its length by two or more and is at most
`2^31`. -/
theorem buildlogstring_scalar_variable (details : Json) (pre key post : CStr) (t : Json)
    (v : CStr) (hpre : open_dollar pre = false) (hkey0 : key ≠ [])
    (hkey : ∀ c ∈ key, validvarcharacter c = true) (hlen : key.length ≤ 255)
    (hne : key ≠ "socket_error".toList) (hstop : var_end post = 0)
    (hget : json_object_get details key = some t)
    (hscalar : t = .string v ∨ ∃ n, t = .integer n ∧ v = snprintf_lld n) :
    expansion details (pre ++ '$' :: key ++ post) =
      expansion details pre ++ v ++ expansion details post ∧
    ∀ len : Nat,
      (expansion details pre).length + v.length + (expansion details post).length + 2 ≤ len →
      len ≤ 2147483648 →
      buildlogstring (pre ++ '$' :: key ++ post) len details =
        some (expansion details pre ++ v ++ expansion details post) := by
  have hlook : lookup_output t key none = some v := by
    unfold lookup_output
    rw [if_neg hne]
    rcases hscalar with rfl | ⟨n, rfl, rfl⟩ <;> rfl
  have htok := expansion_token details key none post t hkey0 hkey (by simp) hstop hlen hget
  simp only [variable_token] at htok
  rw [hlook] at htok
  have he : expansion details (pre ++ '$' :: key ++ post) =
      expansion details pre ++ v ++ expansion details post := by
    rw [List.append_assoc, List.cons_append,
      expansion_append details (key ++ post) pre.length pre (le_refl _) hpre, htok,
      List.append_assoc]
  refine ⟨he, fun len hroom hmax => ?_⟩
  rw [buildlogstring_of_room _ len details (by rw [he]; simp; omega) hmax, he]

/-- C9 (witness): the call of `logtest` with the fields `fun` and `some_integer`
(log.c 1249), and a template with two tokens. -/
theorem buildlogstring_scalar_variable_witness :
    buildlogstring ("More data, fun: ".toList ++ '$' :: "fun".toList ++ "!".toList) 1024
      (.object [("fun".toList, .string "yes lots of fun".toList),
        ("some_integer".toList, .integer 1337)])
      = some "More data, fun: yes lots of fun!".toList ∧
    buildlogstring ("fun: $fun, n: ".toList ++ '$' :: "some_integer".toList ++ []) 1024
      (.object [("fun".toList, .string "yes lots of fun".toList),
        ("some_integer".toList, .integer 1337)])
      = some "fun: yes lots of fun, n: 1337".toList :=
  ⟨((buildlogstring_scalar_variable
      (.object [("fun".toList, .string "yes lots of fun".toList),
        ("some_integer".toList, .integer 1337)])
      "More data, fun: ".toList "fun".toList "!".toList
      (.string "yes lots of fun".toList) "yes lots of fun".toList (by decide) (by decide)
      (by decide) (by decide) (by decide) (by decide) rfl (Or.inl rfl)).2 1024
      (by decide) (by decide)).trans (by decide),
   ((buildlogstring_scalar_variable
      (.object [("fun".toList, .string "yes lots of fun".toList),
        ("some_integer".toList, .integer 1337)])
      "fun: $fun, n: ".toList "some_integer".toList []
      (.integer 1337) "1337".toList (by decide) (by decide) (by decide) (by decide)
      (by decide) (by decide) rfl (Or.inr ⟨1337, rfl, by decide⟩)).2 1024
      (by decide) (by decide)).trans (by decide)⟩

theorem expand_token_pair (details : Json) (pre key post : CStr) (m1 m2 : Option CStr)
    (t : Json) (len : Nat) (hpre : '$' ∉ pre) (hkey0 : key ≠ [])
    (hkey : ∀ c ∈ key, validvarcharacter c = true)
    (hm1 : ∀ m, m1 = some m → m ≠ [] ∧ ∀ c ∈ m, validvarcharacter c = true)
    (hm2 : ∀ m, m2 = some m → m ≠ [] ∧ ∀ c ∈ m, validvarcharacter c = true)
    (hstop : var_end post = 0) (hl1 : (variable_token key m1).length ≤ 255)
    (hl2 : (variable_token key m2).length ≤ 255)
    (hget : json_object_get details key = some t)
    (hsame : lookup_output t key m1 = lookup_output t key m2) :
    buildlogstring (pre ++ '$' :: (variable_token key m1 ++ post)) len details =
      buildlogstring (pre ++ '$' :: (variable_token key m2 ++ post)) len details := by
  rw [buildlogstring_eq_expand, buildlogstring_eq_expand]
  refine expand_literal_congr details pre hpre _ _ (fun o left => ?_) _ _
  rw [expand_token details key m1 post _ _ t hkey0 hkey hm1 hstop hl1 hget,
    expand_token details key m2 post _ _ t hkey0 hkey hm2 hstop hl2 hget, hsame]

set_option maxRecDepth 100000 in
/-- C10 (counterexample): for an object field called `socket_error` that has a `name`
member, `$socket_error` and `$socket_error.name` differ; without any field,
`$socket_error` and `$socket_error.error_string` are both copied and so differ; and for
an object field whose key has 251 letters, `$key` gives the name while `$key.name`, cut
to 255 characters, gives nothing. -/
theorem object_default_lookup_differs :
    buildlogstring "$socket_error".toList 1024
        (.object [("socket_error".toList, .object [("name".toList, .string "x".toList)])])
      = some [] ∧
    buildlogstring "$socket_error.name".toList 1024
        (.object [("socket_error".toList, .object [("name".toList, .string "x".toList)])])
      = some "x".toList ∧
    buildlogstring "$socket_error".toList 1024 (.object [])
      = some "$socket_error".toList ∧
    buildlogstring "$socket_error.error_string".toList 1024 (.object [])
      = some "$socket_error.error_string".toList ∧
    buildlogstring ('$' :: List.replicate 251 'k') 1024
        (.object [(List.replicate 251 'k', .object [("name".toList, .string "x".toList)])])
      = some "x".toList ∧
    buildlogstring ('$' :: List.replicate 251 'k' ++ ".name".toList) 1024
        (.object [(List.replicate 251 'k', .object [("name".toList, .string "x".toList)])])
      = some [] := by
  refine ⟨by decide, by decide, by decide, by decide, ?_, ?_⟩
  · rfl
  · rfl

/-- C10 (amended): for a key made of at most 250 variable characters, other than
`socket_error`, that resolves to an object field, `$key` and `$key.name` expand to the
same output; and when the field set has a field `socket_error`, `$socket_error` and
`$socket_error.error_string` expand to the same output. Both hold for every capacity,
after a text `pre` without `$` and before a text `post` at which the variable scan
stops. -/
theorem buildlogstring_object_default (details : Json) (pre post : CStr) (len : Nat)
    (hpre : '$' ∉ pre) (hstop : var_end post = 0) :
    (∀ (key : CStr) (t : Json), key ≠ [] → (∀ c ∈ key, validvarcharacter c = true) →
      key.length ≤ 250 → key ≠ "socket_error".toList →
      json_object_get details key = some t → json_is_object t = true →
      buildlogstring (pre ++ '$' :: (key ++ post)) len details =
        buildlogstring (pre ++ '$' :: (key ++ ".name".toList ++ post)) len details) ∧
    (∀ t : Json, json_object_get details "socket_error".toList = some t →
      buildlogstring (pre ++ '$' :: ("socket_error".toList ++ post)) len details =
        buildlogstring (pre ++ '$' :: ("socket_error.error_string".toList ++ post))
          len details) := by
  constructor
  · intro key t hkey0 hkey hlen hne hget hobj
    have h := expand_token_pair details pre key post none (some "name".toList) t len hpre
      hkey0 hkey (by simp) (by
        intro m hm
        cases hm
        exact ⟨by decide, by decide⟩) hstop
      (by simp only [variable_token]; omega)
      (by simp [variable_token]; omega) hget (by
        unfold lookup_output
        rw [if_neg hne, hobj]
        rfl)
    simpa [variable_token] using h
  · intro t hget
    have h := expand_token_pair details pre "socket_error".toList post none
      (some "error_string".toList) t len hpre (by decide) (by decide) (by simp) (by
        intro m hm
        cases hm
        exact ⟨by decide, by decide⟩) hstop (by decide) (by decide) hget (by
        unfold lookup_output
        rw [if_pos rfl])
    simpa [variable_token] using h

/-- C10 (witness): the client object of `logtest` under the key `client`, and a
`socket_error` object. -/
theorem buildlogstring_object_default_witness :
    buildlogstring ("I like ".toList ++ '$' :: ("client".toList ++ "!".toList)) 1024
        (.object [("client".toList, .object [("name".toList, .string "irc.test.net".toList)]),
          ("socket_error".toList, .object [("error_code".toList, .integer 111),
            ("error_string".toList, .string "Connection refused".toList)])]) =
      buildlogstring
        ("I like ".toList ++ '$' :: ("client".toList ++ ".name".toList ++ "!".toList)) 1024
        (.object [("client".toList, .object [("name".toList, .string "irc.test.net".toList)]),
          ("socket_error".toList, .object [("error_code".toList, .integer 111),
            ("error_string".toList, .string "Connection refused".toList)])]) ∧
    buildlogstring ("I like ".toList ++ '$' :: ("socket_error".toList ++ "!".toList)) 1024
        (.object [("client".toList, .object [("name".toList, .string "irc.test.net".toList)]),
          ("socket_error".toList, .object [("error_code".toList, .integer 111),
            ("error_string".toList, .string "Connection refused".toList)])]) =
      buildlogstring
        ("I like ".toList ++ '$' :: ("socket_error.error_string".toList ++ "!".toList)) 1024
        (.object [("client".toList, .object [("name".toList, .string "irc.test.net".toList)]),
          ("socket_error".toList, .object [("error_code".toList, .integer 111),
            ("error_string".toList, .string "Connection refused".toList)])]) :=
  ⟨(buildlogstring_object_default _ "I like ".toList "!".toList 1024 (by decide)
      (by decide)).1 "client".toList _ (by decide) (by decide) (by decide) (by decide) rfl rfl,
   (buildlogstring_object_default _ "I like ".toList "!".toList 1024 (by decide)
      (by decide)).2 _ rfl⟩

/-! ### Tokens that do not resolve -/

theorem variable_token_no_dollar (key : CStr) (member : Option CStr)
    (hkey : ∀ c ∈ key, validvarcharacter c = true)
    (hmem : ∀ m, member = some m → m ≠ [] ∧ ∀ c ∈ m, validvarcharacter c = true) :
    '$' ∉ variable_token key member := by
  have hv : ∀ l : CStr, (∀ c ∈ l, validvarcharacter c = true) → '$' ∉ l := by
    intro l hl h
    have := hl _ h
    revert this
    decide
  cases member with
  | none => exact hv key hkey
  | some m =>
    simp only [variable_token, List.mem_append, List.mem_cons, not_or]
    exact ⟨hv key hkey, by decide, hv m (hmem m rfl).2⟩

theorem split_token_take (key : CStr) (member : Option CStr)
    (hkey : ∀ c ∈ key, validvarcharacter c = true) :
    (splitAtChar '.' ((variable_token key member).take 255)).1 = key.take 255 := by
  have hdot := validvarcharacter_ne_dot key hkey
  have hdot2 : '.' ∉ key.take 255 := fun h => hdot (List.mem_of_mem_take h)
  cases member with
  | none =>
    simp only [variable_token]
    rw [splitAtChar_not_mem _ _ hdot2]
  | some m =>
    simp only [variable_token]
    rw [List.take_append_eq_append_take]
    by_cases h : 255 ≤ key.length
    · have h0 : 255 - key.length = 0 := by omega
      rw [h0, List.take_zero, List.append_nil, splitAtChar_not_mem _ _ hdot2]
    · obtain ⟨k, hk⟩ : ∃ k, 255 - key.length = k + 1 := ⟨254 - key.length, by omega⟩
      rw [hk, List.take_succ_cons, List.take_of_length_le (by omega),
        splitAtChar_append _ _ _ hdot]

/-- The expansion of a variable token whose name, cut to 255 characters, is not a field:
the `$` and the token are copied. -/
theorem expansion_token_unknown (details : Json) (key : CStr) (member : Option CStr)
    (post : CStr) (hkey0 : key ≠ [])
    (hkey : ∀ c ∈ key, validvarcharacter c = true)
    (hmem : ∀ m, member = some m → m ≠ [] ∧ ∀ c ∈ m, validvarcharacter c = true)
    (hstop : var_end post = 0)
    (hget : json_object_get details (key.take 255) = none) :
    expansion details ('$' :: (variable_token key member ++ post)) =
      '$' :: (variable_token key member ++ expansion details post) := by
  obtain ⟨x, xs, rfl⟩ := List.exists_cons_of_ne_nil hkey0
  have hx := hkey x (List.mem_cons_self _ _)
  have hd : deref (variable_token (x :: xs) member ++ post) = x := by
    cases member <;> rfl
  have hx1 : x ≠ '$' := validvarcharacter_ne_dollar x hx
  rw [expansion_cons]
  unfold expansion_round
  rw [if_pos rfl, hd, if_neg hx1, hx]
  simp only [Bool.not_true, Bool.false_eq_true, if_false]
  rw [var_end_token _ _ _ hkey hmem hstop]
  have hname : strlncat_empty (variable_token (x :: xs) member ++ post) 256
      (variable_token (x :: xs) member).length = (variable_token (x :: xs) member).take 255 := by
    unfold strlncat_empty
    rw [List.take_left]
  rw [hname, split_token_take _ _ hkey]
  simp only [hget]
  rw [expansion_literal_run details _ (variable_token_no_dollar _ member hkey hmem)]

set_option maxRecDepth 100000 in
/-- C11 (counterexample): `$client.ip` for a client object without `ip` and `$fun.x` for a
string field `fun` are not copied but dropped; a token of 256 letters for which no field
exists is replaced by the value of the field called by its first 255 letters; with too
little room the copy of an unknown token is cut; and with the capacity `2^32 + 1` the
room `len - 1`, converted to `int`, is 0 and nothing is copied. -/
theorem unresolved_token_not_verbatim :
    buildlogstring "IP $client.ip!".toList 1024
      (.object [("client".toList, .object [("name".toList, .string "irc.test.net".toList)])])
      = some "IP !".toList ∧
    buildlogstring "$fun.x".toList 1024 (.object [("fun".toList, .string "yes".toList)])
      = some [] ∧
    json_object_get (.object [(List.replicate 255 'k', .string "v".toList)])
      (List.replicate 256 'k') = none ∧
    buildlogstring ('$' :: List.replicate 256 'k') 1024
      (.object [(List.replicate 255 'k', .string "v".toList)]) = some "v".toList ∧
    buildlogstring "$nope".toList 4 (.object []) = some "$no".toList ∧
    buildlogstring "$nope".toList 4294967297 (.object []) = some [] := by
  refine ⟨by decide, by decide, ?_, ?_, by decide, by decide⟩
  · rfl
  · rfl

/-- C11 (amended): in every template, after any text `pre` that does not end in an odd
number of `$` and before any text `post`, for every capacity that exceeds the length of
the output by two or more and is at most `2^31`: a `$` followed by a character that is
neither a variable character nor a `$` (or by the end of the template) is copied; a token
`$key` or `$key.member` for which no field is called `key` (cut to 255 characters) is
copied; and a token whose field `key` exists but yields no value (no such member, not an
object, or no text value) is dropped, it expands to nothing. The text before and the text
after are expanded as they are on their own. -/
theorem buildlogstring_unresolved_token (details : Json) (pre post : CStr) (len : Nat)
    (hpre : open_dollar pre = false) (hmax : len ≤ 2147483648) :
    (validvarcharacter (deref post) = false → deref post ≠ '$' →
      (expansion details pre).length + (expansion details post).length + 3 ≤ len →
      buildlogstring (pre ++ '$' :: post) len details =
        some (expansion details pre ++ '$' :: expansion details post)) ∧
    (∀ (key : CStr) (member : Option CStr), key ≠ [] →
      (∀ c ∈ key, validvarcharacter c = true) →
      (∀ m, member = some m → m ≠ [] ∧ ∀ c ∈ m, validvarcharacter c = true) →
      var_end post = 0 → json_object_get details (key.take 255) = none →
      (expansion details pre).length + (variable_token key member).length +
        (expansion details post).length + 3 ≤ len →
      buildlogstring (pre ++ '$' :: (variable_token key member ++ post)) len details =
        some (expansion details pre ++ '$' ::
          (variable_token key member ++ expansion details post))) ∧
    (∀ (key : CStr) (member : Option CStr) (t : Json), key ≠ [] →
      (∀ c ∈ key, validvarcharacter c = true) →
      (∀ m, member = some m → m ≠ [] ∧ ∀ c ∈ m, validvarcharacter c = true) →
      var_end post = 0 → (variable_token key member).length ≤ 255 →
      json_object_get details key = some t → lookup_output t key member = none →
      (expansion details pre).length + (expansion details post).length + 2 ≤ len →
      buildlogstring (pre ++ '$' :: (variable_token key member ++ post)) len details =
        some (expansion details pre ++ expansion details post)) := by
  refine ⟨?_, ?_, ?_⟩
  · intro hd hd1 hcap
    have he : expansion details (pre ++ '$' :: post) =
        expansion details pre ++ '$' :: expansion details post := by
      rw [expansion_append details post pre.length pre (le_refl _) hpre,
        expansion_dollar_other details post hd hd1]
    rw [buildlogstring_of_room _ len details (by rw [he]; simp; omega) hmax, he]
  · intro key member hkey0 hkey hmem hstop hget hcap
    have he : expansion details (pre ++ '$' :: (variable_token key member ++ post)) =
        expansion details pre ++ '$' ::
          (variable_token key member ++ expansion details post) := by
      rw [expansion_append details _ pre.length pre (le_refl _) hpre,
        expansion_token_unknown details key member post hkey0 hkey hmem hstop hget]
    rw [buildlogstring_of_room _ len details (by rw [he]; simp; omega) hmax, he]
  · intro key member t hkey0 hkey hmem hstop hlen hget hlook hcap
    have he : expansion details (pre ++ '$' :: (variable_token key member ++ post)) =
        expansion details pre ++ expansion details post := by
      rw [expansion_append details _ pre.length pre (le_refl _) hpre,
        expansion_token details key member post t hkey0 hkey hmem hstop hlen hget, hlook]
    rw [buildlogstring_of_room _ len details (by rw [he]; simp; omega) hmax, he]

/-- C11 (witness): `cost $ 5`, `$nope.x` without any field, and `$client.ip` for a client
object without `ip`, each after a text with a token of its own. -/
theorem buildlogstring_unresolved_token_witness :
    buildlogstring ("$client: cost ".toList ++ '$' :: " 5".toList) 1024
        (.object [("client".toList, .object [("name".toList, .string "x".toList)])])
      = some "x: cost $ 5".toList ∧
    buildlogstring
        ("$client: cost ".toList ++
          '$' :: (variable_token "nope".toList (some "x".toList) ++ " 5".toList))
        1024 (.object [("client".toList, .object [("name".toList, .string "x".toList)])])
      = some "x: cost $nope.x 5".toList ∧
    buildlogstring
        ("$client: cost ".toList ++
          '$' :: (variable_token "client".toList (some "ip".toList) ++ " 5".toList))
        1024 (.object [("client".toList, .object [("name".toList, .string "x".toList)])])
      = some "x: cost  5".toList :=
  ⟨((buildlogstring_unresolved_token
      (.object [("client".toList, .object [("name".toList, .string "x".toList)])])
      "$client: cost ".toList " 5".toList 1024 (by decide)
      (by decide)).1 (by decide) (by decide) (by decide)).trans (by decide),
   ((buildlogstring_unresolved_token
      (.object [("client".toList, .object [("name".toList, .string "x".toList)])])
      "$client: cost ".toList " 5".toList 1024 (by decide)
      (by decide)).2.1 "nope".toList (some "x".toList) (by decide) (by decide)
      (by intro m hm; cases hm; exact ⟨by decide, by decide⟩) (by decide) rfl
      (by decide)).trans (by decide),
   ((buildlogstring_unresolved_token
      (.object [("client".toList, .object [("name".toList, .string "x".toList)])])
      "$client: cost ".toList " 5".toList 1024 (by decide)
      (by decide)).2.2 "client".toList (some "ip".toList) _ (by decide) (by decide)
      (by intro m hm; cases hm; exact ⟨by decide, by decide⟩) (by decide) (by decide) rfl rfl
      (by decide)).trans (by decide)⟩

/-! ### Truncation -/

/-- C13 (counterexample): with the capacity `2^32 + 1` the room `len - 1`, converted to
`int`, is 0; for the template `$fun` the call `strlcpy(o, output, 0)` stores nothing and
the function returns at log.c 841: the output buffer holds no terminated string. -/
theorem truncation_capacity_beyond_int :
    2 ≤ 4294967297 ∧
    buildlogstring "$fun".toList 4294967297
      (.object [("fun".toList, .string "yes lots of fun".toList)]) = none := by
  refine ⟨by decide, by decide⟩

/-- C13 (amended): for every capacity from 2 to `2^31`, for which `len - 1` is a value of
`int`, the function returns with a terminated output of at most `len - 1` characters that
is an initial segment of the expansion, the output with unbounded capacity: the output is
the whole expansion whenever the capacity exceeds its length by two or more. -/
theorem buildlogstring_truncation (inbuf : CStr) (details : Json) (len : Nat) (hlen : 2 ≤ len)
    (hmax : len ≤ 2147483648) :
    ∃ out : CStr, buildlogstring inbuf len details = some out ∧
      out.length ≤ len - 1 ∧ out <+: expansion details inbuf ∧
      ((expansion details inbuf).length + 2 ≤ len → out = expansion details inbuf) := by
  rw [buildlogstring_eq_expand_of_le inbuf len details (by omega) hmax]
  obtain ⟨w, e1, e2, e3, e4⟩ := expand_spec details inbuf.length inbuf [] ((len : Int) - 1)
    (le_refl _) (by omega) (by omega)
  rw [List.nil_append] at e1
  exact ⟨w, e1, by omega, e2, fun h => e4 (by omega)⟩

/-- C13 (witness): the template `More data, fun: $fun!` of `logtest` with capacity 20. -/
theorem buildlogstring_truncation_witness :
    ∃ out : CStr,
      buildlogstring "More data, fun: $fun!".toList 20
        (.object [("fun".toList, .string "yes lots of fun".toList)]) = some out ∧
      out.length ≤ 20 - 1 ∧
      out <+: expansion (.object [("fun".toList, .string "yes lots of fun".toList)])
        "More data, fun: $fun!".toList ∧
      ((expansion (.object [("fun".toList, .string "yes lots of fun".toList)])
          "More data, fun: $fun!".toList).length + 2 ≤ 20 →
        out = expansion (.object [("fun".toList, .string "yes lots of fun".toList)])
          "More data, fun: $fun!".toList) :=
  buildlogstring_truncation "More data, fun: $fun!".toList
    (.object [("fun".toList, .string "yes lots of fun".toList)]) 20 (by decide) (by decide)
/-! ### The record -/

theorem members_get_set (l : List (CStr × Json)) (k : CStr) (v : Json) (k2 : CStr) :
    members_get (members_set l k v) k2 = if k = k2 then some v else members_get l k2 := by
  induction l with
  | nil => simp [members_set, members_get]
  | cons a rest ih =>
    obtain ⟨a, b⟩ := a
    unfold members_set
    by_cases h : a = k
    · subst h
      rw [if_pos rfl]
      simp only [members_get]
      by_cases h2 : a = k2
      · rw [if_pos h2, if_pos h2]
      · rw [if_neg h2, if_neg h2, if_neg h2]
    · rw [if_neg h]
      simp only [members_get]
      by_cases h2 : a = k2
      · subst h2
        rw [if_pos rfl, if_neg (fun e => h e.symm), if_pos rfl]
      · rw [if_neg h2, ih, if_neg h2]

theorem utf8_check_string_loop_ascii :
    ∀ (fuel : Nat) (s : CStr), s.length ≤ fuel → (∀ c ∈ s, c.toNat < 128) →
      utf8_check_string_loop fuel s = true := by
  intro fuel
  induction fuel with
  | zero =>
    intro s h _
    have : s = [] := List.length_eq_zero.mp (Nat.le_zero.mp h)
    subst this
    rfl
  | succ n ih =>
    intro s h hs
    cases s with
    | nil => rfl
    | cons c rest =>
      have hc : c.toNat < 128 := hs c (List.mem_cons_self _ _)
      have h1 : utf8_check_first c.toNat = 1 := by
        unfold utf8_check_first
        rw [if_pos hc]
      unfold utf8_check_string_loop
      simp only [h1, one_ne_zero, if_false, lt_irrefl]
      exact ih rest (by simpa using h) (fun x hx => hs x (List.mem_cons_of_mem _ hx))

/-- A string of ASCII characters is valid UTF-8. -/
theorem utf8_check_string_ascii (s : CStr) (h : ∀ c ∈ s, c.toNat < 128) :
    utf8_check_string s = true :=
  utf8_check_string_loop_ascii s.length s (le_refl _) h

theorem validvarcharacter_ascii (c : Char) (h : validvarcharacter c = true) :
    c.toNat < 128 := by
  simp only [validvarcharacter, isalnum, isupper, islower, isdigit, Bool.or_eq_true,
    decide_eq_true_eq, beq_iff_eq] at h
  rcases h with ((h | h) | h) | h
  · omega
  · omega
  · omega
  · rw [h]
    decide

theorem json_string_valid (s : CStr) (h : utf8_check_string s = true) :
    json_string s = some (.string s) := by
  unfold json_string
  rw [if_pos h]

theorem json_object_set_new_valid (j : List (CStr × Json)) (key : CStr) (v : Json)
    (h : utf8_check_string key = true) :
    json_object_set_new j key (some v) = members_set j key v := by
  unfold json_object_set_new
  rw [h]
  rfl

theorem members_get_json_object_set_new_other (j : List (CStr × Json)) (key : CStr)
    (v : Option Json) (k2 : CStr) (h : key ≠ k2) :
    members_get (json_object_set_new j key v) k2 = members_get j k2 := by
  unfold json_object_set_new
  split_ifs
  · rfl
  · cases v with
    | none => rfl
    | some x => rw [members_get_set, if_neg h]

theorem add_fields_cons (bufsize : Nat) (d : LogData) (next : List LogData)
    (j : List (CStr × Json)) :
    add_fields bufsize (d :: next) j =
      add_fields bufsize next (json_object_set_new j d.key (field_value bufsize d)) := by
  obtain ⟨key, value⟩ := d
  cases value with
  | integer n => rfl
  | string s => cases s <;> rfl
  | client c => rfl
  | object obj => rfl

theorem add_fields_append (bufsize : Nat) (xs ys : List LogData) :
    ∀ j : List (CStr × Json),
      add_fields bufsize (xs ++ ys) j = add_fields bufsize ys (add_fields bufsize xs j) := by
  induction xs with
  | nil => intro j; rfl
  | cons d rest ih =>
    intro j
    rw [List.cons_append, add_fields_cons, add_fields_cons, ih]

theorem add_fields_get_other (bufsize : Nat) (vl : List LogData) (key : CStr)
    (h : ∀ d ∈ vl, d.key ≠ key) :
    ∀ j : List (CStr × Json),
      members_get (add_fields bufsize vl j) key = members_get j key := by
  induction vl with
  | nil => intro j; rfl
  | cons d rest ih =>
    intro j
    rw [add_fields_cons, ih (fun x hx => h x (List.mem_cons_of_mem _ hx)),
      members_get_json_object_set_new_other _ _ _ _ (h d (List.mem_cons_self _ _))]

/-- The object of a client whose name is valid UTF-8 has the name as its member `name`. -/
theorem client_object_name (bufsize : Nat) (client : Client)
    (hname : utf8_check_string client.name = true) :
    members_get (client_object bufsize client) "name".toList = some (.string client.name) := by
  have hn : ∀ (l : List (CStr × Json)) (k : CStr) (v : Option Json), k ≠ "name".toList →
      members_get (json_object_set_new l k v) "name".toList = members_get l "name".toList :=
    fun l k v hk => members_get_json_object_set_new_other l k v _ hk
  have h0 : members_get (json_object_set_new [] "name".toList (json_string client.name))
      "name".toList = some (.string client.name) := by
    rw [json_string_valid _ hname, json_object_set_new_valid _ _ _ (by decide),
      members_get_set, if_pos rfl]
  have h1 : "username".toList ≠ "name".toList := by decide
  have h2 : "hostname".toList ≠ "name".toList := by decide
  have h3 : "ip".toList ≠ "name".toList := by decide
  have h4 : "nuh".toList ≠ "name".toList := by decide
  have h5 : "info".toList ≠ "name".toList := by decide
  have h6 : "servername".toList ≠ "name".toList := by decide
  have h7 : "account".toList ≠ "name".toList := by decide
  have h8 : "reputation".toList ≠ "name".toList := by decide
  have h9 : "security-groups".toList ≠ "name".toList := by decide
  obtain ⟨name, user, sockhost, get_ip, ip, info, servername, account, is_user, reputation,
    known_user, sgs⟩ := client
  unfold client_object
  cases user <;> cases servername <;> cases account <;> cases is_user <;>
    by_cases hi : info = [] <;>
    simp only [hi, ne_eq, not_true_eq_false, not_false_eq_true, if_true, if_false,
      Bool.false_eq_true, hn _ _ _ h1, hn _ _ _ h2, hn _ _ _ h3, hn _ _ _ h4, hn _ _ _ h5,
      hn _ _ _ h6, hn _ _ _ h7, hn _ _ _ h8, hn _ _ _ h9, h0]
/-- When none of the four checks aborts, `do_unreal_log_internal` builds the message and
the record: the own members first, then the merge of `j_details`. -/
theorem do_unreal_log_internal_built (bufsize : Nat) (timestamp : CStr) (loglevel : LogLevel)
    (subsystem event_id : CStr) (client : Option Client) (expand_msg : Bool) (msg : CStr)
    (vl : List LogData) (lvl : CStr) (hlevel : log_level_valtostring loglevel = some lvl)
    (hsub : valid_subsystem subsystem = 1) (hev : valid_event_id event_id = 1)
    (hpct : expand_msg = true → '%' ∉ msg) :
    do_unreal_log_internal bufsize timestamp loglevel subsystem event_id client expand_msg
        msg vl =
      some
        { msgbuf :=
            if expand_msg then
              (buildlogstring msg 1024 (.object (j_details_of bufsize client vl))).getD []
            else strlcpy msg 1024
          j := json_object_update_missing
            (json_object_set_new
              (json_object_set_new
                (json_object_set_new
                  (json_object_set_new
                    (json_object_set_new [] "timestamp".toList (json_string timestamp))
                    "level".toList (json_string lvl))
                  "subsystem".toList (json_string subsystem))
                "event_id".toList (json_string event_id))
              "msg".toList (json_string
                (if expand_msg then
                  (buildlogstring msg 1024 (.object (j_details_of bufsize client vl))).getD []
                else strlcpy msg 1024)))
            (j_details_of bufsize client vl) } := by
  have hp : ¬ (expand_msg = true ∧ '%' ∈ msg) := fun h => hpct h.1 h.2
  unfold do_unreal_log_internal
  rw [hlevel]
  simp only [hsub, hev, one_ne_zero, if_false, hp, j_details_of]

theorem client_token_lookup (bufsize : Nat) (c : Client) (key : CStr)
    (hname : utf8_check_string c.name = true) (hne : key ≠ "socket_error".toList) :
    lookup_output (.object (client_object bufsize c)) key none = some c.name := by
  unfold lookup_output
  rw [if_neg hne]
  simp only [json_is_object, if_true, json_object_get, client_object_name bufsize c hname,
    json_get_value]

theorem validvarcharacter_ne_percent (key : CStr)
    (hkey : ∀ c ∈ key, validvarcharacter c = true) : '%' ∉ key := by
  intro h
  have := hkey _ h
  revert this
  decide

/-- The message rendered for a template `pre$key post` when `key` resolves to the object of
the client `c` in `j_details`. -/
theorem do_unreal_log_internal_client_token (bufsize : Nat) (timestamp : CStr)
    (loglevel : LogLevel) (subsystem event_id : CStr) (client : Option Client)
    (vl : List LogData) (c : Client) (pre key post : CStr)
    (hlevel : loglevel ≠ ULOG_INVALID) (hsub : valid_subsystem subsystem = 1)
    (hev : valid_event_id event_id = 1) (hname : utf8_check_string c.name = true)
    (hpre : open_dollar pre = false)
    (hstop : var_end post = 0) (hpct1 : '%' ∉ pre) (hpct2 : '%' ∉ post)
    (hkey0 : key ≠ []) (hkey : ∀ x ∈ key, validvarcharacter x = true)
    (hlen : key.length ≤ 255) (hne : key ≠ "socket_error".toList)
    (hget : members_get (j_details_of bufsize client vl) key =
      some (.object (client_object bufsize c)))
    (hroom : (expansion (.object (j_details_of bufsize client vl)) pre).length +
      c.name.length + (expansion (.object (j_details_of bufsize client vl)) post).length + 2
        ≤ 1024) :
    ∃ ev, do_unreal_log_internal bufsize timestamp loglevel subsystem event_id client true
        (pre ++ '$' :: (key ++ post)) vl = some ev ∧
      ev.msgbuf = expansion (.object (j_details_of bufsize client vl)) pre ++ c.name ++
        expansion (.object (j_details_of bufsize client vl)) post := by
  obtain ⟨lvl, hl⟩ : ∃ lvl, log_level_valtostring loglevel = some lvl := by
    cases loglevel
    · exact absurd rfl hlevel
    all_goals exact ⟨_, rfl⟩
  have hp : '%' ∉ pre ++ '$' :: (key ++ post) := by
    simp only [List.mem_append, List.mem_cons, not_or]
    exact ⟨hpct1, by decide, validvarcharacter_ne_percent key hkey, hpct2⟩
  refine ⟨_, do_unreal_log_internal_built bufsize timestamp loglevel subsystem event_id
    client true _ vl lvl hl hsub hev (fun _ => hp), ?_⟩
  have htok := expansion_token (.object (j_details_of bufsize client vl)) key none post _
    hkey0 hkey (by simp) hstop (by simpa [variable_token] using hlen) hget
  simp only [variable_token] at htok
  rw [client_token_lookup bufsize c key hname hne] at htok
  have he : expansion (.object (j_details_of bufsize client vl))
      (pre ++ '$' :: (key ++ post)) =
      expansion (.object (j_details_of bufsize client vl)) pre ++ c.name ++
        expansion (.object (j_details_of bufsize client vl)) post := by
    rw [expansion_append _ (key ++ post) pre.length pre (le_refl _) hpre, htok,
      List.append_assoc]
  have hb := buildlogstring_of_room (pre ++ '$' :: (key ++ post)) 1024
    (.object (j_details_of bufsize client vl)) (by rw [he]; simp; omega) (by omega)
  simp only [if_true, hb, Option.getD_some, he]

set_option maxRecDepth 100000 in
/-- C12 (counterexample): a client whose name is the single byte `0xE9`, which is not
valid UTF-8, gets an object without `name`, and `$client` expands to nothing; a client
field under the key `socket_error` expands to nothing; a client field `target` followed by
a string field `target` expands to the string; under the key `my-client` the token
`$my-client` is copied; a key of 256 letters is not found; and after 1020 characters only
two characters of the client name find room. And a template with a `%` makes the call
abort. -/
theorem client_token_not_its_name :
    (do_unreal_log_internal 512 [] ULOG_INFO "test".toList "TEST".toList
        (some { logtest_me with name := [Char.ofNat 233] }) true "Hello $client!".toList []).map
      BuiltEvent.msgbuf = some "Hello !".toList ∧
    (do_unreal_log_internal 512 [] ULOG_INFO "test".toList "TEST".toList none true
        "$socket_error".toList [⟨"socket_error".toList, .client logtest_me⟩]).map
      BuiltEvent.msgbuf = some [] ∧
    (do_unreal_log_internal 512 [] ULOG_INFO "test".toList "TEST".toList none true
        "$target".toList
        [⟨"target".toList, .client logtest_me⟩, ⟨"target".toList, .string (some "x".toList)⟩]).map
      BuiltEvent.msgbuf = some "x".toList ∧
    (do_unreal_log_internal 512 [] ULOG_INFO "test".toList "TEST".toList none true
        "$my-client".toList [⟨"my-client".toList, .client logtest_me⟩]).map
      BuiltEvent.msgbuf = some "$my-client".toList ∧
    (do_unreal_log_internal 512 [] ULOG_INFO "test".toList "TEST".toList none true
        ('$' :: List.replicate 256 'k') [⟨List.replicate 256 'k', .client logtest_me⟩]).map
      BuiltEvent.msgbuf = some ('$' :: List.replicate 256 'k') ∧
    (do_unreal_log_internal 512 [] ULOG_INFO "test".toList "TEST".toList (some logtest_me)
        true (List.replicate 1020 'a' ++ "$client".toList) []).map
      BuiltEvent.msgbuf = some (List.replicate 1020 'a' ++ "ir".toList) ∧
    (do_unreal_log_internal 512 [] ULOG_INFO "test".toList "TEST".toList (some logtest_me)
        true "100% $client".toList []).map
      BuiltEvent.msgbuf = none := by
  refine ⟨by decide, by decide, by decide, by decide, ?_, ?_, by decide⟩
  · rfl
  · rfl

/-- C12 (amended): for a log call that passes the checks and a client `c` whose name is
valid UTF-8, the token `$client`, or `$key`, expands to the name of `c` wherever it stands
in a template without `%`: after any text `pre` that does not end in an odd number of `$`
and before any text `post` that does not continue the name, when the 1024-byte message
buffer exceeds the length of the rendered message by two or more. The rendered message is
the expansion of `pre`, the name, and the expansion of `post`. This holds with the optional
client `c` and no caller field keyed `client`; and for a client field `c` under `key`,
where `key` is made of variable characters, has at most 255 of them, is not `socket_error`
and is not the key of a later field. -/
theorem do_unreal_log_client_name (bufsize : Nat) (timestamp : CStr) (loglevel : LogLevel)
    (subsystem event_id : CStr) (c : Client) (pre post : CStr)
    (hlevel : loglevel ≠ ULOG_INVALID) (hsub : valid_subsystem subsystem = 1)
    (hev : valid_event_id event_id = 1) (hname : utf8_check_string c.name = true)
    (hpre : open_dollar pre = false)
    (hstop : var_end post = 0) (hpct1 : '%' ∉ pre) (hpct2 : '%' ∉ post) :
    (∀ vl : List LogData, (∀ d ∈ vl, d.key ≠ "client".toList) →
      (expansion (.object (j_details_of bufsize (some c) vl)) pre).length + c.name.length +
        (expansion (.object (j_details_of bufsize (some c) vl)) post).length + 2 ≤ 1024 →
      ∃ ev, do_unreal_log_internal bufsize timestamp loglevel subsystem event_id (some c) true
          (pre ++ '$' :: ("client".toList ++ post)) vl = some ev ∧
        ev.msgbuf = expansion (.object (j_details_of bufsize (some c) vl)) pre ++ c.name ++
          expansion (.object (j_details_of bufsize (some c) vl)) post) ∧
    (∀ (client : Option Client) (key : CStr) (front back : List LogData), key ≠ [] →
      (∀ x ∈ key, validvarcharacter x = true) → key.length ≤ 255 →
      key ≠ "socket_error".toList → (∀ d ∈ back, d.key ≠ key) →
      (expansion (.object (j_details_of bufsize client (front ++ ⟨key, .client c⟩ :: back)))
          pre).length + c.name.length +
        (expansion (.object (j_details_of bufsize client (front ++ ⟨key, .client c⟩ :: back)))
          post).length + 2 ≤ 1024 →
      ∃ ev, do_unreal_log_internal bufsize timestamp loglevel subsystem event_id client true
          (pre ++ '$' :: (key ++ post)) (front ++ ⟨key, .client c⟩ :: back) = some ev ∧
        ev.msgbuf =
          expansion (.object (j_details_of bufsize client (front ++ ⟨key, .client c⟩ :: back)))
            pre ++ c.name ++
          expansion (.object (j_details_of bufsize client (front ++ ⟨key, .client c⟩ :: back)))
            post) := by
  constructor
  · intro vl hvl hroom
    refine do_unreal_log_internal_client_token bufsize timestamp loglevel subsystem event_id
      (some c) vl c pre "client".toList post hlevel hsub hev hname hpre hstop hpct1 hpct2
      (by decide) (by decide) (by decide) (by decide) ?_ hroom
    show members_get (add_fields bufsize vl (json_expand_client bufsize [] "client".toList c))
      "client".toList = _
    rw [add_fields_get_other bufsize vl _ hvl, json_expand_client,
      json_object_set_new_valid _ _ _ (by decide), members_get_set, if_pos rfl]
  · intro client key front back hkey0 hkey hlen hne hback hroom
    refine do_unreal_log_internal_client_token bufsize timestamp loglevel subsystem event_id
      client _ c pre key post hlevel hsub hev hname hpre hstop hpct1 hpct2 hkey0 hkey hlen hne
      ?_ hroom
    have hk8 : utf8_check_string key = true :=
      utf8_check_string_ascii key (fun x hx => validvarcharacter_ascii x (hkey x hx))
    unfold j_details_of
    rw [add_fields_append, add_fields_cons, add_fields_get_other bufsize back _ hback]
    show members_get (json_object_set_new _ key (some (.object (client_object bufsize c))))
      key = _
    rw [json_object_set_new_valid _ _ _ hk8, members_get_set, if_pos rfl]

/-- C12 (witness): the scenario `Hello $client!` for the client `irc.test.net`, and the
call of `logtest` with the client field `target` (log.c 1250), whose template has the two
tokens `$client` and `$target`. -/
theorem do_unreal_log_client_name_witness :
    (∃ ev, do_unreal_log_internal 512 "1970-01-01T00:00:00.000Z".toList ULOG_INFO
        "test".toList "TEST".toList (some logtest_me) true
        ("Hello ".toList ++ '$' :: ("client".toList ++ "!".toList)) [] = some ev ∧
      ev.msgbuf = "Hello irc.test.net!".toList) ∧
    (∃ ev, do_unreal_log_internal 512 "1970-01-01T00:00:00.000Z".toList ULOG_INFO
        "sacmds".toList "SAJOIN_COMMAND".toList (some logtest_me) true
        ("Client $client used SAJOIN to join ".toList ++
          '$' :: ("target".toList ++ " to y!".toList))
        ([] ++ ⟨"target".toList, .client logtest_me⟩ :: []) = some ev ∧
      ev.msgbuf = "Client irc.test.net used SAJOIN to join irc.test.net to y!".toList) := by
  obtain ⟨ev1, h1, m1⟩ := (do_unreal_log_client_name 512 "1970-01-01T00:00:00.000Z".toList
      ULOG_INFO "test".toList "TEST".toList logtest_me "Hello ".toList "!".toList (by decide)
      (by decide) (by decide) (by decide) (by decide) (by decide) (by decide) (by decide)).1
      [] (by simp) (by decide)
  obtain ⟨ev2, h2, m2⟩ := (do_unreal_log_client_name 512 "1970-01-01T00:00:00.000Z".toList
      ULOG_INFO "sacmds".toList "SAJOIN_COMMAND".toList logtest_me
      "Client $client used SAJOIN to join ".toList " to y!".toList (by decide)
      (by decide) (by decide) (by decide) (by decide) (by decide) (by decide) (by decide)).2
      (some logtest_me) "target".toList [] [] (by decide) (by decide) (by decide) (by decide)
      (by simp) (by decide)
  exact ⟨⟨ev1, h1, m1.trans (by decide)⟩, ⟨ev2, h2, m2.trans (by decide)⟩⟩

theorem strlcpy_of_lt (s : CStr) (size : Nat) (h : s.length < size) : strlcpy s size = s := by
  unfold strlcpy
  exact List.take_of_length_le (by omega)

theorem level_name_facts (l : LogLevel) (hl : l ≠ ULOG_INVALID) :
    ∃ name, log_level_valtostring l = some name ∧ log_level_stringtoval name = l ∧
      '.' ∉ name ∧ isupper (deref name) = false ∧ name ≠ [] ∧ name.length ≤ 5 := by
  cases l
  · exact absurd rfl hl
  all_goals exact ⟨_, rfl, by decide, by decide, by decide, by decide, by decide⟩

theorem valid_subsystem_facts (s : CStr) (h : valid_subsystem s = 1) :
    '.' ∉ s ∧ isupper (deref s) = false ∧ s ≠ [] := by
  unfold valid_subsystem at h
  by_cases h0 : s = []
  · rw [if_pos h0] at h
    cases h
  · rw [if_neg h0] at h
    have hall := (valid_subsystem_loop_iff s).1.mp h
    refine ⟨fun hd => ?_, ?_, h0⟩
    · have := hall _ hd
      revert this
      decide
    · obtain ⟨x, xs, rfl⟩ := List.exists_cons_of_ne_nil h0
      have hx := hall x (List.mem_cons_self _ _)
      show isupper x = false
      rw [Bool.eq_false_iff]
      intro hu
      have hu2 : 65 ≤ x.toNat ∧ x.toNat ≤ 90 := by simpa [isupper] using hu
      rcases hx with hx | hx | hx
      · have hl : 97 ≤ x.toNat ∧ x.toNat ≤ 122 := by
          simpa [islower] using (islower_iff x).mpr hx
        omega
      · have hl : 48 ≤ x.toNat ∧ x.toNat ≤ 57 := by
          simpa [isdigit] using (isdigit_iff x).mpr hx
        omega
      · subst hx
        revert hu
        decide

theorem valid_event_id_facts (e : CStr) (h : valid_event_id e = 1) :
    '.' ∉ e ∧ e ≠ [] := by
  unfold valid_event_id at h
  by_cases h0 : e = []
  · rw [if_pos h0] at h
    cases h
  · rw [if_neg h0] at h
    have hall := (valid_event_id_loop_iff e).1.mp h
    refine ⟨fun hd => ?_, h0⟩
    have := hall _ hd
    revert this
    decide

theorem isupper_not_level (e : CStr) (h : isupper (deref e) = true) :
    log_level_stringtoval e = ULOG_INVALID := by
  unfold log_level_stringtoval
  have hne : ∀ name : CStr, isupper (deref name) = false → e ≠ name := by
    intro name hn he
    rw [he, hn] at h
    cases h
  rw [if_neg (hne _ (by decide)), if_neg (hne _ (by decide)), if_neg (hne _ (by decide)),
    if_neg (hne _ (by decide)), if_neg (hne _ (by decide))]

theorem log_sources_match_singleton (t : LogSource) (level : LogLevel)
    (subsystem event_id : CStr) :
    log_sources_match [t] level subsystem event_id = 1 ↔
      (t.subsystem = [] ∨ t.subsystem = subsystem) ∧
      (t.event_id = [] ∨ t.event_id = event_id) ∧
      (t.loglevel = ULOG_INVALID ∨ t.loglevel = level) := by
  unfold log_sources_match
  simp only [log_sources_match]
  by_cases h1 : t.subsystem ≠ [] ∧ t.subsystem ≠ subsystem
  · rw [if_pos h1]
    simp only [zero_ne_one, false_iff, not_and]
    intro h
    rcases h with h | h
    · exact absurd h h1.1
    · exact absurd h h1.2
  · rw [if_neg h1]
    by_cases h2 : t.event_id ≠ [] ∧ t.event_id ≠ event_id
    · rw [if_pos h2]
      simp only [zero_ne_one, false_iff, not_and]
      intro _ h
      rcases h with h | h
      · exact absurd h h2.1
      · exact absurd h h2.2
    · rw [if_neg h2]
      by_cases h3 : t.loglevel ≠ ULOG_INVALID ∧ t.loglevel ≠ level
      · rw [if_pos h3]
        simp only [zero_ne_one, false_iff, not_and]
        intro _ _ h
        rcases h with h | h
        · exact absurd h h3.1
        · exact absurd h h3.2
      · rw [if_neg h3]
        simp only [true_iff]
        refine ⟨?_, ?_, ?_⟩
        · by_contra h
          exact h1 ⟨fun e => h (Or.inl e), fun e => h (Or.inr e)⟩
        · by_contra h
          exact h2 ⟨fun e => h (Or.inl e), fun e => h (Or.inr e)⟩
        · by_contra h
          exact h3 ⟨fun e => h (Or.inl e), fun e => h (Or.inr e)⟩

/-- The term for an expression of one piece without a dot. -/
theorem add_log_source_single (sz : Sizes) (p : CStr) (hdot : '.' ∉ p)
    (hlen : p.length ≤ 255) :
    add_log_source sz p =
      if log_level_stringtoval p = ULOG_INVALID then
        (if isupper (deref p) then
          ⟨ULOG_INVALID, [], if p ≠ [] then strlcpy p sz.event_id else []⟩
        else ⟨ULOG_INVALID, if p ≠ [] then strlcpy p sz.subsystem else [], []⟩)
      else ⟨log_level_stringtoval p, [], []⟩ := by
  unfold add_log_source
  simp only [strlcpy_of_lt p 256 (by omega), splitAtChar_not_mem _ _ hdot]
  by_cases h1 : log_level_stringtoval p = ULOG_INVALID
  · by_cases h2 : isupper (deref p) = true
    · simp [h1, h2]
    · simp [h1, h2]
  · simp [h1]

/-- The term for an expression of two parts, cut at its first dot. -/
theorem add_log_source_pair (sz : Sizes) (a b : CStr) (hdot : '.' ∉ a)
    (hlen : (a ++ '.' :: b).length ≤ 255) (hb : b ≠ []) :
    add_log_source sz (a ++ '.' :: b) =
      if isupper (deref b) then
        (if log_level_stringtoval a = ULOG_INVALID then
          (if isupper (deref a) then ⟨ULOG_INVALID, [], strlcpy b sz.event_id⟩
           else ⟨ULOG_INVALID, if a ≠ [] then strlcpy a sz.subsystem else [],
             strlcpy b sz.event_id⟩)
         else ⟨log_level_stringtoval a, [], strlcpy b sz.event_id⟩)
      else if log_level_stringtoval a = ULOG_INVALID then
        (if isupper (deref a) then
          (if log_level_stringtoval b = ULOG_INVALID then
            ⟨ULOG_INVALID, strlcpy b sz.subsystem, if a ≠ [] then strlcpy a sz.event_id else []⟩
           else ⟨log_level_stringtoval b, [], if a ≠ [] then strlcpy a sz.event_id else []⟩)
         else ⟨log_level_stringtoval b, if a ≠ [] then strlcpy a sz.subsystem else [], []⟩)
      else ⟨log_level_stringtoval a, strlcpy b sz.subsystem, []⟩ := by
  unfold add_log_source
  simp only [strlcpy_of_lt (a ++ '.' :: b) 256 (by omega), splitAtChar_append _ _ _ hdot]
  by_cases h1 : log_level_stringtoval a = ULOG_INVALID <;>
    by_cases h2 : isupper (deref a) = true <;>
    by_cases h3 : isupper (deref b) = true <;>
    by_cases h4 : log_level_stringtoval b = ULOG_INVALID <;>
    simp [h1, h2, h3, h4, hb]

theorem valid_subsystem_eq_one_iff (s : CStr) :
    valid_subsystem s = 1 ↔ matches_lower_pattern s := by
  unfold valid_subsystem matches_lower_pattern
  by_cases h : s = []
  · simp [h]
  · simp only [h, if_false, ne_eq, not_false_eq_true, true_and]
    exact (valid_subsystem_loop_iff s).1

theorem valid_event_id_eq_one_iff (s : CStr) :
    valid_event_id s = 1 ↔ matches_upper_pattern s := by
  unfold valid_event_id matches_upper_pattern
  by_cases h : s = []
  · simp [h]
  · simp only [h, if_false, ne_eq, not_false_eq_true, true_and]
    exact (valid_event_id_loop_iff s).1

set_option maxRecDepth 100000 in
/-- C15 (counterexample): the piece `_FOO` matches the event id pattern but is stored as
the subsystem; a piece of 256 letters `A` is stored cut to 255; and with arrays of 8 bytes
the event id `LINK_DISCONNECTED` is stored as `LINK_DI`. -/
theorem single_piece_not_as_claimed :
    matches_upper_pattern "_FOO".toList ∧
    add_log_source ⟨64, 64, 64⟩ "_FOO".toList = ⟨ULOG_INVALID, "_FOO".toList, []⟩ ∧
    add_log_source ⟨512, 512, 512⟩ (List.replicate 256 'A')
      = ⟨ULOG_INVALID, [], List.replicate 255 'A'⟩ ∧
    add_log_source ⟨8, 8, 8⟩ "LINK_DISCONNECTED".toList
      = ⟨ULOG_INVALID, [], "LINK_DI".toList⟩ := by
  refine ⟨?_, by decide, ?_, by decide⟩
  · unfold matches_upper_pattern
    decide
  · rfl

/-- C15 (amended): for a piece `p` of at most 255 characters: if `p` is the name of one of
the five levels the term constrains the level only; if `p` matches `^[A-Z0-9_]+$`, starts
with an uppercase letter and fits the event id array, the term constrains the event id
only, set to `p`; if `p` matches `^[a-z0-9_]+$`, is not a level name and fits the
subsystem array, the term constrains the subsystem only, set to `p`. -/
theorem add_log_source_one_piece (sz : Sizes) (p : CStr) (hlen : p.length ≤ 255) :
    (∀ l, l ≠ ULOG_INVALID → log_level_valtostring l = some p →
      add_log_source sz p = ⟨l, [], []⟩) ∧
    (matches_upper_pattern p → isupper (deref p) = true → p.length < sz.event_id →
      add_log_source sz p = ⟨ULOG_INVALID, [], p⟩) ∧
    (matches_lower_pattern p → log_level_stringtoval p = ULOG_INVALID →
      p.length < sz.subsystem → add_log_source sz p = ⟨ULOG_INVALID, p, []⟩) := by
  refine ⟨?_, ?_, ?_⟩
  · intro l hl hp
    obtain ⟨name, hn, hlv, hdot, _, _, _⟩ := level_name_facts l hl
    rw [hp] at hn
    cases hn
    rw [add_log_source_single sz p hdot hlen, hlv, if_neg hl]
  · intro hpat hup hsz
    obtain ⟨hdot, hne⟩ := valid_event_id_facts p ((valid_event_id_eq_one_iff p).mpr hpat)
    rw [add_log_source_single sz p hdot hlen, isupper_not_level p hup, if_pos rfl, if_pos hup,
      if_pos hne, strlcpy_of_lt p _ hsz]
  · intro hpat hnl hsz
    obtain ⟨hdot, hup, hne⟩ :=
      valid_subsystem_facts p ((valid_subsystem_eq_one_iff p).mpr hpat)
    rw [add_log_source_single sz p hdot hlen, hnl, if_pos rfl, hup]
    simp only [Bool.false_eq_true, if_false]
    rw [if_pos hne, strlcpy_of_lt p _ hsz]

/-- C15 (witness): the pieces `error`, `LINK_DISCONNECTED` and `linking`. -/
theorem add_log_source_one_piece_witness :
    add_log_source ⟨64, 64, 64⟩ "error".toList = ⟨ULOG_ERROR, [], []⟩ ∧
    add_log_source ⟨64, 64, 64⟩ "LINK_DISCONNECTED".toList
      = ⟨ULOG_INVALID, [], "LINK_DISCONNECTED".toList⟩ ∧
    add_log_source ⟨64, 64, 64⟩ "linking".toList = ⟨ULOG_INVALID, "linking".toList, []⟩ :=
  ⟨(add_log_source_one_piece ⟨64, 64, 64⟩ "error".toList (by decide)).1 ULOG_ERROR
      (by decide) rfl,
   (add_log_source_one_piece ⟨64, 64, 64⟩ "LINK_DISCONNECTED".toList (by decide)).2.1
      (by unfold matches_upper_pattern; decide) (by decide) (by decide),
   (add_log_source_one_piece ⟨64, 64, 64⟩ "linking".toList (by decide)).2.2
      (by unfold matches_lower_pattern; decide) (by decide) (by decide)⟩

/-- A term without any constraint in a filter list makes the list match every event. -/
theorem log_sources_match_of_wildcard_mem (ts : List LogSource) (level : LogLevel)
    (subsystem event_id : CStr) (h : (⟨ULOG_INVALID, [], []⟩ : LogSource) ∈ ts) :
    log_sources_match ts level subsystem event_id = 1 := by
  induction ts with
  | nil => cases h
  | cons t rest ih =>
    unfold log_sources_match
    rcases List.mem_cons.mp h with e | h
    · subst e
      simp
    · split_ifs
      · exact ih h
      · exact ih h
      · exact ih h
      · rfl

/-- C17: the empty expression and the lone dot are parsed into the term without any
constraint, and a filter list that contains this term matches every event. -/
theorem add_log_source_no_piece (sz : Sizes) :
    add_log_source sz [] = ⟨ULOG_INVALID, [], []⟩ ∧
    add_log_source sz ['.'] = ⟨ULOG_INVALID, [], []⟩ ∧
    ∀ (ts : List LogSource) (level : LogLevel) (subsystem event_id : CStr),
      add_log_source sz [] ∈ ts ∨ add_log_source sz ['.'] ∈ ts →
      log_sources_match ts level subsystem event_id = 1 := by
  have h1 : add_log_source sz [] = ⟨ULOG_INVALID, [], []⟩ := rfl
  have h2 : add_log_source sz ['.'] = ⟨ULOG_INVALID, [], []⟩ := rfl
  refine ⟨h1, h2, ?_⟩
  intro ts level subsystem event_id h
  rw [h1, h2, or_self] at h
  exact log_sources_match_of_wildcard_mem ts level subsystem event_id h

/-- C17 (witness): a filter list made of `linking` and of the empty expression matches an
event of the subsystem `nick`. -/
theorem add_log_source_no_piece_witness :
    log_sources_match
      [add_log_source ⟨64, 64, 64⟩ "linking".toList, add_log_source ⟨64, 64, 64⟩ []]
      ULOG_INFO "nick".toList "NICK_CHANGE".toList = 1 :=
  (add_log_source_no_piece ⟨64, 64, 64⟩).2.2 _ ULOG_INFO "nick".toList "NICK_CHANGE".toList
    (Or.inl (by decide))

/-- C16 (counterexample): the three-piece expression `error.linking.LINK_DISCONNECTED`
gives a term that does not match the event it names; `linking._LINK` drops the event id
`_LINK` and matches another event id; the subsystem `error` is read as the level; and with
arrays of 8 bytes the subsystem `connthrottle` is stored cut and does not match itself. -/
theorem source_expression_not_as_claimed :
    add_log_source ⟨64, 64, 64⟩ "error.linking.LINK_DISCONNECTED".toList
      = ⟨ULOG_ERROR, "linking.LINK_DISCONNECTED".toList, []⟩ ∧
    log_sources_match [add_log_source ⟨64, 64, 64⟩ "error.linking.LINK_DISCONNECTED".toList]
      ULOG_ERROR "linking".toList "LINK_DISCONNECTED".toList = 0 ∧
    valid_event_id "_LINK".toList = 1 ∧
    log_sources_match [add_log_source ⟨64, 64, 64⟩ "linking._LINK".toList]
      ULOG_INFO "linking".toList "OTHER".toList = 1 ∧
    valid_subsystem "error".toList = 1 ∧
    log_sources_match [add_log_source ⟨64, 64, 64⟩ "error".toList]
      ULOG_INFO "error".toList "LINK_DISCONNECTED".toList = 0 ∧
    valid_subsystem "connthrottle".toList = 1 ∧
    log_sources_match [add_log_source ⟨8, 8, 8⟩ "connthrottle".toList]
      ULOG_INFO "connthrottle".toList "LINK_DISCONNECTED".toList = 0 := by
  refine ⟨by decide, by decide, by decide, by decide, by decide, by decide, by decide,
    by decide⟩

/-- C16 (amended): for an expression that joins one or two pieces on different axes, each
piece being one of the five levels, a valid subsystem that is not a level name and fits
its array, or a valid event id that starts with an uppercase letter and fits its array,
and the expression having at most 255 characters, the term of `add_log_source` matches an
event iff the event agrees with every piece of the expression. -/
theorem add_log_source_matches_pieces (sz : Sizes) (ps : List Piece) (level : LogLevel)
    (subsystem event_id : CStr) (hcount : 1 ≤ ps.length ∧ ps.length ≤ 2)
    (haxes : (ps.map Piece.axis).Nodup) (husable : ∀ p ∈ ps, p.usable sz)
    (hlen : (join_pieces ps).length ≤ 255) :
    log_sources_match [add_log_source sz (join_pieces ps)] level subsystem event_id = 1 ↔
      ∀ p ∈ ps, p.agrees level subsystem event_id := by
  have hlevel : ∀ l, Piece.usable sz (.level l) →
      ∃ name, (log_level_valtostring l).getD [] = name ∧ log_level_stringtoval name = l ∧
        '.' ∉ name ∧
        isupper (deref name) = false ∧ name ≠ [] ∧ l ≠ ULOG_INVALID := by
    intro l hl
    obtain ⟨name, hn, hlv, hdot, hup, hne, _⟩ := level_name_facts l hl
    exact ⟨name, by simp [hn], hlv, hdot, hup, hne, hl⟩
  rw [log_sources_match_singleton]
  match ps, hcount, haxes, husable, hlen with
  | [.level l], _, _, hu, hlen =>
    obtain ⟨n, hn, hlv, hdot, hup, hne, hl⟩ := hlevel l (hu _ (List.mem_cons_self _ _))
    simp only [join_pieces, Piece.text, hn] at hlen ⊢
    rw [add_log_source_single sz n hdot hlen, hlv, if_neg hl]
    simp [Piece.agrees, hl]
  | [.subsystem s], _, _, hu, hlen =>
    obtain ⟨hv, hnl, hsz⟩ := hu _ (List.mem_cons_self _ _)
    obtain ⟨hdot, hup, hne⟩ := valid_subsystem_facts s hv
    simp only [join_pieces, Piece.text] at hlen ⊢
    rw [add_log_source_single sz s hdot hlen, hnl, if_pos rfl, hup]
    simp [Piece.agrees, hne, strlcpy_of_lt s _ hsz]
  | [.event_id e], _, _, hu, hlen =>
    obtain ⟨hv, hup, hsz⟩ := hu _ (List.mem_cons_self _ _)
    obtain ⟨hdot, hne⟩ := valid_event_id_facts e hv
    simp only [join_pieces, Piece.text] at hlen ⊢
    rw [add_log_source_single sz e hdot hlen, isupper_not_level e hup, if_pos rfl, if_pos hup]
    simp [Piece.agrees, hne, strlcpy_of_lt e _ hsz]
  | [.level l, .subsystem s], _, _, hu, hlen =>
    obtain ⟨n, hn, hlv, hdot, hup, hne, hl⟩ := hlevel l (hu _ (List.mem_cons_self _ _))
    obtain ⟨hv, hnl, hsz⟩ := hu (.subsystem s) (by simp)
    obtain ⟨hdot2, hup2, hne2⟩ := valid_subsystem_facts s hv
    simp only [join_pieces, Piece.text, hn] at hlen ⊢
    rw [add_log_source_pair sz n s hdot hlen hne2, hup2, hlv]
    simp [Piece.agrees, hl, hne2, strlcpy_of_lt s _ hsz]
    exact and_comm
  | [.subsystem s, .level l], _, _, hu, hlen =>
    obtain ⟨n, hn, hlv, hdot, hup, hne, hl⟩ := hlevel l (hu (.level l) (by simp))
    obtain ⟨hv, hnl, hsz⟩ := hu (.subsystem s) (by simp)
    obtain ⟨hdot2, hup2, hne2⟩ := valid_subsystem_facts s hv
    simp only [join_pieces, Piece.text, hn] at hlen ⊢
    rw [add_log_source_pair sz s n hdot2 hlen hne, hup, hnl, hup2, hlv]
    simp [Piece.agrees, hl, hne2, strlcpy_of_lt s _ hsz]
  | [.level l, .event_id e], _, _, hu, hlen =>
    obtain ⟨n, hn, hlv, hdot, hup, hne, hl⟩ := hlevel l (hu _ (List.mem_cons_self _ _))
    obtain ⟨hv, hup2, hsz⟩ := hu (.event_id e) (by simp)
    obtain ⟨hdot2, hne2⟩ := valid_event_id_facts e hv
    simp only [join_pieces, Piece.text, hn] at hlen ⊢
    rw [add_log_source_pair sz n e hdot hlen hne2, if_pos hup2, hlv, if_neg hl]
    simp [Piece.agrees, hl, hne2, strlcpy_of_lt e _ hsz]
    exact and_comm
  | [.event_id e, .level l], _, _, hu, hlen =>
    obtain ⟨n, hn, hlv, hdot, hup, hne, hl⟩ := hlevel l (hu (.level l) (by simp))
    obtain ⟨hv, hup2, hsz⟩ := hu (.event_id e) (by simp)
    obtain ⟨hdot2, hne2⟩ := valid_event_id_facts e hv
    simp only [join_pieces, Piece.text, hn] at hlen ⊢
    rw [add_log_source_pair sz e n hdot2 hlen hne, hup, isupper_not_level e hup2, hlv]
    simp [Piece.agrees, hl, hne2, hup2, strlcpy_of_lt e _ hsz]
  | [.subsystem s, .event_id e], _, _, hu, hlen =>
    obtain ⟨hv, hnl, hsz⟩ := hu (.subsystem s) (by simp)
    obtain ⟨hdot, hup, hne⟩ := valid_subsystem_facts s hv
    obtain ⟨hv2, hup2, hsz2⟩ := hu (.event_id e) (by simp)
    obtain ⟨hdot2, hne2⟩ := valid_event_id_facts e hv2
    simp only [join_pieces, Piece.text] at hlen ⊢
    rw [add_log_source_pair sz s e hdot hlen hne2, if_pos hup2, hnl, hup]
    simp [Piece.agrees, hne, hne2, strlcpy_of_lt s _ hsz, strlcpy_of_lt e _ hsz2]
  | [.event_id e, .subsystem s], _, _, hu, hlen =>
    obtain ⟨hv, hnl, hsz⟩ := hu (.subsystem s) (by simp)
    obtain ⟨hdot, hup, hne⟩ := valid_subsystem_facts s hv
    obtain ⟨hv2, hup2, hsz2⟩ := hu (.event_id e) (by simp)
    obtain ⟨hdot2, hne2⟩ := valid_event_id_facts e hv2
    simp only [join_pieces, Piece.text] at hlen ⊢
    rw [add_log_source_pair sz e s hdot2 hlen hne, hup, isupper_not_level e hup2, hnl]
    simp [Piece.agrees, hne, hne2, hup2, strlcpy_of_lt s _ hsz, strlcpy_of_lt e _ hsz2]
    exact and_comm
  | [.level _, .level _], _, hax, _, _ => simp [Piece.axis] at hax
  | [.subsystem _, .subsystem _], _, hax, _, _ => simp [Piece.axis] at hax
  | [.event_id _, .event_id _], _, hax, _, _ => simp [Piece.axis] at hax
  | [], hc, _, _, _ => simp at hc
  | _ :: _ :: _ :: _, hc, _, _, _ => simp at hc

/-- C16 (witness): the expression `linking.LINK_DISCONNECTED`. -/
theorem add_log_source_matches_pieces_witness :
    log_sources_match
      [add_log_source ⟨64, 64, 64⟩
        (join_pieces [.subsystem "linking".toList, .event_id "LINK_DISCONNECTED".toList])]
      ULOG_ERROR "linking".toList "LINK_DISCONNECTED".toList = 1 ↔
      ∀ p ∈ [Piece.subsystem "linking".toList, Piece.event_id "LINK_DISCONNECTED".toList],
        p.agrees ULOG_ERROR "linking".toList "LINK_DISCONNECTED".toList :=
  add_log_source_matches_pieces ⟨64, 64, 64⟩ _ ULOG_ERROR "linking".toList
    "LINK_DISCONNECTED".toList (by decide) (by decide)
    (by
      intro p hp
      simp only [List.mem_cons, List.mem_singleton, List.not_mem_nil, or_false] at hp
      rcases hp with rfl | rfl
      · exact ⟨by decide, by decide, by decide⟩
      · exact ⟨by decide, by decide, by decide⟩)
    (by decide)

/-! ### The operator notification sink -/

theorem snomask_letter_found_iff (client_snomasks L : CStr) :
    snomask_letter_found client_snomasks L = true ↔ ∃ p ∈ L, p ∈ client_snomasks := by
  induction L with
  | nil => simp [snomask_letter_found]
  | cons p rest ih =>
    unfold snomask_letter_found
    by_cases h : p ∈ client_snomasks
    · rw [if_pos h]
      simp only [List.mem_cons, exists_eq_or_imp, h, true_or]
    · rw [if_neg h, ih]
      simp only [List.mem_cons, exists_eq_or_imp, h, false_or]

theorem notify_opers_eq (get_snomask_string : Client → CStr) (L text : CStr)
    (oper_list : List Client) :
    notify_opers get_snomask_string L text oper_list =
      (oper_list.filter (fun c => decide (∃ p ∈ L, p ∈ get_snomask_string c))).map
        (fun c => Notice.sendnotice c text) := by
  induction oper_list with
  | nil => rfl
  | cons c next ih =>
    unfold notify_opers
    by_cases h : ∃ p ∈ L, p ∈ get_snomask_string c
    · rw [if_pos ((snomask_letter_found_iff _ _).mpr h), ih,
        List.filter_cons_of_pos (by simpa using h)]
      rfl
    · have hf : ¬ snomask_letter_found (get_snomask_string c) L = true :=
        fun hh => h ((snomask_letter_found_iff _ _).mp hh)
      rw [if_neg hf, ih, List.filter_cons_of_neg (by simpa using h)]

/-- C18 (counterexample): with one snomask destination `e` bound to the level error and no
all-opers destination, on a booted server, an event at level warn is handed to
`sendto_realops`, the broadcast to all privileged sessions. -/
theorem warn_is_broadcast :
    log_to_snomask ⟨[⟨['e'], [⟨ULOG_ERROR, [], []⟩]⟩], [], [], []⟩ ULOG_WARNING
      "linking".toList "LINK_DISCONNECTED".toList = none ∧
    do_unreal_log_ircops true ⟨[⟨['e'], [⟨ULOG_ERROR, [], []⟩]⟩], [], [], []⟩
      [example_oper "alice".toList "e".toList, example_oper "bob".toList "k".toList]
      (fun c => c.info) ULOG_WARNING "linking".toList "LINK_DISCONNECTED".toList
      "Lost server".toList =
      [.sendto_realops "[warn] linking.LINK_DISCONNECTED Lost server".toList] := by
  refine ⟨by decide, by decide⟩

/-- C18 (amended): on a booted server with exactly one snomask destination, of letter `x`
and bound to the level error, and no all-opers destination, for an event that is not of the
subsystem `traffic`: at level warn the router gives NULL and the sink falls back to the
broadcast to all privileged sessions; at level error the notice goes, once each, to the
sessions of `oper_list` whose snomask string contains `x`. -/
theorem do_unreal_log_ircops_error_filter (x : Char) (hx : x ≠ '*')
    (channels global : List LogDestination) (oper_list : List Client)
    (get_snomask_string : Client → CStr) (subsystem event_id msg : CStr)
    (htraffic : subsystem ≠ "traffic".toList) :
    do_unreal_log_ircops true ⟨[⟨[x], [⟨ULOG_ERROR, [], []⟩]⟩], channels, [], global⟩
        oper_list get_snomask_string ULOG_WARNING subsystem event_id msg =
      [.sendto_realops (ircops_text ULOG_WARNING subsystem event_id msg)] ∧
    do_unreal_log_ircops true ⟨[⟨[x], [⟨ULOG_ERROR, [], []⟩]⟩], channels, [], global⟩
        oper_list get_snomask_string ULOG_ERROR subsystem event_id msg =
      (oper_list.filter (fun c => decide (x ∈ get_snomask_string c))).map
        (fun c => Notice.sendnotice c (ircops_text ULOG_ERROR subsystem event_id msg)) := by
  have h1 : log_to_snomask ⟨[⟨[x], [⟨ULOG_ERROR, [], []⟩]⟩], channels, [], global⟩
      ULOG_WARNING subsystem event_id = none := by
    simp [log_to_snomask, all_ircops_match, log_to_snomask_loop, log_sources_match]
  have h2 : log_to_snomask ⟨[⟨[x], [⟨ULOG_ERROR, [], []⟩]⟩], channels, [], global⟩
      ULOG_ERROR subsystem event_id = some [x] := by
    simp [log_to_snomask, all_ircops_match, log_to_snomask_loop, log_sources_match, strlcat]
  have hx2 : [x] ≠ "*".toList := by
    intro h
    exact hx (List.head_eq_of_cons_eq h)
  unfold do_unreal_log_ircops
  simp only [Bool.not_true, Bool.false_eq_true, if_false, htraffic, h1, h2, hx2]
  rw [notify_opers_eq]
  simp

/-- C18 (witness): the snomask `e`, an operator with `e` and an operator with `k`. -/
theorem do_unreal_log_ircops_error_filter_witness :
    do_unreal_log_ircops true ⟨[⟨['e'], [⟨ULOG_ERROR, [], []⟩]⟩], [], [], []⟩
        [example_oper "alice".toList "e".toList, example_oper "bob".toList "k".toList]
        (fun c => c.info) ULOG_WARNING "linking".toList "LINK_DISCONNECTED".toList
        "Lost server".toList =
      [.sendto_realops (ircops_text ULOG_WARNING "linking".toList "LINK_DISCONNECTED".toList
        "Lost server".toList)] ∧
    do_unreal_log_ircops true ⟨[⟨['e'], [⟨ULOG_ERROR, [], []⟩]⟩], [], [], []⟩
        [example_oper "alice".toList "e".toList, example_oper "bob".toList "k".toList]
        (fun c => c.info) ULOG_ERROR "linking".toList "LINK_DISCONNECTED".toList
        "Lost server".toList =
      ([example_oper "alice".toList "e".toList, example_oper "bob".toList "k".toList].filter
        (fun c => decide ('e' ∈ c.info))).map
        (fun c => Notice.sendnotice c (ircops_text ULOG_ERROR "linking".toList
          "LINK_DISCONNECTED".toList "Lost server".toList)) :=
  do_unreal_log_ircops_error_filter 'e' (by decide) [] []
    [example_oper "alice".toList "e".toList, example_oper "bob".toList "k".toList]
    (fun c => c.info) "linking".toList "LINK_DISCONNECTED".toList "Lost server".toList
    (by decide)

/-- C19: before boot and for the subsystem `traffic` nothing is delivered; otherwise, when
the router gives `"*"` or NULL there is exactly one broadcast `sendto_realops`, and when it
gives another string `L` there is one `sendnotice`, in list order, for each session of
`oper_list` whose snomask string shares a letter with `L`, and none for the others. -/
theorem do_unreal_log_ircops_delivery (ircd_booted : Bool) (iConf : Configuration)
    (oper_list : List Client) (get_snomask_string : Client → CStr) (loglevel : LogLevel)
    (subsystem event_id msg : CStr) :
    (ircd_booted = false ∨ subsystem = "traffic".toList →
      do_unreal_log_ircops ircd_booted iConf oper_list get_snomask_string loglevel subsystem
        event_id msg = []) ∧
    (ircd_booted = true → subsystem ≠ "traffic".toList →
      (log_to_snomask iConf loglevel subsystem event_id = none ∨
        log_to_snomask iConf loglevel subsystem event_id = some "*".toList →
        do_unreal_log_ircops ircd_booted iConf oper_list get_snomask_string loglevel
          subsystem event_id msg =
          [.sendto_realops (ircops_text loglevel subsystem event_id msg)]) ∧
      (∀ L : CStr, log_to_snomask iConf loglevel subsystem event_id = some L →
        L ≠ "*".toList →
        do_unreal_log_ircops ircd_booted iConf oper_list get_snomask_string loglevel
          subsystem event_id msg =
          (oper_list.filter (fun c => decide (∃ p ∈ L, p ∈ get_snomask_string c))).map
            (fun c => Notice.sendnotice c (ircops_text loglevel subsystem event_id msg)))) := by
  refine ⟨?_, ?_⟩
  · rintro (h | h)
    · simp [do_unreal_log_ircops, h]
    · unfold do_unreal_log_ircops
      rw [if_pos h]
      simp
  · intro hb ht
    refine ⟨?_, ?_⟩
    · rintro (h | h)
      · unfold do_unreal_log_ircops
        rw [hb, h]
        simp only [Bool.not_true, Bool.false_eq_true, if_false, ht]
      · unfold do_unreal_log_ircops
        rw [hb, h]
        simp only [Bool.not_true, Bool.false_eq_true, if_false, ht, if_true]
    · intro L hL hne
      unfold do_unreal_log_ircops
      rw [hb, hL]
      simp only [Bool.not_true, Bool.false_eq_true, if_false, ht, hne]
      exact notify_opers_eq _ _ _ _

/-- C19 (witness): the router result `ek` with operators holding `e`, `ke` and `x`; the
router result `"*"`; and the subsystem `traffic`. -/
theorem do_unreal_log_ircops_delivery_witness :
    do_unreal_log_ircops true
        ⟨[⟨['e'], [⟨ULOG_ERROR, [], []⟩]⟩, ⟨['k'], [⟨ULOG_INVALID, [], []⟩]⟩], [], [], []⟩
        [example_oper "alice".toList "e".toList, example_oper "bob".toList "ke".toList,
          example_oper "carol".toList "x".toList]
        (fun c => c.info) ULOG_ERROR "linking".toList "LINK_DISCONNECTED".toList
        "Lost server".toList =
      ([example_oper "alice".toList "e".toList, example_oper "bob".toList "ke".toList,
          example_oper "carol".toList "x".toList].filter
        (fun c => decide (∃ p ∈ "ek".toList, p ∈ c.info))).map
        (fun c => Notice.sendnotice c (ircops_text ULOG_ERROR "linking".toList
          "LINK_DISCONNECTED".toList "Lost server".toList)) ∧
    do_unreal_log_ircops true ⟨[], [], [⟨[], [⟨ULOG_INVALID, "linking".toList, []⟩]⟩], []⟩
        [example_oper "alice".toList "e".toList] (fun c => c.info) ULOG_ERROR
        "linking".toList "LINK_DISCONNECTED".toList "Lost server".toList =
      [.sendto_realops (ircops_text ULOG_ERROR "linking".toList "LINK_DISCONNECTED".toList
        "Lost server".toList)] ∧
    do_unreal_log_ircops true ⟨[], [], [], []⟩ [example_oper "alice".toList "e".toList]
        (fun c => c.info) ULOG_INFO "traffic".toList "TRAFFIC_IN".toList "PING".toList = [] :=
  ⟨((do_unreal_log_ircops_delivery true _ _ (fun c => c.info) ULOG_ERROR "linking".toList
      "LINK_DISCONNECTED".toList "Lost server".toList).2 rfl (by decide)).2 "ek".toList
      (by decide) (by decide),
   ((do_unreal_log_ircops_delivery true _ _ (fun c => c.info) ULOG_ERROR "linking".toList
      "LINK_DISCONNECTED".toList "Lost server".toList).2 rfl (by decide)).1
      (Or.inr (by decide)),
   (do_unreal_log_ircops_delivery true _ _ (fun c => c.info) ULOG_INFO "traffic".toList
      "TRAFFIC_IN".toList "PING".toList).1 (Or.inr rfl)⟩

/-! ### The disk sink -/

/-- For a record that names a static file, has no size limit and is open, one round of the
loop is the writing step. -/
theorem disk_record_open (P : DiskParams) (subsystem text_buf json_serialized file : CStr)
    (type : LogType) (fd : Nat) (e : DiskEnv)
    (hsys : (P.have_syslog && strcasecmp_eq file "syslog".toList) = false) :
    disk_record P subsystem text_buf json_serialized ⟨some file, none, 0, type, some fd⟩ e =
      (⟨some file, none, 0, type, some fd⟩,
        disk_write P file type subsystem text_buf json_serialized fd e) := by
  unfold disk_record
  simp only [hsys, Bool.false_eq_true, if_false, disk_maxsize, ne_eq, not_true_eq_false,
    false_and]

/-- C29: level names round-trip. Each of the five levels has a name that
`log_level_stringtoval` maps back to the level; `log_level_stringtoval s` is a level other
than `ULOG_INVALID` exactly when `s` is one of the five names, and then
`log_level_valtostring` gives back `s`; `log_level_valtostring` gives NULL exactly for
`ULOG_INVALID`. -/
theorem log_level_round_trip :
    (∀ l, l ≠ ULOG_INVALID →
      ∃ name, log_level_valtostring l = some name ∧ log_level_stringtoval name = l) ∧
    (∀ s, log_level_stringtoval s ≠ ULOG_INVALID ↔
      s ∈ ["debug".toList, "info".toList, "warn".toList, "error".toList, "fatal".toList]) ∧
    (∀ s, log_level_stringtoval s ≠ ULOG_INVALID →
      log_level_valtostring (log_level_stringtoval s) = some s) ∧
    (∀ l, log_level_valtostring l = none ↔ l = ULOG_INVALID) := by
  refine ⟨?_, ?_, ?_, ?_⟩
  · intro l hl
    cases l
    · exact absurd rfl hl
    all_goals exact ⟨_, rfl, by decide⟩
  · intro s
    unfold log_level_stringtoval
    constructor
    · intro h
      split_ifs at h with h1 h2 h3 h4 h5
      · simp [h1]
      · simp [h2]
      · simp [h3]
      · simp [h4]
      · simp [h5]
      · exact absurd rfl h
    · intro h
      simp only [List.mem_cons, List.mem_singleton, List.not_mem_nil, or_false] at h
      rcases h with h | h | h | h | h <;> subst h <;> decide
  · intro s h
    unfold log_level_stringtoval at h ⊢
    split_ifs at h ⊢ with h1 h2 h3 h4 h5
    · rw [h1]; rfl
    · rw [h2]; rfl
    · rw [h3]; rfl
    · rw [h4]; rfl
    · rw [h5]; rfl
    · exact absurd rfl h
  · intro l
    cases l <;> simp [log_level_valtostring]

/-! ### The test of `set::logging` -/

theorem is_ascii_letter_eq (c : Char) : is_ascii_letter c = (islower c || isupper c) := by
  rw [Bool.eq_iff_iff]
  simp only [is_ascii_letter, decide_eq_true_eq, Bool.or_eq_true, islower_iff, isupper_iff]

theorem config_test_set_logging_loop_eq (vc : CStr → Bool) (es : List ConfigEntry)
    (errors : Nat) :
    config_test_set_logging_loop vc es errors = errors + es.countP (entry_offends vc) := by
  induction es generalizing errors with
  | nil => simp [config_test_set_logging_loop]
  | cons ce next ih =>
    rw [config_test_set_logging_loop, List.countP_cons]
    by_cases h4 : ce.ce_varname = "snomask".toList ∨ ce.ce_varname = "all-opers".toList ∨
        ce.ce_varname = "global".toList ∨ ce.ce_varname = "channel".toList
    · rw [if_pos h4, ih]
      have hmem : ¬ ce.ce_varname ∉ ["snomask".toList, "all-opers".toList, "global".toList,
          "channel".toList] := by
        simpa only [List.mem_cons, List.mem_singleton, List.not_mem_nil, or_false,
          not_not] using h4
      by_cases hs : ce.ce_varname = "snomask".toList
      · have hc : ce.ce_varname ≠ "channel".toList := by rw [hs]; decide
        simp only [entry_offends, hmem, if_false, if_pos hs, if_neg hc]
        cases hv : ce.ce_vardata with
        | none => simp; omega
        | some v =>
          match v with
          | [] => simp; omega
          | [c] =>
            simp only [List.length_singleton, ne_eq, not_true_eq_false, false_or, deref,
              List.headD_cons, is_ascii_letter_eq]
            cases hl : (islower c || isupper c) <;> simp <;> omega
          | c :: d :: rest => simp; omega
      · by_cases hc : ce.ce_varname = "channel".toList
        · simp only [entry_offends, hmem, if_false, if_neg hs, if_pos hc]
          cases hv : ce.ce_vardata with
          | none => simp; omega
          | some v => by_cases hvc : vc v = false <;> simp [hvc] <;> omega
        · simp only [entry_offends, hmem, if_false, if_neg hs, if_neg hc]
          simp
    · rw [if_neg h4, ih]
      have hmem : ce.ce_varname ∉ ["snomask".toList, "all-opers".toList, "global".toList,
          "channel".toList] := by
        simpa only [List.mem_cons, List.mem_singleton, List.not_mem_nil, or_false] using h4
      simp only [entry_offends, hmem, if_true]
      simp
      omega

/-- C28: `config_test_set_logging` returns exactly the number of offending entries of the
block, and so it returns 0 if and only if no entry offends. -/
theorem config_test_set_logging_count (valid_channelname : CStr → Bool) (ce : ConfigEntry) :
    config_test_set_logging valid_channelname ce =
        ce.ce_entries.countP (entry_offends valid_channelname) ∧
      (config_test_set_logging valid_channelname ce = 0 ↔
        ∀ e ∈ ce.ce_entries, entry_offends valid_channelname e = false) := by
  unfold config_test_set_logging
  rw [config_test_set_logging_loop_eq, Nat.zero_add]
  refine ⟨rfl, ?_⟩
  rw [List.countP_eq_zero]
  simp only [Bool.not_eq_true]

/-- C27 (counterexample): the block `set::logging { all-opers { Mixed; }; }` passes the test
with 0 errors, although `Mixed` is neither a level name nor a valid subsystem nor a valid
event id. -/
theorem bad_source_expression_not_rejected :
    log_level_stringtoval "Mixed".toList = ULOG_INVALID ∧
      valid_subsystem "Mixed".toList = 0 ∧ valid_event_id "Mixed".toList = 0 ∧
      config_test_set_logging (fun _ => true) mixed_case_block = 0 := by
  decide

theorem countP_entry_offends_congr (vc : CStr → Bool) (xs ys : List ConfigEntry)
    (h : List.Forall₂ (fun x y => x.ce_varname = y.ce_varname ∧ x.ce_vardata = y.ce_vardata)
      xs ys) :
    xs.countP (entry_offends vc) = ys.countP (entry_offends vc) := by
  induction h with
  | nil => rfl
  | cons hxy _ ih =>
    rw [List.countP_cons, List.countP_cons, ih]
    simp only [entry_offends, hxy.1, hxy.2]

/-- C27 (amended): `config_test_set_logging` does not look at the source expressions. Two
blocks whose entries agree, one by one, in name and parameter get the same error count,
whatever source expressions the entries list. -/
theorem config_test_set_logging_ignores_sources (valid_channelname : CStr → Bool)
    (a b : ConfigEntry)
    (h : List.Forall₂ (fun x y => x.ce_varname = y.ce_varname ∧ x.ce_vardata = y.ce_vardata)
      a.ce_entries b.ce_entries) :
    config_test_set_logging valid_channelname a =
      config_test_set_logging valid_channelname b := by
  unfold config_test_set_logging
  rw [config_test_set_logging_loop_eq, config_test_set_logging_loop_eq,
    countP_entry_offends_congr valid_channelname _ _ h]

/-- C27 (witness): a snomask entry with a well-formed and with a malformed source
expression. -/
theorem config_test_set_logging_ignores_sources_witness :
    config_test_set_logging (fun _ => true)
        (.mk "logging".toList none [.mk "snomask".toList (some "c".toList)
          [.mk "connect.LOCAL_CLIENT_CONNECT".toList none []]]) =
      config_test_set_logging (fun _ => true)
        (.mk "logging".toList none [.mk "snomask".toList (some "c".toList)
          [.mk "Mixed..Case".toList none []]]) :=
  config_test_set_logging_ignores_sources _ _ _
    (List.Forall₂.cons ⟨rfl, rfl⟩ List.Forall₂.nil)

/-! ### The test of a log block -/

/-- The loop of `config_test_log` in closed form: only the first `flags` entry and the
first `maxsize` entry are looked at, every `type` entry is, and every other entry counts. -/
theorem config_test_log_loop_eq (es : List ConfigEntry) (hf hm : Bool) (n : Nat) :
    config_test_log_loop es hf hm n =
      (hf || es.any (entry_named "flags"), hm || es.any (entry_named "maxsize"),
        n + (!hf && first_flags_empty es).toNat + (!hm && first_maxsize_blank es).toNat
          + es.countP bad_type_entry + es.countP unknown_log_entry) := by
  induction es generalizing hf hm n with
  | nil => simp [config_test_log_loop, first_flags_empty, first_maxsize_blank]
  | cons cep next ih =>
    rw [config_test_log_loop]
    by_cases h1 : cep.ce_varname = "flags".toList
    · have e1 : entry_named "flags" cep = true := decide_eq_true h1
      have e2 : entry_named "maxsize" cep = false := by rw [entry_named, h1]; decide
      have e3 : entry_named "type" cep = false := by rw [entry_named, h1]; decide
      have b1 : bad_type_entry cep = false := by simp [bad_type_entry, e3]
      have b2 : unknown_log_entry cep = false := by simp [unknown_log_entry, e1]
      rw [if_pos h1]
      cases hf
      · cases hemp : cep.ce_entries.isEmpty <;>
          simp [ih, e1, e2, b1, b2, hemp, first_flags_empty, first_maxsize_blank,
            List.find?, List.countP_cons]
      · simp [ih, e1, e2, b1, b2, first_flags_empty, first_maxsize_blank, List.find?,
          List.countP_cons]
    · rw [if_neg h1]
      have e1 : entry_named "flags" cep = false := decide_eq_false h1
      by_cases h2 : cep.ce_varname = "maxsize".toList
      · have e2 : entry_named "maxsize" cep = true := decide_eq_true h2
        have e3 : entry_named "type" cep = false := by rw [entry_named, h2]; decide
        have b1 : bad_type_entry cep = false := by simp [bad_type_entry, e3]
        have b2 : unknown_log_entry cep = false := by simp [unknown_log_entry, e2]
        rw [if_pos h2]
        cases hm
        · cases hv : cep.ce_vardata.isNone <;>
            simp [ih, e1, e2, b1, b2, hv, first_flags_empty, first_maxsize_blank,
              List.find?, List.countP_cons] <;> omega
        · simp [ih, e1, e2, b1, b2, first_flags_empty, first_maxsize_blank, List.find?,
            List.countP_cons]
      · rw [if_neg h2]
        have e2 : entry_named "maxsize" cep = false := decide_eq_false h2
        by_cases h3 : cep.ce_varname = "type".toList
        · have e3 : entry_named "type" cep = true := decide_eq_true h3
          have b2 : unknown_log_entry cep = false := by simp [unknown_log_entry, e3]
          rw [if_pos h3]
          cases hv : cep.ce_vardata with
          | none =>
            have b1 : bad_type_entry cep = true := by simp [bad_type_entry, e3, hv]
            simp [ih, e1, e2, b1, b2, first_flags_empty, first_maxsize_blank, List.find?,
              List.countP_cons]
            omega
          | some v =>
            by_cases hty : log_type_stringtoval v = LOG_TYPE_INVALID
            · have b1 : bad_type_entry cep = true := by
                simp only [bad_type_entry, e3, hv, Bool.true_and, decide_eq_true_eq]
                unfold log_type_stringtoval at hty
                split_ifs at hty with hj ht
                exact ⟨hj, ht⟩
              simp [ih, e1, e2, b1, b2, hty, first_flags_empty, first_maxsize_blank,
                List.find?, List.countP_cons]
              omega
            · have b1 : bad_type_entry cep = false := by
                simp only [bad_type_entry, e3, hv, Bool.true_and, decide_eq_false_iff_not]
                intro hb
                apply hty
                unfold log_type_stringtoval
                rw [if_neg hb.1, if_neg hb.2]
              simp [ih, e1, e2, b1, b2, hty, first_flags_empty, first_maxsize_blank,
                List.find?, List.countP_cons]
        · rw [if_neg h3]
          have e3 : entry_named "type" cep = false := decide_eq_false h3
          have b1 : bad_type_entry cep = false := by simp [bad_type_entry, e3]
          have b2 : unknown_log_entry cep = true := by simp [unknown_log_entry, e1, e2, e3]
          simp [ih, e1, e2, b1, b2, first_flags_empty, first_maxsize_blank, List.find?,
            List.countP_cons]
          omega

/-- C26 (counterexample): a log block with a second `flags`, a second `maxsize` and a
second `type` entry passes the test with 0 errors when its file can be opened. -/
theorem duplicate_keys_not_rejected :
    config_test_log (fun path => path) (fun fmt => fmt) (fun _ => true)
      duplicate_keys_block = 0 := by
  decide

/-- C26 (amended): `config_test_log` returns an error count greater than zero exactly when
the block has no file name, or no entries, or no `flags` entry, or its first `flags` entry
is empty, or its first `maxsize` entry has no value, or some `type` entry has no value or a
value other than `json` and `text`, or some entry is none of `flags`, `maxsize`, `type`, or
the file cannot be opened. A second `flags` or `maxsize` entry is skipped, and a second
`type` entry is checked like the first: a duplicate key alone gives no error. -/
theorem config_test_log_rejects (convert_to_absolute_path unreal_strftime : CStr → CStr)
    (fileopen_ok : CStr → Bool) (ce : ConfigEntry) :
    0 < config_test_log convert_to_absolute_path unreal_strftime fileopen_ok ce ↔
      (ce.ce_vardata = none ∨ ce.ce_entries.isEmpty = true ∨
        ce.ce_entries.any (entry_named "flags") = false ∨
        first_flags_empty ce.ce_entries = true ∨
        first_maxsize_blank ce.ce_entries = true ∨
        (∃ e ∈ ce.ce_entries, bad_type_entry e = true) ∨
        (∃ e ∈ ce.ce_entries, unknown_log_entry e = true) ∨
        ∃ v, ce.ce_vardata = some v ∧
          fileopen_ok (unreal_strftime
            (if v ≠ "syslog".toList then convert_to_absolute_path v else v)) = false) := by
  unfold config_test_log
  cases hv : ce.ce_vardata with
  | none => simp
  | some v =>
    by_cases hemp : ce.ce_entries.isEmpty = true
    · simp [hemp]
    · simp only [hemp, Bool.false_eq_true, if_false, config_test_log_loop_eq,
        Bool.false_or, Bool.not_false, Bool.true_and, Nat.zero_add, false_or,
        Option.some.injEq, exists_eq_left', reduceCtorEq]
      have hc1 : 0 < ce.ce_entries.countP bad_type_entry ↔
          ∃ e ∈ ce.ce_entries, bad_type_entry e = true := List.countP_pos_iff
      have hc2 : 0 < ce.ce_entries.countP unknown_log_entry ↔
          ∃ e ∈ ce.ce_entries, unknown_log_entry e = true := List.countP_pos_iff
      rw [← hc1, ← hc2]
      cases first_flags_empty ce.ce_entries <;> cases first_maxsize_blank ce.ce_entries <;>
        cases ce.ce_entries.any (entry_named "flags") <;>
        cases fileopen_ok (unreal_strftime
            (if v ≠ "syslog".toList then convert_to_absolute_path v else v)) <;>
        simp

/-! ### Capacity -/

set_option maxRecDepth 1000000 in
/-- C30 (the failing input): the value of `fun` has 15 characters. With capacity 17 the
template `$fun` gives all of it; with capacity 16, where the remaining capacity is exactly
15, only 14 characters come out; in `More data, fun: $fun!` with capacity 20 the output
has 18 characters, not 19; and with the capacity 1024 of `msgbuf` a value of 1023
characters comes out as 1022. -/
theorem buildlogstring_value_cut_short :
    buildlogstring "$fun".toList 17 (.object [("fun".toList, .string "yes lots of fun".toList)])
      = some "yes lots of fun".toList ∧
    buildlogstring "$fun".toList 16 (.object [("fun".toList, .string "yes lots of fun".toList)])
      = some "yes lots of fu".toList ∧
    buildlogstring "More data, fun: $fun!".toList 20
        (.object [("fun".toList, .string "yes lots of fun".toList)])
      = some "More data, fun: ye".toList ∧
    buildlogstring "$fun".toList 1024
        (.object [("fun".toList, .string (List.replicate 1023 'x'))])
      = some (List.replicate 1022 'x') := by
  refine ⟨by decide, by decide, by decide, ?_⟩
  rfl

/-! ### Before boot and during a configuration test -/

theorem rank_error_iff (loglevel : LogLevel) :
    ULOG_ERROR.rank ≤ loglevel.rank ↔ loglevel = ULOG_ERROR ∨ loglevel = ULOG_FATAL := by
  cases loglevel <;> simp [LogLevel.rank]

/-- C25 (counterexample): before boot, with no configuration test running, an event of
level info is written to the configured file, which is opened for it. -/
theorem preboot_event_is_written :
    do_unreal_log_disk preboot_params ULOG_INFO "main".toList "BOOT".toList
        "starting".toList "JSON".toList
        [⟨some "ircd.log".toList, none, 0, LOG_TYPE_TEXT, none⟩] example_env =
      ([⟨some "ircd.log".toList, none, 0, LOG_TYPE_TEXT, some 0⟩],
       { example_env with fs := ⟨[("ircd.log".toList, 0)],
           ["[Thu Jan  1 00:16:40 1970] info main BOOT: starting\n".toList]⟩ }) := by
  decide

/-- C25 (amended): while a configuration test is running, `do_unreal_log_disk` leaves the
file records, the file system, the pending opens and writes and the warning time as they
are, for every event and every list of records; all it emits is the text line on standard
error, and only when the server has not forked and the level is error or fatal. -/
theorem do_unreal_log_disk_config_test (P : DiskParams) (loglevel : LogLevel)
    (subsystem event_id msg json_serialized : CStr) (conf_log : List ConfigItem_log)
    (e : DiskEnv) (h : P.config_test = true) :
    do_unreal_log_disk P loglevel subsystem event_id msg json_serialized conf_log e =
      (conf_log,
        { e with out := e.out ++
            if P.ircd_forked = false ∧ (loglevel = ULOG_ERROR ∨ loglevel = ULOG_FATAL) then
              [.stderr (disk_text_buf loglevel subsystem event_id msg)]
            else [] }) := by
  unfold do_unreal_log_disk
  simp only [h, if_true, rank_error_iff, Bool.not_eq_true']
  split_ifs
  · rfl
  · simp

/-- C25 (witness): a fatal event during a configuration test, with a record configured. -/
theorem do_unreal_log_disk_config_test_witness :
    do_unreal_log_disk { preboot_params with config_test := true } ULOG_FATAL
        "config".toList "CONFIG_ERROR".toList "bad".toList "JSON".toList
        [⟨some "ircd.log".toList, none, 0, LOG_TYPE_TEXT, none⟩] example_env =
      ([⟨some "ircd.log".toList, none, 0, LOG_TYPE_TEXT, none⟩],
        { example_env with out := example_env.out ++
            if { preboot_params with config_test := true }.ircd_forked = false ∧
                (ULOG_FATAL = ULOG_ERROR ∨ ULOG_FATAL = ULOG_FATAL) then
              [.stderr (disk_text_buf ULOG_FATAL "config".toList "CONFIG_ERROR".toList
                "bad".toList)]
            else [] }) :=
  do_unreal_log_disk_config_test _ _ _ _ _ _ _ _ rfl

/-! ### The rate limit of the warnings -/

theorem disk_step_of_quiet (P : DiskParams) (e e2 : DiskEnv) (ho : e2.out = e.out)
    (hl : e2.last_log_file_warning = e.last_log_file_warning) : disk_step P e e2 :=
  ⟨[], by rw [ho, List.append_nil], Or.inl ⟨rfl, hl⟩⟩

/-- Two stretches of one call make a stretch, when the time of the call and the time plus
300 are values of `int`: after a warning no second one is emitted at the same time. -/
theorem disk_step_trans (P : DiskParams) (e e1 e2 : DiskEnv)
    (hP : -2147483648 ≤ P.now ∧ P.now + 300 < 2147483648) (h1 : disk_step P e e1)
    (h2 : disk_step P e1 e2) : disk_step P e e2 := by
  obtain ⟨o1, ho1, c1⟩ := h1
  obtain ⟨o2, ho2, c2⟩ := h2
  refine ⟨o1 ++ o2, by rw [ho2, ho1, List.append_assoc], ?_⟩
  have hw : warnings (o1 ++ o2) = warnings o1 + warnings o2 := by
    simp [warnings, List.countP_append]
  rcases c1 with ⟨w1, l1⟩ | ⟨b1, w1, t1, l1⟩ | ⟨b1, l1⟩ <;>
    rcases c2 with ⟨w2, l2⟩ | ⟨b2, w2, t2, l2⟩ | ⟨b2, l2⟩
  · exact Or.inl ⟨by omega, by omega⟩
  · exact Or.inr (Or.inl ⟨b2, by omega, by rw [← l1]; exact t2, l2⟩)
  · exact Or.inr (Or.inr ⟨b2, by omega⟩)
  · exact Or.inr (Or.inl ⟨b1, by omega, t1, by omega⟩)
  · exfalso
    rw [l1, to_int_of_range _ hP.1 (by omega), to_int_of_range _ (by omega) hP.2] at t2
    omega
  · rw [b1] at b2; exact absurd b2 (by decide)
  · exact Or.inr (Or.inr ⟨b1, by omega⟩)
  · rw [b1] at b2; exact absurd b2 (by decide)
  · exact Or.inr (Or.inr ⟨b1, by omega⟩)

theorem sys_write_quiet (e : DiskEnv) (fd : Nat) (buf : CStr) :
    (sys_write e fd buf).2.out = e.out ∧
      (sys_write e fd buf).2.last_log_file_warning = e.last_log_file_warning := by
  unfold sys_write
  split
  · exact ⟨rfl, rfl⟩
  · split_ifs <;> exact ⟨rfl, rfl⟩

theorem fd_fileopen_quiet (e : DiskEnv) (path : CStr) :
    (fd_fileopen e path).2.out = e.out ∧
      (fd_fileopen e path).2.last_log_file_warning = e.last_log_file_warning := by
  unfold fd_fileopen
  split
  · exact ⟨rfl, rfl⟩
  · split <;> exact ⟨rfl, rfl⟩

theorem log_file_warning_step (P : DiskParams) (file : CStr) (e : DiskEnv) :
    disk_step P e (log_file_warning P file e) := by
  unfold log_file_warning
  cases hb : P.ircd_booted
  · exact ⟨[.config_status file false], rfl, Or.inr (Or.inr ⟨hb, rfl⟩)⟩
  · by_cases ht : to_int (e.last_log_file_warning + 300) < P.now
    · simp only [Bool.not_true, Bool.false_eq_true, if_false, if_pos ht]
      exact ⟨[.config_status file true], rfl, Or.inr (Or.inl ⟨hb, rfl, ht, rfl⟩)⟩
    · simp only [Bool.not_true, Bool.false_eq_true, if_false, if_neg ht]
      exact disk_step_of_quiet P e e rfl rfl

theorem sys_write_step (P : DiskParams) (e : DiskEnv) (fd : Nat) (buf : CStr) :
    disk_step P e (sys_write e fd buf).2 :=
  disk_step_of_quiet P _ _ (sys_write_quiet _ _ _).1 (sys_write_quiet _ _ _).2

theorem disk_write_step (P : DiskParams) (file : CStr) (type : LogType)
    (subsystem text_buf json_serialized : CStr) (fd : Nat) (e : DiskEnv)
    (hP : -2147483648 ≤ P.now ∧ P.now + 300 < 2147483648) :
    disk_step P e (disk_write P file type subsystem text_buf json_serialized fd e) := by
  have w1 := sys_write_step P e fd json_serialized
  have w2 := sys_write_step P (sys_write e fd json_serialized).2 fd ['\n']
  have w3 := sys_write_step P e fd (disk_timebuf P)
  have w4 := sys_write_step P (sys_write e fd (disk_timebuf P)).2 fd text_buf
  unfold disk_write
  dsimp only
  split_ifs
  · exact disk_step_trans P _ _ _ hP w1 (log_file_warning_step P file _)
  · exact disk_step_trans P _ _ _ hP w1 w2
  · exact disk_step_trans P _ _ _ hP (disk_step_trans P _ _ _ hP w3 w4)
      (log_file_warning_step P file _)
  · exact disk_step_trans P _ _ _ hP w3 w4
  · exact disk_step_of_quiet P e e rfl rfl

theorem disk_maxsize_quiet (file : CStr) (l : ConfigItem_log) (e : DiskEnv) :
    (disk_maxsize file l e).2.out = e.out ∧
      (disk_maxsize file l e).2.last_log_file_warning = e.last_log_file_warning := by
  unfold disk_maxsize
  simp only
  split_ifs
  · cases hfd : l.logfd with
    | none =>
      simp only
      cases ho : (fd_fileopen e file).1 with
      | none => exact fd_fileopen_quiet e file
      | some fd =>
        exact ⟨(sys_write_quiet _ _ _).1.trans (fd_fileopen_quiet e file).1,
          (sys_write_quiet _ _ _).2.trans (fd_fileopen_quiet e file).2⟩
    | some fd => exact sys_write_quiet _ _ _
  · exact ⟨rfl, rfl⟩

theorem disk_record_step (P : DiskParams) (subsystem text_buf json_serialized : CStr)
    (l : ConfigItem_log) (e : DiskEnv)
    (hP : -2147483648 ≤ P.now ∧ P.now + 300 < 2147483648) :
    disk_step P e (disk_record P subsystem text_buf json_serialized l e).2 := by
  unfold disk_record
  dsimp only
  split_ifs
  · exact ⟨[.syslog text_buf], rfl, Or.inl ⟨rfl, rfl⟩⟩
  · split
    · exact disk_step_of_quiet P e e rfl rfl
    · next file _ =>
      have hm := disk_maxsize_quiet file
      split
      · exact disk_step_trans P _ _ _ hP (disk_step_of_quiet P _ _ (hm _ e).1 (hm _ e).2)
          (disk_write_step P file _ subsystem text_buf json_serialized _ _ hP)
      · have ho := fd_fileopen_quiet
        split
        · exact disk_step_trans P _ _ _ hP
            (disk_step_of_quiet P _ _ ((ho _ file).1.trans (hm _ e).1)
              ((ho _ file).2.trans (hm _ e).2))
            (log_file_warning_step P file _)
        · exact disk_step_trans P _ _ _ hP
            (disk_step_of_quiet P _ _ ((ho _ file).1.trans (hm _ e).1)
              ((ho _ file).2.trans (hm _ e).2))
            (disk_write_step P file _ subsystem text_buf json_serialized _ _ hP)

theorem disk_loop_step (P : DiskParams) (subsystem text_buf json_serialized : CStr)
    (conf_log : List ConfigItem_log) (e : DiskEnv)
    (hP : -2147483648 ≤ P.now ∧ P.now + 300 < 2147483648) :
    disk_step P e (disk_loop P subsystem text_buf json_serialized conf_log e).2 := by
  induction conf_log generalizing e with
  | nil => exact disk_step_of_quiet P e e rfl rfl
  | cons l next ih =>
    rw [disk_loop]
    exact disk_step_trans P _ _ _ hP
      (disk_record_step P subsystem text_buf json_serialized l e hP) (ih _)

/-- One call of `do_unreal_log_disk` is a stretch in the sense of `disk_step`, when the
time of the call and the time plus 300 are values of `int`. -/
theorem do_unreal_log_disk_step (P : DiskParams) (loglevel : LogLevel)
    (subsystem event_id msg json_serialized : CStr) (conf_log : List ConfigItem_log)
    (e : DiskEnv) (hP : -2147483648 ≤ P.now ∧ P.now + 300 < 2147483648) :
    disk_step P e
      (do_unreal_log_disk P loglevel subsystem event_id msg json_serialized conf_log e).2 := by
  have hstderr : disk_step P e
      (if !P.ircd_forked ∧ ULOG_ERROR.rank ≤ loglevel.rank then
        { e with out := e.out ++ [.stderr (disk_text_buf loglevel subsystem event_id msg)] }
      else e) := by
    split_ifs
    · exact ⟨[.stderr _], rfl, Or.inl ⟨rfl, rfl⟩⟩
    · exact disk_step_of_quiet P e e rfl rfl
  unfold do_unreal_log_disk
  dsimp only
  by_cases hc : P.config_test = true
  · rw [if_pos hc]
    exact hstderr
  · rw [if_neg hc]
    exact disk_step_trans P _ _ _ hP hstderr (disk_loop_step P _ _ _ _ _ hP)

/-- A stretch at a time that fits keeps the warning time from `t` on and below
`2^31 - 300`. -/
theorem disk_step_keeps (P : DiskParams) (e e2 : DiskEnv) (t : Int)
    (hP : -2147483648 ≤ P.now ∧ P.now + 300 < 2147483648) (h : disk_step P e e2)
    (ht : -2147483648 ≤ t) (h1 : t ≤ e.last_log_file_warning)
    (h2 : e.last_log_file_warning + 300 < 2147483648) :
    t ≤ e2.last_log_file_warning ∧ e2.last_log_file_warning + 300 < 2147483648 := by
  obtain ⟨o, _, c⟩ := h
  rcases c with ⟨_, l⟩ | ⟨_, _, g, l⟩ | ⟨_, l⟩
  · rw [l]
    exact ⟨h1, h2⟩
  · rw [to_int_of_range _ (by omega) h2] at g
    rw [l, to_int_of_range _ hP.1 (by omega)]
    exact ⟨by omega, hP.2⟩
  · rw [l]
    exact ⟨h1, h2⟩

theorem disk_calls_keep (cs : List DiskCall) (t : Int) (ht : -2147483648 ≤ t)
    (hcs : ∀ c ∈ cs, -2147483648 ≤ c.P.now ∧ c.P.now + 300 < 2147483648) :
    ∀ s : List ConfigItem_log × DiskEnv, t ≤ s.2.last_log_file_warning →
      s.2.last_log_file_warning + 300 < 2147483648 →
      t ≤ (disk_calls cs s).2.last_log_file_warning ∧
        (disk_calls cs s).2.last_log_file_warning + 300 < 2147483648 := by
  induction cs with
  | nil => intro s h1 h2; exact ⟨h1, h2⟩
  | cons c rest ih =>
    intro s h1 h2
    rw [disk_calls]
    have hc := hcs c (List.mem_cons_self _ _)
    obtain ⟨k1, k2⟩ := disk_step_keeps c.P _ _ t hc
      (do_unreal_log_disk_step c.P c.loglevel c.subsystem c.event_id c.msg c.json_serialized
        s.1 s.2 hc) ht h1 h2
    exact ih (fun x hx => hcs x (List.mem_cons_of_mem _ hx)) _ k1 k2

/-- C23 (counterexample): before boot, two events at the same second whose open of the same
file fails give two `config_status` calls. And after boot, at the times 2147484648 and
2147484649, which are no values of `int`, two events one second apart whose open of the
same file fails give two `config_status` calls: the time stored by the first one is
-2147482648. -/
theorem preboot_failures_both_reported :
    (disk_calls
        [{ example_call 1000 with P := preboot_params },
         { example_call 1000 with P := preboot_params }]
        ([⟨some "ircd.log".toList, none, 0, LOG_TYPE_TEXT, none⟩],
          { example_env with opens := [false, false] })).2.out =
      [.config_status "ircd.log".toList false, .config_status "ircd.log".toList false] ∧
    (disk_calls [example_call 2147484648]
        ([⟨some "ircd.log".toList, none, 0, LOG_TYPE_TEXT, none⟩],
          { example_env with opens := [false, false] })).2.last_log_file_warning =
      -2147482648 ∧
    (disk_calls [example_call 2147484648, example_call 2147484649]
        ([⟨some "ircd.log".toList, none, 0, LOG_TYPE_TEXT, none⟩],
          { example_env with opens := [false, false] })).2.out =
      [.config_status "ircd.log".toList true, .config_status "ircd.log".toList true] := by
  refine ⟨by decide, by decide, by decide⟩

/-- C23 (amended): after boot, at times that are values of `int` together with the 300
seconds added to them, two calls of the disk sink whose times are at most 300 seconds
apart emit at most one `config_status` call between them, however many opens and writes
fail in them on whichever file records, and whatever calls are made in between. -/
theorem warnings_rate_limited (c1 c2 : DiskCall) (mid : List DiskCall)
    (s : List ConfigItem_log × DiskEnv) (h1 : c1.P.ircd_booted = true)
    (h2 : c2.P.ircd_booted = true) (ht : c2.P.now ≤ c1.P.now + 300)
    (hfit : ∀ c ∈ c1 :: c2 :: mid, -2147483648 ≤ c.P.now ∧ c.P.now + 300 < 2147483648) :
    ∃ o1 o2, (c1.run s).2.out = s.2.out ++ o1 ∧
      (c2.run (disk_calls mid (c1.run s))).2.out = (disk_calls mid (c1.run s)).2.out ++ o2 ∧
      warnings o1 + warnings o2 ≤ 1 := by
  have hf1 := hfit c1 (List.mem_cons_self _ _)
  have hf2 := hfit c2 (List.mem_cons_of_mem _ (List.mem_cons_self _ _))
  have hfm : ∀ c ∈ mid, -2147483648 ≤ c.P.now ∧ c.P.now + 300 < 2147483648 :=
    fun c hc => hfit c (List.mem_cons_of_mem _ (List.mem_cons_of_mem _ hc))
  obtain ⟨o1, ho1, k1⟩ := do_unreal_log_disk_step c1.P c1.loglevel c1.subsystem c1.event_id
    c1.msg c1.json_serialized s.1 s.2 hf1
  obtain ⟨o2, ho2, k2⟩ := do_unreal_log_disk_step c2.P c2.loglevel c2.subsystem c2.event_id
    c2.msg c2.json_serialized (disk_calls mid (c1.run s)).1 (disk_calls mid (c1.run s)).2 hf2
  refine ⟨o1, o2, ho1, ho2, ?_⟩
  have e1 : (do_unreal_log_disk c1.P c1.loglevel c1.subsystem c1.event_id c1.msg
      c1.json_serialized s.1 s.2) = c1.run s := rfl
  rw [e1] at k1
  rcases k1 with ⟨w1, _⟩ | ⟨_, w1, _, l1⟩ | ⟨b1, _⟩
  · rcases k2 with ⟨w2, _⟩ | ⟨_, w2, _, _⟩ | ⟨b2, _⟩
    · omega
    · omega
    · rw [h2] at b2; exact absurd b2 (by decide)
  · rcases k2 with ⟨w2, _⟩ | ⟨_, w2, t2, _⟩ | ⟨b2, _⟩
    · omega
    · exfalso
      rw [to_int_of_range _ hf1.1 (by omega)] at l1
      obtain ⟨m1, m2⟩ := disk_calls_keep mid c1.P.now hf1.1 hfm (c1.run s) (by omega)
        (by omega)
      rw [to_int_of_range _ (by omega) m2] at t2
      omega
    · rw [h2] at b2; exact absurd b2 (by decide)
  · rw [h1] at b1; exact absurd b1 (by decide)

/-- C23 (witness): two events 299 seconds apart whose open of the same file fails. -/
theorem warnings_rate_limited_witness :
    ∃ o1 o2,
      ((example_call 1000).run ([⟨some "ircd.log".toList, none, 0, LOG_TYPE_TEXT, none⟩],
          { example_env with opens := [false, false] })).2.out =
        ({ example_env with opens := [false, false] } : DiskEnv).out ++ o1 ∧
      ((example_call 1299).run (disk_calls []
          ((example_call 1000).run ([⟨some "ircd.log".toList, none, 0, LOG_TYPE_TEXT, none⟩],
          { example_env with opens := [false, false] })))).2.out =
        (disk_calls [] ((example_call 1000).run
          ([⟨some "ircd.log".toList, none, 0, LOG_TYPE_TEXT, none⟩],
          { example_env with opens := [false, false] }))).2.out ++ o2 ∧
      warnings o1 + warnings o2 ≤ 1 :=
  warnings_rate_limited (example_call 1000) (example_call 1299) []
    ([⟨some "ircd.log".toList, none, 0, LOG_TYPE_TEXT, none⟩],
      { example_env with opens := [false, false] }) rfl rfl (by decide)
    (by
      intro c hc
      simp only [List.mem_cons, List.mem_singleton, List.not_mem_nil, or_false] at hc
      rcases hc with rfl | rfl <;> exact ⟨by decide, by decide⟩)

/-! ### One warning time for all file records -/

/-- C31 (the failing inputs): a json record, an event whose text line has 22 characters and
whose serialized record has 30. When the system takes only 25 characters of the record, no
failure is seen and the newline is appended to the cut record; when the write fails with
-1, no failure is seen either and the newline is written; and a serialized record of 4
characters that is written in full is treated as a failure, without a newline. -/
theorem json_write_checked_against_text_line :
    (disk_text_buf ULOG_INFO "main".toList "TEST".toList "hello".toList).length = 22 ∧
    (do_unreal_log_disk example_params ULOG_INFO "main".toList "TEST".toList "hello".toList
        "serialized record of the event".toList
        [⟨some "ircd.json.log".toList, none, 0, LOG_TYPE_JSON, none⟩]
        { example_env with writes := [25] }).2 =
      { example_env with
        fs := ⟨[("ircd.json.log".toList, 0)], ["serialized record of the \n".toList]⟩ } ∧
    (do_unreal_log_disk example_params ULOG_INFO "main".toList "TEST".toList "hello".toList
        "serialized record of the event".toList
        [⟨some "ircd.json.log".toList, none, 0, LOG_TYPE_JSON, none⟩]
        { example_env with writes := [-1] }).2 =
      { example_env with fs := ⟨[("ircd.json.log".toList, 0)], ["\n".toList]⟩ } ∧
    (do_unreal_log_disk example_params ULOG_INFO "main".toList "TEST".toList "hello".toList
        "JSON".toList
        [⟨some "ircd.json.log".toList, none, 0, LOG_TYPE_JSON, none⟩] example_env).2 =
      { example_env with
        fs := ⟨[("ircd.json.log".toList, 0)], ["JSON".toList]⟩,
        out := [.config_status "ircd.json.log".toList true],
        last_log_file_warning := 1000 } := by
  decide

/-! ### The RPC call `spamfilter.add` -/

/-- The listed conditions when the five required parameters are present. -/
theorem request_rejected_of_present {Match TKL : Type} (E : RpcEnv Match TKL) (params : Json)
    (name str1 str2 str3 reason : CStr)
    (h1 : E.json_object_get_string params "name".toList = some name)
    (h2 : E.json_object_get_string params "match_type".toList = some str1)
    (h3 : E.json_object_get_string params "spamfilter_targets".toList = some str2)
    (h4 : E.json_object_get_string params "ban_action".toList = some str3)
    (h5 : E.json_object_get_string params "reason".toList = some reason) :
    request_rejected E params ↔
      (E.unreal_match_method_strtoval str1 = 0 ∨ E.spamfilter_gettargets str2 = 0 ∨
        E.banact_stringtoval str3 = 0 ∨
        (∃ s, E.json_object_get_string params "ban_duration".toList = some s ∧
          E.config_checkval_time s < 0) ∨
        (E.find_tkl_spamfilter E.tkl_spamf_global name (E.banact_stringtoval str3)
          (E.spamfilter_gettargets str2)).isSome = true ∨
        E.unreal_create_match (E.unreal_match_method_strtoval str1) name = none) := by
  unfold request_rejected
  simp only [h1, h2, h3, h4, h5, reduceCtorEq, false_or, Option.some.injEq, exists_eq_left',
    exists_and_left, exists_eq_left]

/-- The last part of the function: one error reply and nothing else when the ban duration
is invalid, an identical spamfilter exists or the match string does not compile; otherwise
the spamfilter is added first and one reply follows. -/
theorem rpc_spamfilter_add_tail_cases {Match TKL : Type} (E : RpcEnv Match TKL)
    (client : Client) (params : Json) (name : CStr) (match_type targets action : Int)
    (reason : CStr) :
    (((∃ s, E.json_object_get_string params "ban_duration".toList = some s ∧
          E.config_checkval_time s < 0) ∨
        (E.find_tkl_spamfilter E.tkl_spamf_global name action targets).isSome = true ∨
        E.unreal_create_match match_type name = none) ∧
      ∃ code message,
        rpc_spamfilter_add_tail E client params name match_type targets action reason =
          [.rpc_error code message] ∧
        (code = JSON_RPC_ERROR_INVALID_PARAMS ∨ code = JSON_RPC_ERROR_ALREADY_EXISTS) ∧
        (code = JSON_RPC_ERROR_ALREADY_EXISTS →
          (E.find_tkl_spamfilter E.tkl_spamf_global name action targets).isSome = true)) ∨
    ((¬ ((∃ s, E.json_object_get_string params "ban_duration".toList = some s ∧
          E.config_checkval_time s < 0) ∨
        (E.find_tkl_spamfilter E.tkl_spamf_global name action targets).isSome = true ∨
        E.unreal_create_match match_type name = none)) ∧
      ∃ args,
        (rpc_spamfilter_add_tail E client params name match_type targets action reason =
            [.tkl_add_spamfilter args,
             .rpc_error JSON_RPC_ERROR_INTERNAL_ERROR "Unable to add item".toList] ∧
          E.tkl_add_spamfilter args = none) ∨
        ∃ tkl,
          rpc_spamfilter_add_tail E client params name match_type targets action reason =
            [.tkl_add_spamfilter args, .tkl_added tkl,
             .rpc_response (E.json_expand_tkl tkl)] ∧
          E.tkl_add_spamfilter args = some tkl) := by
  unfold rpc_spamfilter_add_tail
  have hdur : ((match E.json_object_get_string params "ban_duration".toList with
      | some str => E.config_checkval_time str
      | none => 0) < 0) ↔
      ∃ s, E.json_object_get_string params "ban_duration".toList = some s ∧
        E.config_checkval_time s < 0 := by
    cases E.json_object_get_string params "ban_duration".toList <;> simp
  simp only
  by_cases hd : (match E.json_object_get_string params "ban_duration".toList with
      | some str => E.config_checkval_time str
      | none => 0) < 0
  · rw [if_pos hd]
    exact Or.inl ⟨Or.inl (hdur.mp hd), _, _, rfl, Or.inl rfl, fun h => absurd h (by decide)⟩
  · rw [if_neg hd]
    have hd2 := fun h => hd (hdur.mpr h)
    by_cases hf : (E.find_tkl_spamfilter E.tkl_spamf_global name action targets).isSome = true
    · rw [if_pos hf]
      exact Or.inl ⟨Or.inr (Or.inl hf), _, _, rfl, Or.inr rfl, fun _ => hf⟩
    · rw [if_neg hf]
      cases hm : E.unreal_create_match match_type name with
      | none =>
        exact Or.inl ⟨Or.inr (Or.inr rfl), _, _, rfl, Or.inl rfl,
          fun h => absurd h (by decide)⟩
      | some m =>
        refine Or.inr ⟨?_, ?_⟩
        · rintro (h | h | h)
          · exact hd2 h
          · exact hf h
          · exact absurd h (by simp)
        · simp only
          refine ⟨⟨E.tkl_spamf_global, targets, action, m, client.name, 0, E.tstime,
              (match E.json_object_get_string params "ban_duration".toList with
                | some str => E.config_checkval_time str
                | none => 0), reason, 0⟩, ?_⟩
          cases ha : E.tkl_add_spamfilter ⟨E.tkl_spamf_global, targets, action, m,
              client.name, 0, E.tstime,
              (match E.json_object_get_string params "ban_duration".toList with
                | some str => E.config_checkval_time str
                | none => 0), reason, 0⟩ with
          | none => exact Or.inl ⟨rfl, rfl⟩
          | some tkl => exact Or.inr ⟨tkl, rfl, rfl⟩

/-- C32: `rpc_spamfilter_add` validates before it adds. For every request in which one of
the parameters name, match_type, spamfilter_targets, ban_action, reason is absent, or
match_type, spamfilter_targets, ban_action or ban_duration has an invalid value, or an
identical spamfilter exists, or the match string does not compile, the function makes one
call only, an `rpc_error` with the code INVALID_PARAMS or ALREADY_EXISTS, the latter only
when an identical spamfilter exists: `tkl_add_spamfilter` and `tkl_added` are not called.
For every other request the spamfilter is added and one reply follows, the result or the
error of a failed addition. On every path exactly one reply is sent. -/
theorem rpc_spamfilter_add_validates {Match TKL : Type} (E : RpcEnv Match TKL)
    (client : Client) (params : Json) :
    (request_rejected E params →
      ∃ code message, rpc_spamfilter_add E client params = [.rpc_error code message] ∧
        (code = JSON_RPC_ERROR_INVALID_PARAMS ∨ code = JSON_RPC_ERROR_ALREADY_EXISTS) ∧
        (code = JSON_RPC_ERROR_ALREADY_EXISTS →
          ∃ name t a, E.json_object_get_string params "name".toList = some name ∧
            E.json_object_get_string params "spamfilter_targets".toList = some t ∧
            E.json_object_get_string params "ban_action".toList = some a ∧
            (E.find_tkl_spamfilter E.tkl_spamf_global name (E.banact_stringtoval a)
              (E.spamfilter_gettargets t)).isSome = true)) ∧
    (¬ request_rejected E params →
      ∃ args,
        rpc_spamfilter_add E client params =
          [.tkl_add_spamfilter args,
           .rpc_error JSON_RPC_ERROR_INTERNAL_ERROR "Unable to add item".toList] ∨
        ∃ tkl, rpc_spamfilter_add E client params =
          [.tkl_add_spamfilter args, .tkl_added tkl,
           .rpc_response (E.json_expand_tkl tkl)]) ∧
    (rpc_spamfilter_add E client params).countP RpcEffect.is_reply = 1 ∧
    (request_rejected E params →
      (rpc_spamfilter_add E client params).countP RpcEffect.is_mutation = 0) := by
  have key : ∀ msg, rpc_spamfilter_add E client params =
      [.rpc_error JSON_RPC_ERROR_INVALID_PARAMS msg] → request_rejected E params →
      ((request_rejected E params →
        ∃ code message, rpc_spamfilter_add E client params = [.rpc_error code message] ∧
          (code = JSON_RPC_ERROR_INVALID_PARAMS ∨ code = JSON_RPC_ERROR_ALREADY_EXISTS) ∧
          (code = JSON_RPC_ERROR_ALREADY_EXISTS →
            ∃ name t a, E.json_object_get_string params "name".toList = some name ∧
              E.json_object_get_string params "spamfilter_targets".toList = some t ∧
              E.json_object_get_string params "ban_action".toList = some a ∧
              (E.find_tkl_spamfilter E.tkl_spamf_global name (E.banact_stringtoval a)
                (E.spamfilter_gettargets t)).isSome = true)) ∧
      (¬ request_rejected E params →
        ∃ args,
          rpc_spamfilter_add E client params =
            [.tkl_add_spamfilter args,
             .rpc_error JSON_RPC_ERROR_INTERNAL_ERROR "Unable to add item".toList] ∨
          ∃ tkl, rpc_spamfilter_add E client params =
            [.tkl_add_spamfilter args, .tkl_added tkl,
             .rpc_response (E.json_expand_tkl tkl)]) ∧
      (rpc_spamfilter_add E client params).countP RpcEffect.is_reply = 1 ∧
      (request_rejected E params →
        (rpc_spamfilter_add E client params).countP RpcEffect.is_mutation = 0)) := by
    intro msg he hr
    refine ⟨fun _ => ⟨_, _, he, Or.inl rfl, fun h => absurd h (by decide)⟩,
      fun hn => absurd hr hn, ?_, fun _ => ?_⟩
    · rw [he]; rfl
    · rw [he]; rfl
  rcases Option.eq_none_or_eq_some (E.json_object_get_string params "name".toList)
    with h1 | ⟨name, h1⟩
  · exact key _ (by simp only [rpc_spamfilter_add, h1]; rfl) (Or.inl h1)
  rcases Option.eq_none_or_eq_some (E.json_object_get_string params "match_type".toList)
    with h2 | ⟨str1, h2⟩
  · exact key _ (by simp only [rpc_spamfilter_add, h1, h2]; rfl) (Or.inr (Or.inl h2))
  by_cases hmt : E.unreal_match_method_strtoval str1 = 0
  · exact key _ (by simp only [rpc_spamfilter_add, h1, h2, hmt, if_true]; rfl)
      (Or.inr (Or.inr (Or.inr (Or.inr (Or.inr (Or.inl ⟨str1, h2, hmt⟩))))))
  rcases Option.eq_none_or_eq_some (E.json_object_get_string params "spamfilter_targets".toList)
    with h3 | ⟨str2, h3⟩
  · exact key _ (by simp only [rpc_spamfilter_add, h1, h2, hmt, if_false, h3]; rfl)
      (Or.inr (Or.inr (Or.inl h3)))
  by_cases htg : E.spamfilter_gettargets str2 = 0
  · exact key _
      (by simp only [rpc_spamfilter_add, h1, h2, hmt, if_false, h3, htg, if_true]; rfl)
      (Or.inr (Or.inr (Or.inr (Or.inr (Or.inr (Or.inr (Or.inl ⟨str2, h3, htg⟩)))))))
  rcases Option.eq_none_or_eq_some (E.json_object_get_string params "ban_action".toList)
    with h4 | ⟨str3, h4⟩
  · exact key _ (by simp only [rpc_spamfilter_add, h1, h2, hmt, if_false, h3, htg, h4]; rfl)
      (Or.inr (Or.inr (Or.inr (Or.inl h4))))
  by_cases hact : E.banact_stringtoval str3 = 0
  · exact key _
      (by simp only [rpc_spamfilter_add, h1, h2, hmt, if_false, h3, htg, h4, hact, if_true]; rfl)
      (Or.inr (Or.inr (Or.inr (Or.inr (Or.inr (Or.inr (Or.inr (Or.inl ⟨str3, h4, hact⟩))))))))
  rcases Option.eq_none_or_eq_some (E.json_object_get_string params "reason".toList)
    with h5 | ⟨reason, h5⟩
  · exact key _
      (by simp only [rpc_spamfilter_add, h1, h2, hmt, if_false, h3, htg, h4, hact, h5]; rfl)
      (Or.inr (Or.inr (Or.inr (Or.inr (Or.inl h5)))))
  have he : rpc_spamfilter_add E client params =
      rpc_spamfilter_add_tail E client params name (E.unreal_match_method_strtoval str1)
        (E.spamfilter_gettargets str2) (E.banact_stringtoval str3) reason := by
    simp only [rpc_spamfilter_add, h1, h2, hmt, if_false, h3, htg, h4, hact, h5]
  have hrej := request_rejected_of_present E params name str1 str2 str3 reason h1 h2 h3 h4 h5
  simp only [hmt, htg, hact, false_or] at hrej
  rw [he, hrej]
  rcases rpc_spamfilter_add_tail_cases E client params name
      (E.unreal_match_method_strtoval str1) (E.spamfilter_gettargets str2)
      (E.banact_stringtoval str3) reason with
    ⟨hbad, code, message, hx, hcode, hdup⟩ | ⟨hgood, args, hx⟩
  · refine ⟨fun _ => ⟨code, message, hx, hcode, fun hc => ⟨name, str2, str3, h1, h3, h4,
      hdup hc⟩⟩, fun hn => absurd hbad hn, ?_, fun _ => ?_⟩
    · rw [hx]; rfl
    · rw [hx]; rfl
  · refine ⟨fun hb => absurd hb hgood, fun _ => ⟨args, ?_⟩, ?_, fun hb => absurd hb hgood⟩
    · rcases hx with ⟨hx, _⟩ | ⟨tkl, hx, _⟩
      · exact Or.inl hx
      · exact Or.inr ⟨tkl, hx⟩
    · rcases hx with ⟨hx, _⟩ | ⟨tkl, hx, _⟩
      · rw [hx]; rfl
      · rw [hx]; rfl

/-- Examples of `rpc_spamfilter_add`: a well-formed request is added and answered with the
result; a negative duration, an existing spamfilter and a match string that does not
compile each give one error reply and nothing else. -/
theorem rpc_spamfilter_add_examples :
    rpc_spamfilter_add example_rpc_env logtest_me (example_request "viagra" "1h") =
      [.tkl_add_spamfilter ⟨1, 3, 1, "viagra".toList, logtest_me.name, 0, 1000, 3600,
          "spam".toList, 0⟩,
       .tkl_added 8, .rpc_response (.object [("tkl".toList, .integer 8)])] ∧
    rpc_spamfilter_add example_rpc_env logtest_me (example_request "viagra" "-1") =
      [.rpc_error JSON_RPC_ERROR_INVALID_PARAMS
        "Invalid value for parameter 'ban_duration'".toList] ∧
    rpc_spamfilter_add example_rpc_env logtest_me (example_request "dup" "1h") =
      [.rpc_error JSON_RPC_ERROR_ALREADY_EXISTS
        "A spamfilter with that regex+action+target already exists".toList] ∧
    rpc_spamfilter_add example_rpc_env logtest_me (example_request "(" "1h") =
      [.rpc_error JSON_RPC_ERROR_INVALID_PARAMS
        "Invalid regex or match string specified".toList] := by
  refine ⟨?_, ?_, ?_, ?_⟩ <;> rfl

end UnrealLog
